import Mathlib

/-!
# Fantasy-Football-Dundies: the site script `site/app.js`

A shallow embedding of the chart layout of `createSparkline`, of the insight
grouping of `renderInsights`, of the formatters and of the season/team
selection logic (`init`, `loadSeason`, `ensureTeamInsights`, `setTeamSelection`,
`applyInsightsForSeason`), followed by the properties proved about them.

The chart layout is embedded twice. `createSparkline64` follows the script on
IEEE 754 doubles: a number is the rational it denotes, and every arithmetic
operation is followed by the rounding `fl` to the nearest double. The
properties of the axis bounds, the tick step, the gridlines and the points are
proved of it. `createSparkline` is the same computation in exact rational
arithmetic, without any rounding; the properties of the single point, of the
trend scenario and of the x-axis labels are stated of it.

A plain object used as a map is the list of its own properties. The members
that it inherits from `Object.prototype` are accounted for where a lookup of
the script can reach them: `objectPrototypeNames`, `assignProp`, `sectionOf`,
`teamInherited`.
-/

namespace Dundies

/-! ## Chart layout: `createSparkline` -/

/-- The value `Math.min(...values)` for a series with first element `v` and rest `vs`. -/
def jsMin (v : ℚ) (vs : List ℚ) : ℚ := vs.foldl min v

/-- The value `Math.max(...values)` for a series with first element `v` and rest `vs`. -/
def jsMax (v : ℚ) (vs : List ℚ) : ℚ := vs.foldl max v

/-- The JavaScript `a || b` on numbers: `b` when `a` is zero, else `a`. -/
def orNum (a b : ℚ) : ℚ := if a = 0 then b else a

/-- The loop
`while (maxBound < maxBoundRaw) { step += 10; maxBound = minBound + step * 4; }`
started with the given `step` and `maxBound`. The condition is tested at most
`fuel` times; the result is `none` when the fuel is used up before the
condition turns false, else the final `(step, maxBound)`. -/
def growStep (minBound : ℤ) (maxBoundRaw : ℚ) : ℕ → ℤ → ℤ → Option (ℤ × ℤ)
  | 0, _, _ => none
  | fuel + 1, step, maxBound =>
    if (maxBound : ℚ) < maxBoundRaw then
      growStep minBound maxBoundRaw fuel (step + 10) (minBound + (step + 10) * 4)
    else
      some (step, maxBound)

/-- Number of condition tests granted to the loop of `createSparkline`: every
pass raises `maxBound` by 40, so the gap to `maxBoundRaw` bounds the passes. -/
def loopFuel (maxBoundRaw : ℚ) (maxBound : ℤ) : ℕ :=
  (⌈(maxBoundRaw - maxBound) / 40⌉).toNat + 1

/-- The geometry computed by `createSparkline` for a non-empty series. -/
structure Chart where
  min : ℚ
  max : ℚ
  pad : ℚ
  minBoundRaw : ℚ
  maxBoundRaw : ℚ
  minBound : ℤ
  maxBound : ℤ
  step : ℤ
  boundedRange : ℚ
  coords : List (ℚ × ℚ)
  yTickValues : List ℤ
  deriving DecidableEq

/-- What `createSparkline` returns: `{ svg: null, min: null, max: null }` or a
chart. -/
inductive Sparkline
  | noChart
  | chart (c : Chart)
  deriving DecidableEq

/-- The point of sample `index` with value `value`, lines 403-410. -/
def coordOf (length : ℕ) (minBound : ℤ) (boundedRange : ℚ) (index : ℕ) (value : ℚ) : ℚ × ℚ :=
  let width : ℚ := 840
  let height : ℚ := 200
  let left : ℚ := 56
  let right : ℚ := 18
  let top : ℚ := 12
  let bottom : ℚ := 46
  let innerWidth := width - left - right
  let innerHeight := height - top - bottom
  let x := if length = 1 then left + innerWidth / 2
    else left + ((index : ℚ) / ((length : ℚ) - 1)) * innerWidth
  let y := top + (1 - (value - minBound) / boundedRange) * innerHeight
  (x, y)

/-- Line 380: `Math.max(5, range * 0.15)` with `range = max - min || 1`. -/
def padOf (min max : ℚ) : ℚ := Max.max 5 (orNum (max - min) 1 * (15 / 100))

/-- Line 383: `Math.floor(minBoundRaw / 10) * 10`. -/
def floorTen (minBoundRaw : ℚ) : ℤ := ⌊minBoundRaw / 10⌋ * 10

/-- Line 384: `Math.ceil(maxBoundRaw / 10) * 10`. -/
def ceilTen (maxBoundRaw : ℚ) : ℤ := ⌈maxBoundRaw / 10⌉ * 10

/-- Lines 385-387: `if (maxBound <= minBound) { maxBound = minBound + 40; }`. -/
def widenBound (minBound maxBound : ℤ) : ℤ :=
  if maxBound ≤ minBound then minBound + 40 else maxBound

/-- Line 388: `Math.ceil(((maxBound - minBound) / 4) / 10) * 10`. -/
def stepCeil (minBound maxBound : ℤ) : ℤ :=
  ⌈(((maxBound - minBound : ℤ) : ℚ) / 4) / 10⌉ * 10

/-- Lines 389-391: `if (step < 10) { step = 10; }`. -/
def stepFloor (step : ℤ) : ℤ := if step < 10 then 10 else step

/-- The function `createSparkline(values, axisConfig)`, lines 373-443, in exact rational
arithmetic: the early return for an empty series, the axis bounds, the tick
step, the points and the five gridline values, none of them rounded. The outer
`none` is a loop that ran out of fuel. The script computes on doubles; that
computation is `createSparkline64`. -/
def createSparkline (values : List ℚ) : Option Sparkline :=
  match values with
  | [] => some Sparkline.noChart
  | v :: vs =>
    let min := jsMin v vs
    let max := jsMax v vs
    let pad := padOf min max
    let minBoundRaw := min - pad
    let maxBoundRaw := max + pad
    let minBound := floorTen minBoundRaw
    let maxBound0 := widenBound minBound (ceilTen maxBoundRaw)
    let step0 := stepFloor (stepCeil minBound maxBound0)
    let maxBound1 := minBound + step0 * 4
    match growStep minBound maxBoundRaw (loopFuel maxBoundRaw maxBound1) step0 maxBound1 with
    | none => none
    | some (step, maxBound) =>
      let boundedRange := orNum ((maxBound - minBound : ℤ) : ℚ) 1
      some (Sparkline.chart
        { min := min
          max := max
          pad := pad
          minBoundRaw := minBoundRaw
          maxBoundRaw := maxBoundRaw
          minBound := minBound
          maxBound := maxBound
          step := step
          boundedRange := boundedRange
          coords := (v :: vs).enum.map
            (fun p => coordOf (v :: vs).length minBound boundedRange p.1 p.2)
          yTickValues := (List.range 5).map (fun idx => maxBound - step * (idx : ℤ)) })

/-! ## Insight grouping: `renderInsights` -/

/-- An insight of a dataset. Only `id` takes part in the grouping; `title` stands
for the rest of the record, which is carried along unchanged. -/
structure Insight where
  id : String
  title : String
  deriving DecidableEq

/-- Lines 1-36: the table from insight id to section name. -/
def SECTION_MAP : List (String × String) :=
  [ ("league_champion_dna", "Performance & Results"),
    ("paper_tiger", "Performance & Results"),
    ("unluckiest_manager", "Performance & Results"),
    ("juggernaut", "Performance & Results"),
    ("consistent_king", "Performance & Results"),
    ("boom_or_bust", "Performance & Results"),
    ("soul_crushing_loss", "Pain, Chaos & Heartbreak"),
    ("highest_score_loss", "Pain, Chaos & Heartbreak"),
    ("blowout_victim", "Pain, Chaos & Heartbreak"),
    ("schedule_screwed_me", "Pain, Chaos & Heartbreak"),
    ("always_the_bridesmaid", "Pain, Chaos & Heartbreak"),
    ("ride_or_die", "Manager Tendencies"),
    ("fantasy_sicko", "Manager Tendencies"),
    ("waiver_wire_addict", "Manager Tendencies"),
    ("trade_machine", "Manager Tendencies"),
    ("draft_loyalist", "Manager Tendencies"),
    ("commitment_issues", "Manager Tendencies"),
    ("draft_steal", "Draft & Value"),
    ("draft_bust", "Draft & Value"),
    ("reached_and_regretted", "Draft & Value"),
    ("late_round_wizardry", "Draft & Value"),
    ("bench_war_crime", "Start/Sit Decisions"),
    ("set_and_forget", "Start/Sit Decisions"),
    ("overthinker", "Start/Sit Decisions"),
    ("favorite_player", "Player Stats"),
    ("emotional_support", "Player Stats"),
    ("why_dont_he_want_me", "Player Stats"),
    ("peak_week", "Weekly & Seasonal Storylines"),
    ("rock_bottom", "Weekly & Seasonal Storylines"),
    ("mid_season_glow_up", "Weekly & Seasonal Storylines"),
    ("late_season_collapse", "Weekly & Seasonal Storylines"),
    ("looked_better_on_paper", "Fun Awards"),
    ("trust_the_process", "Fun Awards"),
    ("well_get_em_next_year", "Fun Awards") ]

/-- Lines 38-48: the order in which sections are rendered. -/
def SECTION_ORDER : List String :=
  [ "Performance & Results",
    "Pain, Chaos & Heartbreak",
    "Manager Tendencies",
    "Draft & Value",
    "Start/Sit Decisions",
    "Player Stats",
    "Weekly & Seasonal Storylines",
    "Fun Awards",
    "Other" ]

/-- Lines 87-91: the ids that never get a card. -/
def HIDDEN_INSIGHTS : List String :=
  [ "league_summary", "draft_position_champion", "average_playoff_cutoff" ]

/-- Reading an own property of an object used as a map from names to values:
`none` is the absence of an own property. For a `URLSearchParams`, and for the
fields of a value parsed from JSON that the script reads under fixed names,
this is the whole lookup; for a plain object read under a name that comes from
the data, the members inherited from `Object.prototype` are added by
`objectPrototypeNames`. -/
def getProp {β : Type} : List (String × β) → String → Option β
  | [], _ => none
  | (k', v) :: rest, k => if k' = k then some v else getProp rest k

/-- Creating or overwriting an own property of an object used as a map from
names to values. -/
def setProp {β : Type} : List (String × β) → String → β → List (String × β)
  | [], k, v => [(k, v)]
  | (k', v') :: rest, k, v =>
    if k' = k then (k, v) :: rest else (k', v') :: setProp rest k v

/-- The names under which every plain object (an object literal such as
`SECTION_MAP`, `grouped`, `teamsByKey` or the caches of `state`) finds a member
inherited from `Object.prototype` when it has no own property of that name.
Each of these members is truthy: a function, or for `__proto__` the prototype
itself. -/
def objectPrototypeNames : List String :=
  [ "constructor", "__defineGetter__", "__defineSetter__", "hasOwnProperty",
    "__lookupGetter__", "__lookupSetter__", "isPrototypeOf", "propertyIsEnumerable",
    "toString", "valueOf", "__proto__", "toLocaleString" ]

/-- The assignment `object[name] = value` on a plain object whose prototype is
`Object.prototype`: the own properties afterwards. Under the name `__proto__`
no own property is created: the assignment goes to the inherited setter, which
ignores a value that is neither an object nor null and otherwise replaces the
prototype of the object. What an object inherits after such a replacement is
not modelled. -/
def assignProp {β : Type} (m : List (String × β)) (k : String) (v : β) : List (String × β) :=
  if k = "__proto__" then m else setProp m k v

/-- The property name that `grouped[section]` makes of a member inherited from
`Object.prototype`: the text of a built-in function, and `[object Object]` for
the prototype itself. The member under `constructor` is the function
`Object`. -/
def inheritedText (name : String) : String :=
  if name = "__proto__" then "[object Object]"
  else if name = "constructor" then "function Object() \x7b [native code] \x7d"
  else "function " ++ name ++ "() \x7b [native code] \x7d"

/-- Line 827: the property name under which `grouped` files an insight,
`SECTION_MAP[insight.id] || "Other"`. An id that is not in the table and names
a member inherited from `Object.prototype` gets that member, which is truthy,
and not "Other". -/
def sectionOf (id : String) : String :=
  match getProp SECTION_MAP id with
  | some name => if name = "" then "Other" else name
  | none => if id ∈ objectPrototypeNames then inheritedText id else "Other"

/-- Lines 828-831: `if (!grouped[section]) grouped[section] = [];
grouped[section].push(insight)`. No value of `sectionOf` is the name of a
member inherited from `Object.prototype`, so the own properties of `grouped`
are all that these lines read. -/
def pushGrouped (grouped : List (String × List Insight)) (sectionName : String)
    (insight : Insight) : List (String × List Insight) :=
  match getProp grouped sectionName with
  | some items => setProp grouped sectionName (items ++ [insight])
  | none => setProp grouped sectionName [insight]

/-- Lines 822-832: the object `grouped` after the first `forEach`. -/
def groupInsights (insights : List Insight) : List (String × List Insight) :=
  insights.foldl
    (fun grouped insight =>
      if insight.id ∈ HIDDEN_INSIGHTS then grouped
      else pushGrouped grouped (sectionOf insight.id) insight)
    []

/-- The function `renderInsights(insights)`, lines 820-924: the sections appended to the page,
in order, each with its name and the insights that get a card in it. -/
def renderInsights (insights : List Insight) : List (String × List Insight) :=
  SECTION_ORDER.filterMap
    (fun sectionName =>
      match getProp (groupInsights insights) sectionName with
      | none => none
      | some items => if items.length = 0 then none else some (sectionName, items))

/-- The insights of a list that get a card in the section `name`: those whose id
is not hidden and is sent to `name` by `sectionOf`, in their order. -/
def sectionItems (insights : List Insight) (name : String) : List Insight :=
  insights.filter (fun i => decide (i.id ∉ HIDDEN_INSIGHTS) && decide (sectionOf i.id = name))

/-! ## Season and team selection -/

/-- A season identifier as it comes out of `insights_index.json`: a string or a
number; `undefined` is what `init` passes on when the index lists no season.
Numbers are integers (of magnitude below 10^21, which JavaScript prints in
plain decimal). -/
inductive SeasonId
  | str (s : String)
  | num (n : ℤ)
  | undefined
  deriving DecidableEq

/-- The string `String(season)`: the property name under which a season is
stored in the caches, and its text in a URL or a file name. -/
def seasonKey : SeasonId → String
  | SeasonId.str s => s
  | SeasonId.num n => toString n
  | SeasonId.undefined => "undefined"

/-- Property name of `state.currentSeason`, which is `null` before the first
load. -/
def currentKey : Option SeasonId → String
  | none => "null"
  | some season => seasonKey season

/-- The conversion `Number(season)`; `none` is NaN. The conversion of a string to a number is
the parameter `parse`. -/
def toNumber (parse : String → Option ℚ) : SeasonId → Option ℚ
  | SeasonId.str s => parse s
  | SeasonId.num n => some (n : ℚ)
  | SeasonId.undefined => none

/-- The comparator `(a, b) => Number(a) - Number(b)` does not ask for `b`
before `a`: its result is negative, zero or NaN (which `sort` reads as zero). -/
def seasonLe (parse : String → Option ℚ) (a b : SeasonId) : Prop :=
  match toNumber parse a, toNumber parse b with
  | some x, some y => x - y ≤ 0
  | _, _ => True

instance (parse : String → Option ℚ) : DecidableRel (seasonLe parse) := fun a b => by
  unfold seasonLe
  cases toNumber parse a <;> cases toNumber parse b <;> infer_instance

/-- Line 1195: `[...seasons].sort((a, b) => Number(a) - Number(b))`, a stable
sort, here by insertion. When every season converts to a number the
comparator is a total preorder and every stable sort gives this list. With a
season that converts to NaN the comparator is not transitive, and the list is
the one that insertion from the right gives; another sorting method of the
engine may order such a list otherwise. -/
def sortSeasons (parse : String → Option ℚ) (seasons : List SeasonId) : List SeasonId :=
  seasons.insertionSort (seasonLe parse)

/-- An entry of a `missing` list. -/
structure MissingItem where
  id : String
  reason : String
  deriving DecidableEq

/-- The dataset `insights_{season}.json` (`insights` and `missing` may be
absent). -/
structure SeasonData where
  insights : Option (List Insight)
  missing : Option (List MissingItem)
  deriving DecidableEq

/-- One team of `insights_{season}_teams.json`. -/
structure TeamRecord where
  team_key : String
  insights : Option (List Insight)
  missing : Option (List MissingItem)
  deriving DecidableEq

/-- The document `insights_{season}_teams.json` (`teams` may be absent). -/
structure TeamsDoc where
  teams : Option (List TeamRecord)
  deriving DecidableEq

/-- The record stored in `state.teamInsightsBySeason[season]`, lines 1069-1073. -/
structure TeamInsights where
  data : TeamsDoc
  teams : List TeamRecord
  teamsByKey : List (String × TeamRecord)
  deriving DecidableEq

/-- The values of `state.teamInsightsStatus[season]`; `undefined` (no entry) is
the unloaded status. -/
inductive Status
  | loading
  | loaded
  | missing
  deriving DecidableEq

/-- The part of `state` (lines 93-112) that the selection logic reads and
writes. The two caches hold the own properties of the objects
`state.teamInsightsBySeason` and `state.teamInsightsStatus`; in
`teamInsightsBySeason` the value `none` is `null`. -/
structure State where
  seasons : List SeasonId
  currentSeason : Option SeasonId
  currentSeasonData : Option SeasonData
  currentTeamKey : Option String
  teamInsightsBySeason : List (String × Option TeamInsights)
  teamInsightsStatus : List (String × Status)
  deriving DecidableEq

/-- What `applyInsightsForSeason` hands to the page: the value assigned to
`els.summarySection.hidden` and the lists given to `renderMissing` and
`renderInsights`. -/
structure View where
  summaryHidden : Bool
  missing : List MissingItem
  insights : List Insight
  deriving DecidableEq

/-- A rendering call made by the selection logic. -/
inductive RenderCall
  | seasonView (season : SeasonId)
  | teamButtons (season : Option SeasonId)
  | insightsView (season : Option SeasonId) (view : View)
  deriving DecidableEq

/-- A request passed to `fetch`. -/
inductive Fetch
  | startup (name : String)
  | season (key : String)
  | seasonTeams (key : String)
  deriving DecidableEq

/-- The address of a request. -/
def Fetch.url : Fetch → String
  | Fetch.startup name => "data/" ++ name ++ ".json"
  | Fetch.season key => "data/insights_" ++ key ++ ".json"
  | Fetch.seasonTeams key => "data/insights_" ++ key ++ "_teams.json"

/-- The page: the script state, the query parameters of the address bar, the
requests made so far (oldest first), the rendering calls made so far, and the
suspended calls: `loadSeason` calls waiting for their dataset, property names
whose team document is being fetched, and `loadSeason` calls waiting on
`await ensureTeamInsights(season)` (with the name of the fetch they wait for,
when their call started one). -/
structure World where
  state : State
  query : List (String × String)
  fetches : List Fetch
  renders : List RenderCall
  pendingSeason : List SeasonId
  pendingTeams : List String
  pendingResume : List (SeasonId × Option String)
  deriving DecidableEq

/-- The page right after the script is read, opened at an address with the
given query parameters. -/
def World.initial (query : List (String × String)) : World :=
  { state :=
      { seasons := []
        currentSeason := none
        currentSeasonData := none
        currentTeamKey := none
        teamInsightsBySeason := []
        teamInsightsStatus := [] }
    query := query
    fetches := []
    renders := []
    pendingSeason := []
    pendingTeams := []
    pendingResume := [] }

/-- Truthiness of a team key: `null` and the empty string are falsy. -/
def truthyKey : Option String → Bool
  | none => false
  | some k => k != ""

/-- The lookup `state.teamInsightsBySeason[season]?.teamsByKey?.[teamKey]` as
far as it ends in an own property of `teamsByKey`: the team stored under
`teamKey`. -/
def teamLookup (s : State) (key : String) (teamKey : String) : Option TeamRecord :=
  match getProp s.teamInsightsBySeason key with
  | some (some teamInsights) => getProp teamInsights.teamsByKey teamKey
  | _ => none

/-- Whether the lookup `state.teamInsightsBySeason[season]?.teamsByKey?.[teamKey]`
ends in a member that `teamsByKey` inherits from `Object.prototype`: a set is
stored for the season, `teamKey` is not an own property of its `teamsByKey`, and
`teamKey` names an inherited member. (When no set is stored under `key`, the
lookup gives `undefined`: a member that `teamInsightsBySeason` itself inherits
under `key` has no `teamsByKey`.) -/
def teamInherited (s : State) (key : String) (teamKey : String) : Bool :=
  match getProp s.teamInsightsBySeason key with
  | some (some teamInsights) =>
    (getProp teamInsights.teamsByKey teamKey).isNone && decide (teamKey ∈ objectPrototypeNames)
  | _ => false

/-- The function `applyInsightsForSeason(season)`, lines 1083-1111. When `teamData` is a
member inherited from `Object.prototype`, it is truthy and has neither
`missing` nor `insights`, so the team view is rendered with two empty lists. -/
def applyInsightsForSeason (season : Option SeasonId) (s : State) : View :=
  let seasonData := s.currentSeasonData
  let teamData : Option TeamRecord :=
    match s.currentTeamKey with
    | some teamKey => if teamKey != "" then teamLookup s (currentKey season) teamKey else none
    | none => none
  let inherited : Bool :=
    match s.currentTeamKey with
    | some teamKey => teamKey != "" && teamInherited s (currentKey season) teamKey
    | none => false
  match teamData with
  | some team =>
    { summaryHidden := true
      missing := team.missing.getD []
      insights := team.insights.getD [] }
  | none =>
    if inherited then
      { summaryHidden := true
        missing := []
        insights := [] }
    else
      { summaryHidden := false
        missing := (seasonData.bind (fun d => d.missing)).getD []
        insights := (seasonData.bind (fun d => d.insights)).getD [] }

/-- The function `setTeamSelection(teamKey)`, lines 1113-1122. -/
def setTeamSelection (teamKey : Option String) (w : World) : World :=
  let season := w.state.currentSeason
  let found : Bool :=
    match teamKey with
    | some k => (teamLookup w.state (currentKey season) k).isSome
      || teamInherited w.state (currentKey season) k
    | none => false
  if truthyKey teamKey && !found then w
  else
    let s := { w.state with currentTeamKey := teamKey }
    { w with
      state := s
      renders := w.renders ++
        [RenderCall.teamButtons season, RenderCall.insightsView season (applyInsightsForSeason season s)] }

/-- Lines 1065-1068: the own properties of the object `teamsByKey` built from
the teams of a document. -/
def buildTeamsByKey (teams : List TeamRecord) : List (String × TeamRecord) :=
  teams.foldl (fun byKey team => assignProp byKey team.team_key team) []

/-- The function `ensureTeamInsights(season)` up to its first `await`, lines 1050-1060. The
second component tells whether the call started a fetch. A status read from a
member inherited from `Object.prototype` is none of the three status texts, so
the own properties decide; under the name `__proto__` the assignment of line
1058 is ignored by the setter. -/
def ensureTeamInsightsCall (season : SeasonId) (w : World) : World × Bool :=
  match getProp w.state.teamInsightsStatus (seasonKey season) with
  | some Status.loaded => (w, false)
  | some Status.missing => (w, false)
  | some Status.loading => (w, false)
  | none =>
    ({ w with
       state := { w.state with
         teamInsightsStatus :=
           assignProp w.state.teamInsightsStatus (seasonKey season) Status.loading }
       fetches := w.fetches ++ [Fetch.seasonTeams (seasonKey season)]
       pendingTeams := w.pendingTeams ++ [seasonKey season] }, true)

/-- The function `ensureTeamInsights(season)` from the end of its fetch on, lines 1061-1080,
for the call waiting under the property name `key`. `result` is the parsed
document, or `none` when the request failed, the response was not OK, or the
body did not parse. Nothing happens when no call waits under that name. -/
def ensureTeamInsightsResume (key : String) (result : Option TeamsDoc) (w : World) : World :=
  if key ∈ w.pendingTeams then
    match result with
    | some data =>
      { w with
        state := { w.state with
          teamInsightsBySeason := assignProp w.state.teamInsightsBySeason key
            (some { data := data
                    teams := data.teams.getD []
                    teamsByKey := buildTeamsByKey (data.teams.getD []) })
          teamInsightsStatus := assignProp w.state.teamInsightsStatus key Status.loaded }
        pendingTeams := w.pendingTeams.erase key }
    | none =>
      { w with
        state := { w.state with
          teamInsightsBySeason := assignProp w.state.teamInsightsBySeason key none
          teamInsightsStatus := assignProp w.state.teamInsightsStatus key Status.missing }
        pendingTeams := w.pendingTeams.erase key }
  else w

/-- The function `loadSeason(season)` up to its first `await`, line 1170. -/
def loadSeasonCall (season : SeasonId) (w : World) : World :=
  { w with
    fetches := w.fetches ++ [Fetch.season (seasonKey season)]
    pendingSeason := w.pendingSeason ++ [season] }

/-- The function `loadSeason(season)` from the arrival of its dataset to
`await ensureTeamInsights(season)`, lines 1171-1179. Nothing happens when no
call of `loadSeason(season)` waits for its dataset. -/
def loadSeasonFetched (season : SeasonId) (data : SeasonData) (w : World) : World :=
  if season ∈ w.pendingSeason then
    let w1 : World :=
      { w with
        state := { w.state with
          currentSeason := some season
          currentSeasonData := some data
          currentTeamKey := none }
        renders := w.renders ++ [RenderCall.seasonView season]
        pendingSeason := w.pendingSeason.erase season }
    let r := ensureTeamInsightsCall season w1
    { r.1 with
      pendingResume := r.1.pendingResume ++
        [(season, if r.2 then some (seasonKey season) else none)] }
  else w

/-- A call of `loadSeason(season)` whose dataset request failed or did not
parse: the call ends there, lines 1170-1171. -/
def loadSeasonFailed (season : SeasonId) (w : World) : World :=
  { w with pendingSeason := w.pendingSeason.erase season }

/-- A call of `loadSeason(season)` that receives its dataset and ends in an
exception thrown by one of the rendering calls of lines 1175-1178 (`updateHero`
on a dataset that is `null`, `renderOverview` on a malformed record): the state
is set by lines 1172-1174, and neither `ensureTeamInsights` nor the rest of the
function runs. Nothing happens when no call of `loadSeason(season)` waits for
its dataset. -/
def loadSeasonThrew (season : SeasonId) (data : SeasonData) (w : World) : World :=
  if season ∈ w.pendingSeason then
    { w with
      state := { w.state with
        currentSeason := some season
        currentSeasonData := some data
        currentTeamKey := none }
      renders := w.renders ++ [RenderCall.seasonView season]
      pendingSeason := w.pendingSeason.erase season }
  else w

/-- Whether a call of `loadSeason(season)` suspended at line 1179 can go on: it
is there, and the fetch it waits for, if any, is over. -/
def canResume (season : SeasonId) (w : World) : Option (SeasonId × Option String) :=
  w.pendingResume.find? (fun e =>
    decide (e.1 = season) &&
      (match e.2 with
        | some key => decide (key ∉ w.pendingTeams)
        | none => true))

/-- Setting a query parameter, as `URLSearchParams.set` does: the first
occurrence takes the value, the other ones go. -/
def setParam : List (String × String) → String → String → List (String × String)
  | [], name, value => [(name, value)]
  | (n, v) :: rest, name, value =>
    if n = name then (name, value) :: rest.filter (fun e => e.1 ≠ name)
    else (n, v) :: setParam rest name value

/-- Reading a query parameter, as `URLSearchParams.get` does: the first
occurrence, `none` (null) when there is none. -/
def getParam (query : List (String × String)) (name : String) : Option String :=
  getProp query name

/-- The function `loadSeason(season)` after `await ensureTeamInsights(season)`, lines
1180-1184. Nothing happens when no such call can go on. -/
def loadSeasonResume (season : SeasonId) (w : World) : World :=
  match canResume season w with
  | some e =>
    { w with
      renders := w.renders ++
        [RenderCall.teamButtons (some season),
         RenderCall.insightsView (some season) (applyInsightsForSeason (some season) w.state)]
      query := setParam w.query "season" (seasonKey season)
      pendingResume := w.pendingResume.erase e }
  | none => w

/-- The click handler of a season button, lines 954-959. -/
def clickSeason (season : SeasonId) (w : World) : World :=
  if some season = w.state.currentSeason then w else loadSeasonCall season w

/-- Lines 1252-1255 of `init`: the season passed to `loadSeason`. `requested` is
`params.get("season")`. -/
def selectedSeason (seasons : List SeasonId) (requested : Option String) : SeasonId :=
  let fallback := seasons.getLast?.getD SeasonId.undefined
  match requested with
  | some r => if SeasonId.str r ∈ seasons then SeasonId.str r else fallback
  | none => fallback

/-- The function `init()`, lines 1187-1257, up to the `await` inside `loadSeason`: the
startup documents are fetched, `state.seasons` is set from the index, and the
requested or default season is loaded. `index` is `index.seasons || []`. -/
def init (parse : String → Option ℚ) (index : List SeasonId) (w : World) : World :=
  let seasons := sortSeasons parse index
  let w1 : World :=
    { w with
      state := { w.state with seasons := seasons }
      fetches := w.fetches ++
        [Fetch.startup "insights_index", Fetch.startup "leagues", Fetch.startup "teams",
         Fetch.startup "league_summary", Fetch.startup "league_overview"] }
  loadSeasonCall (selectedSeason seasons (getParam w1.query "season")) w1

/-- What can happen on the page, one synchronous stretch of script each. -/
inductive Event
  | init (index : List SeasonId)
  | clickSeason (season : SeasonId)
  | loadSeason (season : SeasonId)
  | seasonFetched (season : SeasonId) (data : SeasonData)
  | seasonThrew (season : SeasonId) (data : SeasonData)
  | seasonFailed (season : SeasonId)
  | ensureTeamInsights (season : SeasonId)
  | teamsFetched (key : String) (result : Option TeamsDoc)
  | seasonResumed (season : SeasonId)
  | setTeamSelection (teamKey : Option String)

/-- The page after one event. -/
def step (parse : String → Option ℚ) (w : World) : Event → World
  | Event.init index => init parse index w
  | Event.clickSeason season => clickSeason season w
  | Event.loadSeason season => loadSeasonCall season w
  | Event.seasonFetched season data => loadSeasonFetched season data w
  | Event.seasonThrew season data => loadSeasonThrew season data w
  | Event.seasonFailed season => loadSeasonFailed season w
  | Event.ensureTeamInsights season => (ensureTeamInsightsCall season w).1
  | Event.teamsFetched key result => ensureTeamInsightsResume key result w
  | Event.seasonResumed season => loadSeasonResume season w
  | Event.setTeamSelection teamKey => setTeamSelection teamKey w

/-- The page after a sequence of events. -/
def run (parse : String → Option ℚ) (w : World) (events : List Event) : World :=
  events.foldl (step parse) w

/-- The pages the script can bring about, from any address. -/
def Reachable (parse : String → Option ℚ) (w : World) : Prop :=
  ∃ query events, w = run parse (World.initial query) events

/-- Whether an event stays clear of the name `__proto__`: no season it names
has that property name, and no team of a document it delivers has that key.
An assignment under that name replaces the prototype of a cache or of
`teamsByKey`, after which the lookups of the script find inherited properties
that the model does not follow. -/
def Event.plain : Event → Bool
  | Event.init index => index.all (fun season => seasonKey season != "__proto__")
  | Event.clickSeason season => seasonKey season != "__proto__"
  | Event.loadSeason season => seasonKey season != "__proto__"
  | Event.seasonFetched season _ => seasonKey season != "__proto__"
  | Event.seasonThrew season _ => seasonKey season != "__proto__"
  | Event.seasonFailed season => seasonKey season != "__proto__"
  | Event.ensureTeamInsights season => seasonKey season != "__proto__"
  | Event.teamsFetched key result =>
    key != "__proto__" &&
      (match result with
        | some data => (data.teams.getD []).all (fun team => team.team_key != "__proto__")
        | none => true)
  | Event.seasonResumed season => seasonKey season != "__proto__"
  | Event.setTeamSelection _ => true

/-- The pages the script can bring about, from any address, by events that
stay clear of the name `__proto__`. -/
def ReachablePlain (parse : String → Option ℚ) (w : World) : Prop :=
  ∃ query events, (∀ e ∈ events, Event.plain e = true) ∧ w = run parse (World.initial query) events

/-- The status `state.teamInsightsStatus[key]`; `none` is the unloaded status. -/
def statusOf (w : World) (key : String) : Option Status :=
  getProp w.state.teamInsightsStatus key

/-- Number of requests for the team document of the property name `key` made
so far. -/
def teamFetchCount (w : World) (key : String) : ℕ :=
  w.fetches.count (Fetch.seasonTeams key)

/-- Number of requests for the dataset of the property name `key` made so
far. -/
def seasonFetchCount (w : World) (key : String) : ℕ :=
  w.fetches.count (Fetch.season key)

/-- The moves of a status that `ensureTeamInsights` is meant to make: none, or
unloaded to loading, or loading to loaded or missing. -/
def StatusStep (a b : Option Status) : Prop :=
  a = b ∨ (a = none ∧ b = some Status.loading) ∨
    (a = some Status.loading ∧ b = some Status.loaded) ∨
    (a = some Status.loading ∧ b = some Status.missing)

/-- Facts that hold of every page the script can bring about: a team-insight
set is stored only under a loaded status; under a name other than `__proto__`
a team document is awaited only under a loading status, and once, and it has
been requested once if the status is set and never otherwise; and a truthy
current team key is a key of the set stored for the current season or names a
member that this set inherits. -/
structure Inv (w : World) : Prop where
  coherent : ∀ key ti, getProp w.state.teamInsightsBySeason key = some (some ti) →
    statusOf w key = some Status.loaded
  pending : ∀ key, key ≠ "__proto__" → key ∈ w.pendingTeams →
    statusOf w key = some Status.loading
  once : ∀ key, key ≠ "__proto__" → w.pendingTeams.count key ≤ 1
  fetched : ∀ key, key ≠ "__proto__" →
    teamFetchCount w key = if statusOf w key = none then 0 else 1
  teamKey : ∀ k, w.state.currentTeamKey = some k → k ≠ "" →
    (teamLookup w.state (currentKey w.state.currentSeason) k).isSome = true ∨
      teamInherited w.state (currentKey w.state.currentSeason) k = true

/-- A conversion of strings to numbers for the examples: a string of decimal
digits is read as the number it writes, any other string is NaN. The examples
apply it to strings of digits and to words without digits, on which it is
JavaScript's `Number`. -/
def parseDigits (s : String) : Option ℚ :=
  if s.data ≠ [] ∧ s.data.all (fun c => decide ('0' ≤ c ∧ c ≤ '9')) then
    some ((s.data.foldl (fun n c => 10 * n + (c.toNat - 48)) 0 : ℕ) : ℚ)
  else none

/-- A page for the examples: opened without query parameters, the index lists
2023 and 2024, season 2024 is loaded and its team document is missing. -/
def exampleMissing : World :=
  run parseDigits (World.initial [])
    [ Event.init [SeasonId.str "2023", SeasonId.str "2024"],
      Event.seasonFetched (SeasonId.str "2024") { insights := some [⟨"juggernaut", "Juggernaut"⟩], missing := none },
      Event.teamsFetched "2024" none,
      Event.seasonResumed (SeasonId.str "2024") ]

/-- A team document for the examples: two teams, the second with the empty
string as its key. -/
def exampleTeams : TeamsDoc :=
  { teams := some
      [ { team_key := "t1", insights := some [⟨"peak_week", "Peak Week"⟩], missing := none },
        { team_key := "", insights := some [⟨"rock_bottom", "Rock Bottom"⟩],
          missing := some [⟨"draft_steal", "no draft"⟩] } ] }

/-- A page for the examples: as `exampleMissing`, but the team document of
season 2024 arrived. -/
def exampleLoaded : World :=
  run parseDigits (World.initial [])
    [ Event.init [SeasonId.str "2023", SeasonId.str "2024"],
      Event.seasonFetched (SeasonId.str "2024") { insights := some [⟨"juggernaut", "Juggernaut"⟩], missing := none },
      Event.teamsFetched "2024" (some exampleTeams),
      Event.seasonResumed (SeasonId.str "2024") ]

/-- The number of a season for the ordering of numeric seasons (zero stands in
for NaN, which numeric seasons do not have). -/
def numKey (parse : String → Option ℚ) (season : SeasonId) : ℚ :=
  (toNumber parse season).getD 0

/-- The events that start a load of a season or deliver its dataset; the
other ones leave the current season alone. -/
def Event.selectsSeason : Event → Bool
  | Event.init _ => true
  | Event.clickSeason _ => true
  | Event.loadSeason _ => true
  | Event.seasonFetched _ _ => true
  | Event.seasonThrew _ _ => true
  | _ => false

/-- A page for the examples: the index lists the numbers 2023 and 2024, the
default season 2024 is loaded, then season 2023 is selected and loaded to the
end; its team document is missing. -/
def exampleNumeric : World :=
  run parseDigits (World.initial [])
    [ Event.init [SeasonId.num 2023, SeasonId.num 2024],
      Event.seasonFetched (SeasonId.num 2024) { insights := none, missing := none },
      Event.teamsFetched "2024" none,
      Event.seasonResumed (SeasonId.num 2024),
      Event.clickSeason (SeasonId.num 2023),
      Event.seasonFetched (SeasonId.num 2023) { insights := none, missing := none },
      Event.teamsFetched "2023" none,
      Event.seasonResumed (SeasonId.num 2023) ]

/-- The part of `axisConfig` that `createSparkline` reads for the x-axis tick
labels: `weeks`, `startWeek` and `endWeek`. Week numbers are integers; `none`
is `undefined`. -/
structure AxisConfig where
  weeks : Option (List ℤ)
  startWeek : Option ℤ
  endWeek : Option ℤ
  deriving DecidableEq

/-- A tick label of the x axis: its text, its position and its `text-anchor`. -/
structure Tick where
  text : String
  x : ℚ
  y : ℚ
  anchor : String
  deriving DecidableEq

/-- The x-axis tick labels of `createSparkline`, lines 482-512, for the points
`coords`: one per point when `axisConfig.weeks` has as many entries as there
are points (the entry of index `i` goes with `coords[i]`), else one at each end
of the plotting rectangle when `startWeek` and `endWeek` are both defined, else
none. -/
def xTicks (coords : List (ℚ × ℚ)) (axisConfig : AxisConfig) : List Tick :=
  let axisWeeks := axisConfig.weeks.getD []
  if axisWeeks.length = coords.length then
    (axisWeeks.zip coords).map
      (fun p => { text := "W" ++ toString p.1, x := p.2.1, y := 200 - 46 + 14, anchor := "middle" })
  else
    match axisConfig.startWeek, axisConfig.endWeek with
    | some startWeek, some endWeek =>
      [ { text := "W" ++ toString startWeek, x := 56, y := 200 - 46 + 14, anchor := "start" },
        { text := "W" ++ toString endWeek, x := 840 - 18, y := 200 - 46 + 14, anchor := "end" } ]
    | _, _ => []

/-- A point marker: the attributes `cx`, `cy` and `r` of a circle. -/
structure Marker where
  cx : ℚ
  cy : ℚ
  r : ℚ
  deriving DecidableEq

/-- The point markers of `createSparkline`, lines 518-546: one circle per
point. -/
def pointMarkers (coords : List (ℚ × ℚ)) : List Marker :=
  coords.map (fun point => { cx := point.1, cy := point.2, r := 3 })

/-- The default value `{}` of the parameter `axisConfig`. -/
def AxisConfig.empty : AxisConfig :=
  { weeks := none, startWeek := none, endWeek := none }

/-- The chart of a result of `createSparkline`, when there is one. -/
def Sparkline.chart? : Sparkline → Option Chart
  | Sparkline.noChart => none
  | Sparkline.chart c => some c

/-! ## Formatters -/

/-- A JavaScript value as the formatters meet it: a value of a JSON document, or
`undefined`, which reading an absent field gives. The fields of an object come
in the order in which `Object.entries` lists them, each name once. -/
inductive Json
  | null
  | undefined
  | bool (b : Bool)
  | num (q : ℚ)
  | str (s : String)
  | arr (items : List Json)
  | obj (fields : List (String × Json))

/-- The number formatting of the JavaScript engine, which the script calls and
does not define: `text x` is `String(x)`, `fixed x d` is `x.toFixed(d)`, and
`coerce v` is the number that arithmetic makes of a value that is not a number
(`none` is NaN). -/
structure NumberFormat where
  text : ℚ → String
  fixed : ℚ → ℕ → String
  coerce : Json → Option ℚ

/-- Truthiness: `null`, `undefined`, `false`, zero and the empty string are
falsy. -/
def Json.truthy : Json → Bool
  | Json.null => false
  | Json.undefined => false
  | Json.bool b => b
  | Json.num q => decide (q ≠ 0)
  | Json.str s => decide (s ≠ "")
  | Json.arr _ => true
  | Json.obj _ => true

/-- Reading the field `name` of a value that is not nullish: the value of the
field for an object that has it, `undefined` otherwise. -/
def Json.get : Json → String → Json
  | Json.obj fields, name => (getProp fields name).getD Json.undefined
  | _, _ => Json.undefined

/-- The expression `a || b`. -/
def Json.orElse (a b : Json) : Json := if a.truthy then a else b

mutual
/-- The text that a template literal or `String(value)` makes of a value. -/
def jsToString (fmt : NumberFormat) : Json → String
  | Json.null => "null"
  | Json.undefined => "undefined"
  | Json.bool b => if b then "true" else "false"
  | Json.num q => fmt.text q
  | Json.str s => s
  | Json.arr items => ",".intercalate (jsJoinItems fmt items)
  | Json.obj _ => "[object Object]"
/-- The texts that `Array.prototype.join` makes of the elements of an array:
the empty text for `null` and `undefined`. -/
def jsJoinItems (fmt : NumberFormat) : List Json → List String
  | [] => []
  | Json.null :: rest => "" :: jsJoinItems fmt rest
  | Json.undefined :: rest => "" :: jsJoinItems fmt rest
  | item :: rest => jsToString fmt item :: jsJoinItems fmt rest
end

/-- Whether a character is matched by `\w`. -/
def isWordChar (c : Char) : Bool :=
  c.isAlphanum || c == '_'

/-- The replacement `.replace(/\b\w/g, (match) => match.toUpperCase())`: a word
character that does not follow a word character is put in upper case.
`afterWord` tells whether the character before is a word character. -/
def capitalizeWords : Bool → List Char → List Char
  | _, [] => []
  | afterWord, c :: cs =>
    (if isWordChar c && !afterWord then c.toUpper else c) :: capitalizeWords (isWordChar c) cs

/-- The function `prettyLabel(value)`, lines 131-135, on a string. -/
def prettyLabel (value : String) : String :=
  String.mk (capitalizeWords false (value.data.map (fun c => if c = '_' then ' ' else c)))

/-- The result of `formatNumber(value)`, lines 137-142, for a number. -/
def formatNumberOf (fmt : NumberFormat) (q : ℚ) : String :=
  if q.isInt then fmt.text q else fmt.fixed q 2

/-- The function `formatNumber(value)`, lines 137-142; `none` is the TypeError
thrown by `value.toFixed` when `value` is not a number. -/
def formatNumber (fmt : NumberFormat) : Json → Option String
  | Json.num q => some (formatNumberOf fmt q)
  | _ => none

/-- The function `formatPercent(value, digits)`, lines 144-149. -/
def formatPercent (fmt : NumberFormat) (value : Json) (digits : ℕ) : String :=
  match value with
  | Json.null => "—"
  | Json.undefined => "—"
  | Json.num q => fmt.fixed (q * 100) digits ++ "%"
  | other =>
    (match fmt.coerce other with
      | some q => fmt.fixed (q * 100) digits
      | none => "NaN") ++ "%"

/-- The function `formatTeam(team)`, lines 151-158. -/
def formatTeam (fmt : NumberFormat) (team : Json) : String :=
  if !team.truthy then "—"
  else
    let name := (team.get "team_name").orElse (Json.str "Unknown")
    let manager :=
      if (team.get "manager_names").truthy then
        " (" ++ jsToString fmt (team.get "manager_names") ++ ")"
      else ""
    jsToString fmt name ++ manager

/-- The function `formatPlayer(player)`, lines 160-167. -/
def formatPlayer (fmt : NumberFormat) (player : Json) : String :=
  if !player.truthy then "—"
  else
    let name := (player.get "player_name").orElse (Json.str "Unknown")
    let pos :=
      if (player.get "player_position").truthy then
        " • " ++ jsToString fmt (player.get "player_position")
      else ""
    jsToString fmt name ++ pos

mutual
/-- The function `formatValue(value)`, lines 169-194. -/
def formatValue (fmt : NumberFormat) : Json → String
  | Json.null => "—"
  | Json.undefined => "—"
  | Json.num q => formatNumberOf fmt q
  | Json.str s => s
  | Json.arr items => ", ".intercalate (formatValues fmt items)
  | Json.obj fields =>
    if ((Json.obj fields).get "team_name").truthy
        || ((Json.obj fields).get "manager_names").truthy then
      formatTeam fmt (Json.obj fields)
    else if ((Json.obj fields).get "player_name").truthy
        || ((Json.obj fields).get "player_position").truthy then
      formatPlayer fmt (Json.obj fields)
    else " • ".intercalate (formatEntries fmt fields)
  | Json.bool b => jsToString fmt (Json.bool b)
/-- The array `value.map(formatValue)`. -/
def formatValues (fmt : NumberFormat) : List Json → List String
  | [] => []
  | item :: rest => formatValue fmt item :: formatValues fmt rest
/-- The array of the texts `{prettyLabel(key)}: {formatValue(nested)}` of the
entries of an object. -/
def formatEntries (fmt : NumberFormat) : List (String × Json) → List String
  | [] => []
  | (key, nested) :: rest =>
    (prettyLabel key ++ ": " ++ formatValue fmt nested) :: formatEntries fmt rest
end

/-- The recursive description of `formatValue` checked against the code: what a
function `f` on values has to satisfy. A team-shaped object is one whose
`team_name` or `manager_names` is truthy, a player-shaped object one that is not
team-shaped and whose `player_name` or `player_position` is truthy. -/
structure FormatValueSpec (fmt : NumberFormat) (f : Json → String) : Prop where
  null : f Json.null = "—"
  undefined : f Json.undefined = "—"
  number : ∀ q, some (f (Json.num q)) = formatNumber fmt (Json.num q)
  string : ∀ s, f (Json.str s) = s
  boolean : ∀ b, f (Json.bool b) = if b then "true" else "false"
  array : ∀ items, f (Json.arr items) = ", ".intercalate (items.map f)
  team : ∀ fields,
    ((Json.obj fields).get "team_name").truthy = true ∨
      ((Json.obj fields).get "manager_names").truthy = true →
    f (Json.obj fields) = formatTeam fmt (Json.obj fields)
  player : ∀ fields,
    ((Json.obj fields).get "team_name").truthy = false →
    ((Json.obj fields).get "manager_names").truthy = false →
    ((Json.obj fields).get "player_name").truthy = true ∨
      ((Json.obj fields).get "player_position").truthy = true →
    f (Json.obj fields) = formatPlayer fmt (Json.obj fields)
  other : ∀ fields,
    ((Json.obj fields).get "team_name").truthy = false →
    ((Json.obj fields).get "manager_names").truthy = false →
    ((Json.obj fields).get "player_name").truthy = false →
    ((Json.obj fields).get "player_position").truthy = false →
    f (Json.obj fields)
      = " • ".intercalate (fields.map (fun e => prettyLabel e.1 ++ ": " ++ f e.2))

/-- A number formatting for the examples: it writes an integer in decimal and
rounds `toFixed` exactly (half away from zero); values that are not numbers
convert to NaN. The examples use it on integers and halves only. -/
def exampleFormat : NumberFormat :=
  { text := fun q => toString q.num
    fixed := fun q digits =>
      let n : ℕ := (⌊|q| * 10 ^ digits + 1 / 2⌋).toNat
      let s := (toString n).data
      let padded := List.replicate (digits + 1 - s.length) '0' ++ s
      (if q < 0 then "-" else "") ++ String.mk (padded.take (padded.length - digits))
        ++ (if digits = 0 then "" else "." ++ String.mk (padded.drop (padded.length - digits)))
    coerce := fun _ => none }

/-- The test `value === null`. -/
def Json.isNull : Json → Bool
  | Json.null => true
  | _ => false

/-- The text shown in a row of `createOverviewCard`, line 341, for a value that
is a string: the placeholder for the empty string. -/
def rowText (value : String) : String :=
  if value = "" then "—" else value

/-- The value of a row of the Season Snapshot card, lines 570-591:
`field === null ? "—" : formatNumber(field)`; `none` when `formatNumber`
throws. -/
def snapshotValue (fmt : NumberFormat) (field : Json) : Option String :=
  if field.isNull then some "—" else formatNumber fmt field

/-- The rows of the Season Snapshot card, lines 568-592: label and field
name. -/
def snapshotFields : List (String × String) :=
  [ ("Total points", "total_points"),
    ("Avg weekly points", "avg_weekly_points"),
    ("Avg margin", "avg_margin"),
    ("Closest game", "closest_margin"),
    ("Biggest blowout", "blowout_margin") ]

/-- The Season Snapshot card of `renderOverview(overview, season)`, lines
554-594: the label and the text shown in each row; `none` when building it
throws. -/
def snapshotCard (fmt : NumberFormat) (overview : Json) : Option (List (String × String)) :=
  if !overview.truthy then
    some [ ("Total points", rowText "—"), ("Avg weekly points", rowText "—"),
           ("Avg margin", rowText "—") ]
  else
    let snapshot := (overview.get "snapshot").orElse (Json.obj [])
    snapshotFields.mapM
      (fun p => (snapshotValue fmt (snapshot.get p.2)).map (fun value => (p.1, rowText value)))

/-- The Upset Rate card of `renderOverview(overview, season)`, lines 652-667,
for a truthy `overview`: the label and the text shown in each row. -/
def upsetCard (fmt : NumberFormat) (overview : Json) : List (String × String) :=
  let upset := (overview.get "upset_rate").orElse (Json.obj [])
  [ ("Upsets",
      rowText
        (if !(upset.get "upsets").isNull && (upset.get "games").truthy then
          jsToString fmt (upset.get "upsets") ++ "/" ++ jsToString fmt (upset.get "games")
        else "—")),
    ("Rate", rowText (formatPercent fmt (upset.get "rate") 1)) ]

/-- The events of a switch of season during a load: `init` loads season 2024,
whose dataset arrives and whose team document is requested; the user clicks
season 2023, whose dataset arrives and whose team document arrives first; the
load of 2023 runs to its end and the user selects the team `b1` of 2023; then
the team document of 2024 arrives. The resumption of `loadSeason("2024")` is
left to come. -/
def raceEvents : List Event :=
  [ Event.init [SeasonId.str "2023", SeasonId.str "2024"],
    Event.seasonFetched (SeasonId.str "2024")
      { insights := some [⟨"juggernaut", "Juggernaut 2024"⟩], missing := none },
    Event.clickSeason (SeasonId.str "2023"),
    Event.seasonFetched (SeasonId.str "2023")
      { insights := some [⟨"paper_tiger", "Paper Tiger 2023"⟩], missing := none },
    Event.teamsFetched "2023"
      (some { teams := some [{ team_key := "b1",
                               insights := some [⟨"peak_week", "Peak Week of b1"⟩],
                               missing := none }] }),
    Event.seasonResumed (SeasonId.str "2023"),
    Event.setTeamSelection (some "b1"),
    Event.teamsFetched "2024"
      (some { teams := some [{ team_key := "a1",
                               insights := some [⟨"rock_bottom", "Rock Bottom of a1"⟩],
                               missing := none }] }) ]

/-- The page after `raceEvents`: season 2023 is current with its team `b1`
selected, and the call `loadSeason("2024")` is ready to go on. -/
def raceBefore : World :=
  run parseDigits (World.initial []) raceEvents

/-- The page after the call `loadSeason("2024")` has gone on to its end. -/
def raceAfter : World :=
  loadSeasonResume (SeasonId.str "2024") raceBefore

/-! ## IEEE 754 binary64 arithmetic -/

/-- Number of binary digits of `n`, by halving; `fuel` bounds the number of
halvings and is taken to be `n` itself. -/
def bitLength : ℕ → ℕ → ℕ
  | 0, _ => 0
  | fuel + 1, n => if n = 0 then 0 else bitLength fuel (n / 2) + 1

/-- The binary exponent of a rational `q` that is not zero: the integer `e`
with `2 ^ e ≤ |q| < 2 ^ (e + 1)`. -/
def floorLog2 (q : ℚ) : ℤ :=
  let e0 : ℤ := (bitLength q.num.natAbs q.num.natAbs : ℤ) - (bitLength q.den q.den : ℤ)
  if (2 : ℚ) ^ e0 ≤ |q| then e0 else e0 - 1

/-- Rounding to the nearest integer, a tie going to the even one. -/
def roundHalfEven (t : ℚ) : ℤ :=
  let f := ⌊t⌋
  let r := t - f
  if r < 1 / 2 then f else if 1 / 2 < r then f + 1 else if f % 2 = 0 then f else f + 1

/-- The exponent of the spacing of the doubles around `q`: 52 below the binary
exponent of `q`, and never below that of the subnormal numbers. -/
def ulpExponent (q : ℚ) : ℤ := max (floorLog2 q) (-1022) - 52

/-- The double nearest to the real number `q` (IEEE 754 binary64, round to
nearest, ties to even, gradual underflow): the result of an arithmetic
operation of JavaScript whose exact result is `q`. Numbers are rationals: the
two zeros are one, and a result of magnitude `2 ^ 1024` or more, which
JavaScript turns into an infinity, is left finite, so that the model follows
the script only as long as its results stay below that magnitude. -/
def fl (q : ℚ) : ℚ :=
  if q = 0 then 0
  else (roundHalfEven (q / (2 : ℚ) ^ ulpExponent q) : ℚ) * (2 : ℚ) ^ ulpExponent q

/-- A rational of the form `m * 2 ^ j` with `|m| ≤ 2 ^ 53` and `j ≥ -1074`: the
values that `fl` leaves as they are. -/
def Representable (d : ℚ) : Prop :=
  ∃ m j : ℤ, |m| ≤ 2 ^ 53 ∧ -1074 ≤ j ∧ d = (m : ℚ) * (2 : ℚ) ^ j

/-! ## Chart layout on doubles: `createSparkline` as the engine computes it -/

/-- The loop
`while (maxBound < maxBoundRaw) { step += 10; maxBound = minBound + step * 4; }`
on doubles, started with the given `step` and `maxBound`. The condition is
tested at most `fuel` times; the result is `none` when the fuel is used up
before the condition turns false, else the final `(step, maxBound)`. -/
def growStep64 (minBound maxBoundRaw : ℚ) : ℕ → ℚ → ℚ → Option (ℚ × ℚ)
  | 0, _, _ => none
  | fuel + 1, step, maxBound =>
    if maxBound < maxBoundRaw then
      growStep64 minBound maxBoundRaw fuel (fl (step + 10))
        (fl (minBound + fl (fl (step + 10) * 4)))
    else
      some (step, maxBound)

/-- The geometry computed by `createSparkline` on doubles for a non-empty
series. -/
structure Chart64 where
  min : ℚ
  max : ℚ
  pad : ℚ
  minBoundRaw : ℚ
  maxBoundRaw : ℚ
  minBound : ℚ
  maxBound : ℚ
  step : ℚ
  boundedRange : ℚ
  coords : List (ℚ × ℚ)
  yTickValues : List ℚ
  deriving DecidableEq

/-- What a call of `createSparkline` ends in: `{ svg: null, min: null, max:
null }`, a chart, or the RangeError that the engine throws at
`Math.min(...values)` when the series has more elements than a call can take
arguments. -/
inductive Sparkline64
  | noChart
  | chart (c : Chart64)
  | rangeError
  deriving DecidableEq

/-- The point of sample `index` with value `value`, lines 403-410, on
doubles. -/
def coordOf64 (length : ℕ) (minBound boundedRange : ℚ) (index : ℕ) (value : ℚ) : ℚ × ℚ :=
  let width : ℚ := 840
  let height : ℚ := 200
  let left : ℚ := 56
  let right : ℚ := 18
  let top : ℚ := 12
  let bottom : ℚ := 46
  let innerWidth := fl (fl (width - left) - right)
  let innerHeight := fl (fl (height - top) - bottom)
  let x := if length = 1 then fl (left + fl (innerWidth / 2))
    else fl (left + fl (fl ((index : ℚ) / fl ((length : ℚ) - 1)) * innerWidth))
  let y := fl (top + fl (fl (1 - fl (fl (value - minBound) / boundedRange)) * innerHeight))
  (x, y)

/-- Lines 379-380 on doubles: `Math.max(5, range * 0.15)` with
`range = max - min || 1`; the literal `0.15` is the double nearest to 15/100. -/
def padOf64 (min max : ℚ) : ℚ := Max.max 5 (fl (orNum (fl (max - min)) 1 * fl (15 / 100)))

/-- Line 383 on doubles: `Math.floor(minBoundRaw / 10) * 10`. -/
def floorTen64 (minBoundRaw : ℚ) : ℚ := fl ((⌊fl (minBoundRaw / 10)⌋ : ℚ) * 10)

/-- Line 384 on doubles: `Math.ceil(maxBoundRaw / 10) * 10`. -/
def ceilTen64 (maxBoundRaw : ℚ) : ℚ := fl ((⌈fl (maxBoundRaw / 10)⌉ : ℚ) * 10)

/-- Lines 385-387 on doubles: `if (maxBound <= minBound) { maxBound = minBound + 40; }`. -/
def widenBound64 (minBound maxBound : ℚ) : ℚ :=
  if maxBound ≤ minBound then fl (minBound + 40) else maxBound

/-- Line 388 on doubles: `Math.ceil(((maxBound - minBound) / 4) / 10) * 10`. -/
def stepCeil64 (minBound maxBound : ℚ) : ℚ :=
  fl ((⌈fl (fl (fl (maxBound - minBound) / 4) / 10)⌉ : ℚ) * 10)

/-- Lines 389-391: `if (step < 10) { step = 10; }`. -/
def stepFloor64 (step : ℚ) : ℚ := if step < 10 then 10 else step

/-- The function `createSparkline(values, axisConfig)`, lines 373-443, on doubles: every
arithmetic operation is followed by the rounding `fl`; `Math.min`, `Math.max`,
`Math.floor` and `Math.ceil` are exact. `maxArgs` is the number of arguments
that the engine accepts in one call, `fuel` the number of times the condition
of the loop may be tested: the outer `none` is a loop that has not ended
within the fuel. -/
def createSparkline64 (maxArgs fuel : ℕ) (values : List ℚ) : Option Sparkline64 :=
  match values with
  | [] => some Sparkline64.noChart
  | v :: vs =>
    if maxArgs < (v :: vs).length then some Sparkline64.rangeError
    else
      let min := jsMin v vs
      let max := jsMax v vs
      let pad := padOf64 min max
      let minBoundRaw := fl (min - pad)
      let maxBoundRaw := fl (max + pad)
      let minBound := floorTen64 minBoundRaw
      let maxBound0 := widenBound64 minBound (ceilTen64 maxBoundRaw)
      let step0 := stepFloor64 (stepCeil64 minBound maxBound0)
      let maxBound1 := fl (minBound + fl (step0 * 4))
      match growStep64 minBound maxBoundRaw fuel step0 maxBound1 with
      | none => none
      | some (step, maxBound) =>
        let boundedRange := orNum (fl (maxBound - minBound)) 1
        some (Sparkline64.chart
          { min := min
            max := max
            pad := pad
            minBoundRaw := minBoundRaw
            maxBoundRaw := maxBoundRaw
            minBound := minBound
            maxBound := maxBound
            step := step
            boundedRange := boundedRange
            coords := (v :: vs).enum.map
              (fun p => coordOf64 (v :: vs).length minBound boundedRange p.1 p.2)
            yTickValues :=
              (List.range 5).map (fun (idx : ℕ) => fl (maxBound - fl (step * (idx : ℚ)))) })

/-! ### Lemmas on the chart layout -/

theorem jsMin_le_head (v : ℚ) (vs : List ℚ) : jsMin v vs ≤ v := by
  unfold jsMin
  induction vs generalizing v with
  | nil => simp
  | cons a as ih => exact le_trans (ih (min v a)) (min_le_left v a)

theorem jsMin_le_of_mem (v : ℚ) (vs : List ℚ) : ∀ x ∈ vs, jsMin v vs ≤ x := by
  induction vs generalizing v with
  | nil => simp
  | cons a as ih =>
    intro x hx
    rcases List.mem_cons.mp hx with rfl | hx
    · exact le_trans (jsMin_le_head (min v x) as) (min_le_right v x)
    · exact ih (min v a) x hx

theorem jsMin_mem (v : ℚ) (vs : List ℚ) : jsMin v vs ∈ v :: vs := by
  induction vs generalizing v with
  | nil => simp [jsMin]
  | cons a as ih =>
    have h := ih (min v a)
    have e : jsMin v (a :: as) = jsMin (min v a) as := rfl
    rw [e]
    rcases List.mem_cons.mp h with h | h
    · rw [h]
      rcases min_choice v a with h2 | h2 <;> rw [h2] <;> simp
    · exact List.mem_cons_of_mem _ (List.mem_cons_of_mem _ h)

theorem head_le_jsMax (v : ℚ) (vs : List ℚ) : v ≤ jsMax v vs := by
  unfold jsMax
  induction vs generalizing v with
  | nil => simp
  | cons a as ih => exact le_trans (le_max_left v a) (ih (max v a))

theorem le_jsMax_of_mem (v : ℚ) (vs : List ℚ) : ∀ x ∈ vs, x ≤ jsMax v vs := by
  induction vs generalizing v with
  | nil => simp
  | cons a as ih =>
    intro x hx
    rcases List.mem_cons.mp hx with rfl | hx
    · exact le_trans (le_max_right v x) (head_le_jsMax (max v x) as)
    · exact ih (max v a) x hx

theorem jsMax_mem (v : ℚ) (vs : List ℚ) : jsMax v vs ∈ v :: vs := by
  induction vs generalizing v with
  | nil => simp [jsMax]
  | cons a as ih =>
    have h := ih (max v a)
    have e : jsMax v (a :: as) = jsMax (max v a) as := rfl
    rw [e]
    rcases List.mem_cons.mp h with h | h
    · rw [h]
      rcases max_choice v a with h2 | h2 <;> rw [h2] <;> simp
    · exact List.mem_cons_of_mem _ (List.mem_cons_of_mem _ h)

theorem jsMin_le_jsMax (v : ℚ) (vs : List ℚ) : jsMin v vs ≤ jsMax v vs :=
  le_trans (jsMin_le_head v vs) (head_le_jsMax v vs)

/-- A loop entered with its condition already false returns at once. -/
theorem growStep_done (minBound : ℤ) (maxBoundRaw : ℚ) (fuel : ℕ) (step maxBound : ℤ)
    (h : maxBoundRaw ≤ maxBound) :
    growStep minBound maxBoundRaw (fuel + 1) step maxBound = some (step, maxBound) := by
  simp [growStep, not_lt.mpr h]

/-- Termination of the loop from any entry state in which
`maxBound = minBound + step * 4`: with the fuel of `loopFuel` it returns, having
added `10 * k` to the step for the number `k` of passes, and `k` is the first
count at which the upper bound reaches `maxBoundRaw`. -/
theorem growStep_terminates (minBound : ℤ) (maxBoundRaw : ℚ) :
    ∀ (fuel : ℕ) (step : ℤ),
      (⌈(maxBoundRaw - ((minBound + step * 4 : ℤ) : ℚ)) / 40⌉).toNat < fuel →
      ∃ k : ℕ,
        growStep minBound maxBoundRaw fuel step (minBound + step * 4)
          = some (step + 10 * k, minBound + (step + 10 * k) * 4) ∧
        maxBoundRaw ≤ ((minBound + (step + 10 * k) * 4 : ℤ) : ℚ) ∧
        ∀ j : ℕ, j < k → ((minBound + (step + 10 * j) * 4 : ℤ) : ℚ) < maxBoundRaw := by
  intro fuel
  induction fuel with
  | zero => intro step h; exact absurd h (Nat.not_lt_zero _)
  | succ n ih =>
    intro step h
    by_cases hc : ((minBound + step * 4 : ℤ) : ℚ) < maxBoundRaw
    · have hgap : (⌈(maxBoundRaw - ((minBound + (step + 10) * 4 : ℤ) : ℚ)) / 40⌉).toNat < n := by
        have e : (maxBoundRaw - ((minBound + (step + 10) * 4 : ℤ) : ℚ)) / 40
            = (maxBoundRaw - ((minBound + step * 4 : ℤ) : ℚ)) / 40 - 1 := by
          push_cast; ring
        have hpos : 0 < ⌈(maxBoundRaw - ((minBound + step * 4 : ℤ) : ℚ)) / 40⌉ := by
          apply Int.ceil_pos.mpr
          apply div_pos _ (by norm_num)
          linarith
        rw [e, Int.ceil_sub_one]
        omega
      obtain ⟨k, hk, hge, hlt⟩ := ih (step + 10) hgap
      refine ⟨k + 1, ?_, ?_, ?_⟩
      · rw [growStep, if_pos hc, hk]
        push_cast
        simp only [Option.some.injEq, Prod.mk.injEq]
        constructor <;> ring
      · have e : (minBound + (step + 10 * ((k + 1 : ℕ) : ℤ)) * 4 : ℤ)
            = minBound + (step + 10 + 10 * (k : ℤ)) * 4 := by push_cast; ring
        rw [e]; exact hge
      · intro j hj
        cases j with
        | zero => simpa using hc
        | succ j =>
          have e : (minBound + (step + 10 * ((j + 1 : ℕ) : ℤ)) * 4 : ℤ)
              = minBound + (step + 10 + 10 * (j : ℤ)) * 4 := by push_cast; ring
          rw [e]; exact hlt j (by omega)
    · refine ⟨0, ?_, ?_, ?_⟩
      · rw [growStep, if_neg hc]; simp
      · simpa using not_lt.mp hc
      · intro j hj; exact absurd hj (Nat.not_lt_zero _)

theorem padOf_eq (min max : ℚ) : padOf min max = Max.max 5 ((15 / 100) * (max - min)) := by
  unfold padOf orNum
  split_ifs with h
  · rw [h]; norm_num
  · rw [mul_comm]

theorem five_le_padOf (min max : ℚ) : 5 ≤ padOf min max := le_max_left _ _

theorem floorTen_le (x : ℚ) : ((floorTen x : ℤ) : ℚ) ≤ x := by
  have h := Int.floor_le (x / 10)
  unfold floorTen
  push_cast
  linarith

theorem le_ceilTen (x : ℚ) : x ≤ ((ceilTen x : ℤ) : ℚ) := by
  have h := Int.le_ceil (x / 10)
  unfold ceilTen
  push_cast
  linarith

theorem ten_dvd_floorTen (x : ℚ) : (10 : ℤ) ∣ floorTen x := Dvd.intro_left _ rfl

theorem ten_dvd_stepFloor_stepCeil (a b : ℤ) : (10 : ℤ) ∣ stepFloor (stepCeil a b) := by
  unfold stepFloor
  split_ifs
  · exact dvd_refl _
  · exact Dvd.intro_left _ rfl

theorem ten_le_stepFloor (s : ℤ) : 10 ≤ stepFloor s := by
  unfold stepFloor
  split_ifs <;> omega

/-- The chart of a non-empty series: it exists (the loop ends within its
fuel), and its fields are related as the axis computation leaves them. -/
theorem createSparkline_cons (v : ℚ) (vs : List ℚ) :
    ∃ c : Chart, createSparkline (v :: vs) = some (Sparkline.chart c) ∧
      c.min = jsMin v vs ∧ c.max = jsMax v vs ∧
      c.pad = padOf c.min c.max ∧
      c.minBoundRaw = c.min - c.pad ∧ c.maxBoundRaw = c.max + c.pad ∧
      c.minBound = floorTen c.minBoundRaw ∧
      c.maxBoundRaw ≤ (c.maxBound : ℚ) ∧
      c.maxBound = c.minBound + c.step * 4 ∧
      (10 : ℤ) ∣ c.step ∧ 10 ≤ c.step ∧
      c.yTickValues = (List.range 5).map (fun idx => c.maxBound - c.step * (idx : ℤ)) := by
  obtain ⟨k, hk, hge, -⟩ := growStep_terminates
    (floorTen (jsMin v vs - padOf (jsMin v vs) (jsMax v vs)))
    (jsMax v vs + padOf (jsMin v vs) (jsMax v vs))
    (loopFuel (jsMax v vs + padOf (jsMin v vs) (jsMax v vs))
      (floorTen (jsMin v vs - padOf (jsMin v vs) (jsMax v vs))
        + stepFloor (stepCeil (floorTen (jsMin v vs - padOf (jsMin v vs) (jsMax v vs)))
            (widenBound (floorTen (jsMin v vs - padOf (jsMin v vs) (jsMax v vs)))
              (ceilTen (jsMax v vs + padOf (jsMin v vs) (jsMax v vs))))) * 4))
    (stepFloor (stepCeil (floorTen (jsMin v vs - padOf (jsMin v vs) (jsMax v vs)))
      (widenBound (floorTen (jsMin v vs - padOf (jsMin v vs) (jsMax v vs)))
        (ceilTen (jsMax v vs + padOf (jsMin v vs) (jsMax v vs))))))
    (by unfold loopFuel; omega)
  unfold createSparkline
  simp only []
  rw [hk]
  refine ⟨_, rfl, rfl, rfl, rfl, rfl, rfl, rfl, ?_, rfl, ?_, ?_, rfl⟩
  · exact hge
  · exact dvd_add (ten_dvd_stepFloor_stepCeil _ _) (Dvd.intro _ rfl)
  · have := ten_le_stepFloor (stepCeil (floorTen (jsMin v vs - padOf (jsMin v vs) (jsMax v vs)))
      (widenBound (floorTen (jsMin v vs - padOf (jsMin v vs) (jsMax v vs)))
        (ceilTen (jsMax v vs + padOf (jsMin v vs) (jsMax v vs)))))
    show 10 ≤ _ + 10 * (k : ℤ)
    omega

/-! ### Lemmas on objects used as maps -/

theorem getProp_setProp {β : Type} (m : List (String × β)) (k k' : String) (v : β) :
    getProp (setProp m k v) k' = if k = k' then some v else getProp m k' := by
  induction m with
  | nil => simp [setProp, getProp]
  | cons p rest ih =>
    obtain ⟨a, b⟩ := p
    by_cases h : a = k
    · subst h
      by_cases h2 : a = k' <;> simp [setProp, getProp, h2]
    · by_cases h2 : a = k'
      · subst h2
        simp [setProp, getProp, h, Ne.symm h]
      · simp [setProp, getProp, h, h2, ih]

theorem getProp_setProp_self {β : Type} (m : List (String × β)) (k : String) (v : β) :
    getProp (setProp m k v) k = some v := by
  rw [getProp_setProp]; simp

theorem getProp_setProp_ne {β : Type} (m : List (String × β)) (k k' : String) (v : β)
    (h : k ≠ k') : getProp (setProp m k v) k' = getProp m k' := by
  rw [getProp_setProp]; simp [h]

theorem mem_of_getProp {β : Type} (m : List (String × β)) (k : String) (v : β)
    (h : getProp m k = some v) : (k, v) ∈ m := by
  induction m with
  | nil => simp [getProp] at h
  | cons p rest ih =>
    obtain ⟨a, b⟩ := p
    by_cases hk : a = k
    · subst hk
      simp [getProp] at h
      subst h
      exact List.mem_cons_self _ _
    · simp [getProp, hk] at h
      exact List.mem_cons_of_mem _ (ih h)

theorem getProp_assignProp {β : Type} (m : List (String × β)) (k k' : String) (v : β) :
    getProp (assignProp m k v) k'
      = if k = "__proto__" then getProp m k' else if k = k' then some v else getProp m k' := by
  unfold assignProp
  by_cases h : k = "__proto__"
  · simp [h]
  · simp [h, getProp_setProp]

theorem getProp_assignProp_self {β : Type} (m : List (String × β)) (k : String) (v : β)
    (h : k ≠ "__proto__") : getProp (assignProp m k v) k = some v := by
  rw [getProp_assignProp]; simp [h]

theorem getProp_assignProp_ne {β : Type} (m : List (String × β)) (k k' : String) (v : β)
    (h : k ≠ k') : getProp (assignProp m k v) k' = getProp m k' := by
  rw [getProp_assignProp]; simp [h]

/-! ### Lemmas on the insight grouping -/

theorem sectionItems_append (l₁ l₂ : List Insight) (name : String) :
    sectionItems (l₁ ++ l₂) name = sectionItems l₁ name ++ sectionItems l₂ name := by
  simp [sectionItems]

theorem getProp_pushGrouped (grouped : List (String × List Insight)) (sectionName name : String)
    (insight : Insight) :
    getProp (pushGrouped grouped sectionName insight) name
      = if sectionName = name then some ((getProp grouped sectionName).getD [] ++ [insight])
        else getProp grouped name := by
  unfold pushGrouped
  cases h : getProp grouped sectionName with
  | none => simp [getProp_setProp]
  | some items => simp [getProp_setProp]

/-- The object `grouped` built from an accumulator that already describes the
insights `pre`. -/
theorem getProp_foldl_group (l pre : List Insight) (acc : List (String × List Insight))
    (hacc : ∀ name, getProp acc name
      = if sectionItems pre name = [] then none else some (sectionItems pre name)) :
    ∀ name, getProp
        (l.foldl (fun grouped insight =>
          if insight.id ∈ HIDDEN_INSIGHTS then grouped
          else pushGrouped grouped (sectionOf insight.id) insight) acc) name
      = if sectionItems (pre ++ l) name = [] then none else some (sectionItems (pre ++ l) name) := by
  induction l generalizing pre acc with
  | nil => simpa using hacc
  | cons i rest ih =>
    intro name
    have e : pre ++ i :: rest = (pre ++ [i]) ++ rest := by simp
    rw [List.foldl_cons, e]
    apply ih
    intro name'
    by_cases hh : i.id ∈ HIDDEN_INSIGHTS
    · have e1 : sectionItems (pre ++ [i]) name' = sectionItems pre name' := by
        simp [sectionItems, List.filter_cons, hh]
      rw [if_pos hh, e1]
      exact hacc name'
    · rw [if_neg hh, getProp_pushGrouped]
      by_cases hs : sectionOf i.id = name'
      · have e1 : sectionItems (pre ++ [i]) name' = sectionItems pre name' ++ [i] := by
          simp [sectionItems, List.filter_cons, hh, hs]
        rw [if_pos hs, e1, hs, hacc name']
        by_cases hp : sectionItems pre name' = []
        · simp [hp]
        · simp [hp]
      · have e1 : sectionItems (pre ++ [i]) name' = sectionItems pre name' := by
          simp [sectionItems, List.filter_cons, hh, hs]
        rw [if_neg hs, e1]
        exact hacc name'

theorem getProp_groupInsights (insights : List Insight) (name : String) :
    getProp (groupInsights insights) name
      = if sectionItems insights name = [] then none else some (sectionItems insights name) := by
  have h := getProp_foldl_group insights [] [] (by intro n; simp [getProp, sectionItems]) name
  simpa [groupInsights] using h

/-- The sections rendered are those of `SECTION_ORDER` with at least one card,
each with the insights that `sectionItems` gives it. -/
theorem renderInsights_eq (insights : List Insight) :
    renderInsights insights
      = SECTION_ORDER.filterMap (fun name =>
          if sectionItems insights name = [] then none
          else some (name, sectionItems insights name)) := by
  unfold renderInsights
  congr 1
  funext name
  rw [getProp_groupInsights]
  by_cases h : sectionItems insights name = []
  · simp [h]
  · have hl : (sectionItems insights name).length ≠ 0 := by
      simpa [List.length_eq_zero] using h
    simp [h, hl]

theorem sectionOf_mem_order (id : String) (hid : id ∉ objectPrototypeNames) :
    sectionOf id ∈ SECTION_ORDER := by
  unfold sectionOf
  cases h : getProp SECTION_MAP id with
  | none => simp [SECTION_ORDER, hid]
  | some name =>
    have hm := mem_of_getProp _ _ _ h
    have hall : ∀ p ∈ SECTION_MAP, p.2 ∈ SECTION_ORDER ∧ p.2 ≠ "" := by decide
    have := hall _ hm
    simp only [this.2, if_false]
    exact this.1

/-- An id that names a member inherited from `Object.prototype` is not in
`SECTION_MAP`, and the property name it is filed under is no section of
`SECTION_ORDER`. -/
theorem sectionOf_inherited (id : String) (hid : id ∈ objectPrototypeNames) :
    getProp SECTION_MAP id = none ∧ sectionOf id ∉ SECTION_ORDER := by
  have hall : ∀ x ∈ objectPrototypeNames,
      getProp SECTION_MAP x = none ∧ sectionOf x ∉ SECTION_ORDER := by
    with_unfolding_all decide
  exact hall id hid

theorem map_fst_filterMap_sections (insights : List Insight) (names : List String) :
    (names.filterMap (fun name =>
        if sectionItems insights name = [] then none
        else some (name, sectionItems insights name))).map Prod.fst
      = names.filter (fun name => decide (sectionItems insights name ≠ [])) := by
  induction names with
  | nil => rfl
  | cons n rest ih =>
    by_cases h : sectionItems insights n = []
    · simp [List.filterMap_cons, List.filter_cons, h, ih]
    · simp [List.filterMap_cons, List.filter_cons, h, ih]

theorem mem_renderInsights (insights : List Insight) (name : String) (items : List Insight) :
    (name, items) ∈ renderInsights insights
      ↔ name ∈ SECTION_ORDER ∧ items = sectionItems insights name ∧ items ≠ [] := by
  rw [renderInsights_eq, List.mem_filterMap]
  constructor
  · rintro ⟨n, hn, hf⟩
    by_cases h : sectionItems insights n = []
    · simp [h] at hf
    · simp only [h, if_false, Option.some.injEq, Prod.mk.injEq] at hf
      obtain ⟨rfl, rfl⟩ := hf
      exact ⟨hn, rfl, h⟩
  · rintro ⟨hn, rfl, h⟩
    exact ⟨name, hn, by simp [h]⟩

theorem mem_sectionItems (insights : List Insight) (name : String) (i : Insight) :
    i ∈ sectionItems insights name
      ↔ i ∈ insights ∧ i.id ∉ HIDDEN_INSIGHTS ∧ sectionOf i.id = name := by
  simp [sectionItems, List.mem_filter]

/-! ### Properties of the insight grouping -/

/-- C10, as the code has it: for every list of insights given to
`renderInsights`, an insight whose id is in `SECTION_MAP` gets its card under
the section `SECTION_MAP[id]`; an insight whose id is not in the table, not in
`HIDDEN_INSIGHTS` and not the name of a member inherited from
`Object.prototype` gets its card under "Other"; every card of a rendered
section is an insight of the list that is not hidden and whose id the table
sends to that section, or, under "Other", whose id is neither in the table nor
the name of an inherited member; the rendered sections follow `SECTION_ORDER`,
whose last entry is "Other"; and no rendered section is empty. -/
theorem renderInsights_groups_by_section (insights : List Insight) (i : Insight)
    (hi : i ∈ insights) :
    (∀ name, getProp SECTION_MAP i.id = some name →
      ∃ items, (name, items) ∈ renderInsights insights ∧ i ∈ items) ∧
    (getProp SECTION_MAP i.id = none → i.id ∉ HIDDEN_INSIGHTS →
      i.id ∉ objectPrototypeNames →
      ∃ items, ("Other", items) ∈ renderInsights insights ∧ i ∈ items) ∧
    (∀ p ∈ renderInsights insights, ∀ j ∈ p.2, j ∈ insights ∧ j.id ∉ HIDDEN_INSIGHTS ∧
      (getProp SECTION_MAP j.id = some p.1 ∨
        (p.1 = "Other" ∧ getProp SECTION_MAP j.id = none ∧ j.id ∉ objectPrototypeNames))) ∧
    List.Sublist ((renderInsights insights).map Prod.fst) SECTION_ORDER ∧
    SECTION_ORDER.getLast? = some "Other" ∧
    (∀ p ∈ renderInsights insights, p.2 ≠ []) := by
  have hshown : ∀ j ∈ insights, j.id ∉ HIDDEN_INSIGHTS → sectionOf j.id ∈ SECTION_ORDER →
      ∃ items, (sectionOf j.id, items) ∈ renderInsights insights ∧ j ∈ items := by
    intro j hj hh ho
    have hmem : j ∈ sectionItems insights (sectionOf j.id) :=
      (mem_sectionItems _ _ _).mpr ⟨hj, hh, rfl⟩
    exact ⟨_, (mem_renderInsights _ _ _).mpr ⟨ho, rfl, List.ne_nil_of_mem hmem⟩, hmem⟩
  have hall : ∀ p ∈ SECTION_MAP,
      p.1 ∉ HIDDEN_INSIGHTS ∧ p.2 ≠ "" ∧ p.2 ∈ SECTION_ORDER := by decide
  refine ⟨?_, ?_, ?_, ?_, by decide, ?_⟩
  · intro name hname
    have hp := hall _ (mem_of_getProp _ _ _ hname)
    have hsec : sectionOf i.id = name := by
      unfold sectionOf
      rw [hname]
      simp [hp.2.1]
    have := hshown i hi hp.1 (by rw [hsec]; exact hp.2.2)
    rwa [hsec] at this
  · intro hnone hh hproto
    have hsec : sectionOf i.id = "Other" := by
      unfold sectionOf
      rw [hnone]
      simp [hproto]
    have := hshown i hi hh (by rw [hsec]; decide)
    rwa [hsec] at this
  · rintro ⟨name, items⟩ hp j hj
    obtain ⟨hord, rfl, -⟩ := (mem_renderInsights _ _ _).mp hp
    have hj2 := (mem_sectionItems _ _ _).mp hj
    refine ⟨hj2.1, hj2.2.1, ?_⟩
    have hsec : sectionOf j.id = name := hj2.2.2
    cases hg : getProp SECTION_MAP j.id with
    | some n =>
      left
      have hn := (hall _ (mem_of_getProp _ _ _ hg)).2.1
      have : sectionOf j.id = n := by
        unfold sectionOf
        rw [hg]
        simp [hn]
      rw [← hsec, this]
    | none =>
      right
      by_cases hproto : j.id ∈ objectPrototypeNames
      · exact absurd (hsec ▸ hord) (sectionOf_inherited j.id hproto).2
      · refine ⟨?_, rfl, hproto⟩
        rw [← hsec]
        unfold sectionOf
        rw [hg]
        simp [hproto]
  · rw [renderInsights_eq, map_fst_filterMap_sections]
    exact List.filter_sublist _
  · rintro ⟨name, items⟩ hp
    exact ((mem_renderInsights _ _ _).mp hp).2.2

/-- Instance of C10 at a list with one insight of the table, one hidden insight
and one insight of unknown id. -/
theorem renderInsights_groups_by_section_witness :
    (⟨"mystery_award", "Mystery"⟩ : Insight) ∈
      [(⟨"juggernaut", "Juggernaut"⟩ : Insight), ⟨"league_summary", "Summary"⟩,
        ⟨"mystery_award", "Mystery"⟩] ∧
    ∃ items, ("Other", items) ∈ renderInsights
      [⟨"juggernaut", "Juggernaut"⟩, ⟨"league_summary", "Summary"⟩,
        ⟨"mystery_award", "Mystery"⟩] ∧ (⟨"mystery_award", "Mystery"⟩ : Insight) ∈ items :=
  ⟨by decide,
   (renderInsights_groups_by_section
      [⟨"juggernaut", "Juggernaut"⟩, ⟨"league_summary", "Summary"⟩, ⟨"mystery_award", "Mystery"⟩]
      ⟨"mystery_award", "Mystery"⟩ (by decide)).2.1 (by decide) (by decide) (by decide)⟩

/-- C10 as stated fails: the id `league_summary` is not in `SECTION_MAP`, yet an
insight with that id gets no card under "Other": no section is rendered. -/
theorem renderInsights_hidden_not_under_other :
    getProp SECTION_MAP "league_summary" = none ∧
    renderInsights [⟨"league_summary", "League Summary"⟩] = [] := by
  decide

set_option maxRecDepth 100000 in
/-- An id that names a member inherited from `Object.prototype`: the id
`constructor` is neither in `SECTION_MAP` nor hidden, the lookup
`SECTION_MAP["constructor"]` finds the function `Object`, and the insight is
filed under a property of `grouped` that is no section: it gets no card, and a
list of such insights renders no section at all. -/
theorem renderInsights_inherited_id_no_card :
    getProp SECTION_MAP "constructor" = none ∧ "constructor" ∉ HIDDEN_INSIGHTS ∧
    renderInsights [⟨"constructor", "Constructor"⟩, ⟨"toString", "To String"⟩] = [] ∧
    renderInsights [⟨"constructor", "Constructor"⟩, ⟨"mystery_award", "Mystery"⟩]
      = [("Other", [⟨"mystery_award", "Mystery"⟩])] := by
  with_unfolding_all decide

/-! ### Invariants of the selection logic -/

theorem inv_initial (query : List (String × String)) : Inv (World.initial query) := by
  constructor <;> simp [World.initial, statusOf, teamFetchCount, getProp]

theorem inv_loadSeasonCall (season : SeasonId) (w : World) (h : Inv w) :
    Inv (loadSeasonCall season w) := by
  obtain ⟨h1, h2, h3, h4, h5⟩ := h
  constructor
  · exact h1
  · exact h2
  · exact h3
  · intro key hkey
    have := h4 key hkey
    simpa [loadSeasonCall, teamFetchCount, statusOf, List.count_append] using this
  · exact h5

theorem inv_loadSeasonFailed (season : SeasonId) (w : World) (h : Inv w) :
    Inv (loadSeasonFailed season w) := by
  obtain ⟨h1, h2, h3, h4, h5⟩ := h
  exact ⟨h1, h2, h3, h4, h5⟩

theorem inv_loadSeasonThrew (season : SeasonId) (data : SeasonData) (w : World) (h : Inv w) :
    Inv (loadSeasonThrew season data w) := by
  unfold loadSeasonThrew
  split_ifs with hp
  · obtain ⟨h1, h2, h3, h4, -⟩ := h
    exact ⟨h1, h2, h3, h4, by intro k hk; cases hk⟩
  · exact h

theorem inv_loadSeasonResume (season : SeasonId) (w : World) (h : Inv w) :
    Inv (loadSeasonResume season w) := by
  unfold loadSeasonResume
  cases canResume season w with
  | none => exact h
  | some e =>
    obtain ⟨h1, h2, h3, h4, h5⟩ := h
    exact ⟨h1, h2, h3, h4, h5⟩

theorem inv_clickSeason (season : SeasonId) (w : World) (h : Inv w) :
    Inv (clickSeason season w) := by
  unfold clickSeason
  split_ifs
  · exact h
  · exact inv_loadSeasonCall season w h

theorem inv_init (parse : String → Option ℚ) (index : List SeasonId) (w : World) (h : Inv w) :
    Inv (init parse index w) := by
  unfold init
  apply inv_loadSeasonCall
  obtain ⟨h1, h2, h3, h4, h5⟩ := h
  constructor
  · exact h1
  · exact h2
  · exact h3
  · intro key hkey
    have := h4 key hkey
    simpa [teamFetchCount, statusOf, List.count_append, List.count_cons] using this
  · exact h5

theorem inv_setTeamSelection (teamKey : Option String) (w : World) (h : Inv w) :
    Inv (setTeamSelection teamKey w) := by
  unfold setTeamSelection
  simp only []
  split_ifs with hc
  · exact h
  · obtain ⟨h1, h2, h3, h4, h5⟩ := h
    refine ⟨h1, h2, h3, h4, ?_⟩
    intro k hk hne
    simp only at hk
    subst hk
    have hc2 : teamLookup w.state (currentKey w.state.currentSeason) k = none →
        teamInherited w.state (currentKey w.state.currentSeason) k = true := by
      simpa [truthyKey, hne] using hc
    show (teamLookup w.state (currentKey w.state.currentSeason) k).isSome = true ∨
      teamInherited w.state (currentKey w.state.currentSeason) k = true
    cases hl : teamLookup w.state (currentKey w.state.currentSeason) k with
    | some t => left; rfl
    | none => right; exact hc2 hl

theorem ensureTeamInsightsCall_of_status (season : SeasonId) (w : World) (st : Status)
    (h : statusOf w (seasonKey season) = some st) :
    ensureTeamInsightsCall season w = (w, false) := by
  unfold statusOf at h
  unfold ensureTeamInsightsCall
  rw [h]
  cases st <;> rfl

theorem ensureTeamInsightsCall_of_unloaded (season : SeasonId) (w : World)
    (h : statusOf w (seasonKey season) = none) :
    ensureTeamInsightsCall season w =
      ({ w with
         state := { w.state with
           teamInsightsStatus :=
             assignProp w.state.teamInsightsStatus (seasonKey season) Status.loading }
         fetches := w.fetches ++ [Fetch.seasonTeams (seasonKey season)]
         pendingTeams := w.pendingTeams ++ [seasonKey season] }, true) := by
  unfold statusOf at h
  unfold ensureTeamInsightsCall
  rw [h]

theorem inv_ensureTeamInsightsCall (season : SeasonId) (w : World) (h : Inv w) :
    Inv (ensureTeamInsightsCall season w).1 := by
  cases hst : statusOf w (seasonKey season) with
  | some st => rw [ensureTeamInsightsCall_of_status season w st hst]; exact h
  | none =>
    rw [ensureTeamInsightsCall_of_unloaded season w hst]
    obtain ⟨h1, h2, h3, h4, h5⟩ := h
    constructor
    · intro key ti hti
      have hl := h1 key ti hti
      have hne : seasonKey season ≠ key := by
        intro e; rw [e] at hst; rw [hst] at hl; cases hl
      simpa [statusOf, getProp_assignProp, hne] using hl
    · intro key hproto hkey
      simp only [List.mem_append, List.mem_singleton] at hkey
      by_cases e : seasonKey season = key
      · subst e
        simp [statusOf, getProp_assignProp, hproto]
      · rcases hkey with hk | hk
        · simpa [statusOf, getProp_assignProp, e] using h2 key hproto hk
        · exact absurd hk.symm e
    · intro key hproto
      show (w.pendingTeams ++ [seasonKey season]).count key ≤ 1
      rw [List.count_append]
      by_cases e : seasonKey season = key
      · subst e
        have hnot : seasonKey season ∉ w.pendingTeams := by
          intro hm
          have := h2 _ hproto hm
          rw [hst] at this
          cases this
        rw [List.count_eq_zero_of_not_mem hnot]
        simp
      · have := h3 key hproto
        simp [List.count_cons, e]
        exact this
    · intro key hproto
      have hk := h4 key hproto
      by_cases e : seasonKey season = key
      · subst e
        rw [hst] at hk
        simp only [if_true] at hk
        simp only [teamFetchCount] at hk
        simp [teamFetchCount, statusOf, getProp_assignProp, List.count_append, hk, hproto]
      · have e2 : ¬ (Fetch.seasonTeams (seasonKey season) = Fetch.seasonTeams key) := by
          intro h; injection h with h; exact e h
        simp only [teamFetchCount, statusOf] at hk
        simp only [teamFetchCount, statusOf, getProp_assignProp, e, if_false, List.count_append,
          ite_self]
        rw [hk]
        simp [List.count_cons, e2]
    · exact h5

theorem inv_ensureTeamInsightsResume (key : String) (result : Option TeamsDoc) (w : World)
    (h : Inv w) : Inv (ensureTeamInsightsResume key result w) := by
  unfold ensureTeamInsightsResume
  split_ifs with hp
  · obtain ⟨h1, h2, h3, h4, h5⟩ := h
    by_cases hproto : key = "__proto__"
    · -- both assignments go to the setter: the own properties stay
      have hstate : ∀ (v : Option TeamInsights) (st : Status),
          ({ w.state with
              teamInsightsBySeason := assignProp w.state.teamInsightsBySeason key v
              teamInsightsStatus := assignProp w.state.teamInsightsStatus key st } : State)
            = w.state := by
        intro v st
        simp [assignProp, hproto]
      have hinv : Inv { w with pendingTeams := w.pendingTeams.erase key } := by
        refine ⟨h1, ?_, ?_, h4, h5⟩
        · intro key' hk' hmem
          exact h2 key' hk' (List.mem_of_mem_erase hmem)
        · intro key' hk'
          show (w.pendingTeams.erase key).count key' ≤ 1
          rw [List.count_erase_of_ne (by rw [hproto]; exact hk')]
          exact h3 key' hk'
      cases result with
      | some data => simp only [hstate]; exact hinv
      | none => simp only [hstate]; exact hinv
    · have hload : statusOf w key = some Status.loading := h2 key hproto hp
      have hne_of_mem : ∀ key', key' ∈ w.pendingTeams.erase key → key ≠ key' := by
        intro key' hmem e
        subst e
        have hc := h3 key hproto
        have : (w.pendingTeams.erase key).count key = 0 := by
          rw [List.count_erase_self]; omega
        exact (List.count_eq_zero.mp this) hmem
      have hcount : ∀ key', (w.pendingTeams.erase key).count key' ≤ w.pendingTeams.count key' := by
        intro key'
        by_cases e : key' = key
        · subst e; rw [List.count_erase_self]; omega
        · rw [List.count_erase_of_ne e]
      have hcur : ∀ k, w.state.currentTeamKey = some k → k ≠ "" →
          currentKey w.state.currentSeason ≠ key := by
        intro k hk hne e
        have hs := h5 k hk hne
        rw [e] at hs
        unfold teamLookup teamInherited at hs
        cases hb : getProp w.state.teamInsightsBySeason key with
        | none => rw [hb] at hs; simp at hs
        | some v =>
          cases v with
          | none => rw [hb] at hs; simp at hs
          | some ti =>
            have := h1 key ti hb
            rw [hload] at this
            cases this
      cases result with
      | some data =>
        constructor
        · intro key' ti hti
          by_cases e : key = key'
          · subst e
            simp [statusOf, getProp_assignProp, hproto]
          · simp only [getProp_assignProp, e, if_false, hproto] at hti
            simpa [statusOf, getProp_assignProp, e, hproto] using h1 key' ti hti
        · intro key' hk' hkey'
          have e : ¬ key = key' := hne_of_mem key' hkey'
          simpa [statusOf, getProp_assignProp, e, hproto] using
            h2 key' hk' (List.mem_of_mem_erase hkey')
        · intro key' hk'
          exact le_trans (hcount key') (h3 key' hk')
        · intro key' hk'
          have hk := h4 key' hk'
          by_cases e : key = key'
          · subst e
            rw [hload] at hk
            simpa [teamFetchCount, statusOf, getProp_assignProp, hproto] using hk
          · simpa [teamFetchCount, statusOf, getProp_assignProp, e, hproto] using hk
        · intro k hk hne
          have e := hcur k hk hne
          have hs := h5 k hk hne
          simpa [teamLookup, teamInherited, getProp_assignProp, Ne.symm e, hproto] using hs
      | none =>
        constructor
        · intro key' ti hti
          by_cases e : key = key'
          · subst e
            simp [getProp_assignProp, hproto] at hti
          · simp only [getProp_assignProp, e, if_false, hproto] at hti
            simpa [statusOf, getProp_assignProp, e, hproto] using h1 key' ti hti
        · intro key' hk' hkey'
          have e : ¬ key = key' := hne_of_mem key' hkey'
          simpa [statusOf, getProp_assignProp, e, hproto] using
            h2 key' hk' (List.mem_of_mem_erase hkey')
        · intro key' hk'
          exact le_trans (hcount key') (h3 key' hk')
        · intro key' hk'
          have hk := h4 key' hk'
          by_cases e : key = key'
          · subst e
            rw [hload] at hk
            simpa [teamFetchCount, statusOf, getProp_assignProp, hproto] using hk
          · simpa [teamFetchCount, statusOf, getProp_assignProp, e, hproto] using hk
        · intro k hk hne
          have e := hcur k hk hne
          have hs := h5 k hk hne
          simpa [teamLookup, teamInherited, getProp_assignProp, Ne.symm e, hproto] using hs
  · exact h

theorem inv_loadSeasonFetched (season : SeasonId) (data : SeasonData) (w : World)
    (h : Inv w) : Inv (loadSeasonFetched season data w) := by
  unfold loadSeasonFetched
  split_ifs with hp
  · obtain ⟨h1, h2, h3, h4, -⟩ := h
    have hw1 : Inv
        { w with
          state := { w.state with
            currentSeason := some season
            currentSeasonData := some data
            currentTeamKey := none }
          renders := w.renders ++ [RenderCall.seasonView season]
          pendingSeason := w.pendingSeason.erase season } :=
      ⟨h1, h2, h3, h4, by intro k hk; cases hk⟩
    obtain ⟨g1, g2, g3, g4, g5⟩ := inv_ensureTeamInsightsCall season _ hw1
    exact ⟨g1, g2, g3, g4, g5⟩
  · exact h

theorem inv_step (parse : String → Option ℚ) (w : World) (e : Event) (h : Inv w) :
    Inv (step parse w e) := by
  cases e with
  | init index => exact inv_init parse index w h
  | clickSeason season => exact inv_clickSeason season w h
  | loadSeason season => exact inv_loadSeasonCall season w h
  | seasonFetched season data => exact inv_loadSeasonFetched season data w h
  | seasonThrew season data => exact inv_loadSeasonThrew season data w h
  | seasonFailed season => exact inv_loadSeasonFailed season w h
  | ensureTeamInsights season => exact inv_ensureTeamInsightsCall season w h
  | teamsFetched key result => exact inv_ensureTeamInsightsResume key result w h
  | seasonResumed season => exact inv_loadSeasonResume season w h
  | setTeamSelection teamKey => exact inv_setTeamSelection teamKey w h

theorem inv_run (parse : String → Option ℚ) (events : List Event) (w : World) (h : Inv w) :
    Inv (run parse w events) := by
  induction events generalizing w with
  | nil => exact h
  | cons e rest ih => exact ih _ (inv_step parse w e h)

theorem inv_of_reachable (parse : String → Option ℚ) (w : World) (h : Reachable parse w) :
    Inv w := by
  obtain ⟨query, events, rfl⟩ := h
  exact inv_run parse events _ (inv_initial query)

theorem reachable_of_plain (parse : String → Option ℚ) (w : World)
    (h : ReachablePlain parse w) : Reachable parse w := by
  obtain ⟨query, events, -, rfl⟩ := h
  exact ⟨query, events, rfl⟩

/-! ### Properties of the team selection -/

/-- C3, as the code has it: on every page the script can bring about by events
that stay clear of the name `__proto__`, and for every team key `k` that is
truthy (not null and not the empty string): if the status of the current season
is not `loaded`, or `k` is neither a key of the team-insight set stored for the
current season nor the name of a member inherited from `Object.prototype`, then
`setTeamSelection(k)` changes nothing: the state, the caches, the statuses, the
requests and the rendering calls are the same afterwards. -/
theorem setTeamSelection_rejected (parse : String → Option ℚ) (w : World)
    (hw : ReachablePlain parse w) (k : String) (hk : k ≠ "")
    (h : statusOf w (currentKey w.state.currentSeason) ≠ some Status.loaded ∨
      (k ∉ objectPrototypeNames ∧
        ∀ ti, getProp w.state.teamInsightsBySeason (currentKey w.state.currentSeason)
          = some (some ti) → getProp ti.teamsByKey k = none)) :
    setTeamSelection (some k) w = w := by
  have hinv := inv_of_reachable parse w (reachable_of_plain parse w hw)
  have hnone : teamLookup w.state (currentKey w.state.currentSeason) k = none ∧
      teamInherited w.state (currentKey w.state.currentSeason) k = false := by
    unfold teamLookup teamInherited
    cases hb : getProp w.state.teamInsightsBySeason (currentKey w.state.currentSeason) with
    | none => exact ⟨rfl, rfl⟩
    | some v =>
      cases v with
      | none => exact ⟨rfl, rfl⟩
      | some ti =>
        rcases h with h | h
        · exact absurd (hinv.coherent _ ti hb) h
        · exact ⟨h.2 ti hb, by simp [h.1]⟩
  unfold setTeamSelection
  simp [truthyKey, hk, hnone.1, hnone.2]

set_option maxRecDepth 100000 in
/-- Instance of C3: season 2024 is current and its team document is missing;
selecting the team `t1` changes nothing. -/
theorem setTeamSelection_rejected_witness :
    ReachablePlain parseDigits exampleMissing ∧ "t1" ≠ "" ∧
    statusOf exampleMissing (currentKey exampleMissing.state.currentSeason)
      ≠ some Status.loaded ∧
    setTeamSelection (some "t1") exampleMissing = exampleMissing :=
  have hr : ReachablePlain parseDigits exampleMissing :=
    ⟨[], [ Event.init [SeasonId.str "2023", SeasonId.str "2024"],
      Event.seasonFetched (SeasonId.str "2024")
        { insights := some [⟨"juggernaut", "Juggernaut"⟩], missing := none },
      Event.teamsFetched "2024" none,
      Event.seasonResumed (SeasonId.str "2024") ], by with_unfolding_all decide, rfl⟩
  ⟨hr, by decide, by with_unfolding_all decide,
    setTeamSelection_rejected parseDigits exampleMissing hr "t1" (by decide)
      (Or.inl (by with_unfolding_all decide))⟩

/-- C3 as stated fails for the non-null key `""`: with the status of the
current season `missing`, `setTeamSelection("")` stores the key and renders
again. -/
theorem setTeamSelection_empty_key_not_rejected :
    statusOf exampleMissing (currentKey exampleMissing.state.currentSeason)
      = some Status.missing ∧
    exampleMissing.state.currentTeamKey = none ∧
    (setTeamSelection (some "") exampleMissing).state.currentTeamKey = some "" ∧
    (setTeamSelection (some "") exampleMissing).renders.length
      = exampleMissing.renders.length + 2 ∧
    setTeamSelection (some "") exampleMissing ≠ exampleMissing := by
  with_unfolding_all decide

set_option maxRecDepth 100000 in
/-- A key that names a member inherited from `Object.prototype`: on the page
where season 2024 is loaded with its teams, `constructor` is not a key of the
set, yet `teamsByKey["constructor"]` is the function `Object`, which is truthy:
`setTeamSelection("constructor")` stores the key and renders the team view
with two empty lists. -/
theorem setTeamSelection_inherited_key_accepted :
    statusOf exampleLoaded (currentKey exampleLoaded.state.currentSeason)
      = some Status.loaded ∧
    teamLookup exampleLoaded.state (currentKey exampleLoaded.state.currentSeason) "constructor"
      = none ∧
    (setTeamSelection (some "constructor") exampleLoaded).state.currentTeamKey
      = some "constructor" ∧
    (setTeamSelection (some "constructor") exampleLoaded).renders.getLast?
      = some (RenderCall.insightsView (some (SeasonId.str "2024"))
          { summaryHidden := true, missing := [], insights := [] }) := by
  with_unfolding_all decide

/-- C4, as the code has it: on every page the script can bring about by events
that stay clear of the name `__proto__`, the current team key is null, or the
empty string, or, with a team-insight set stored under the status `loaded` for
the current season, a key of that set or the name of a member the set inherits
from `Object.prototype`; and when a call of `loadSeason(season)` receives its
dataset it makes `season` current and sets the current team key to null,
whether or not the call goes on after that. -/
theorem currentTeamKey_of_current_season (parse : String → Option ℚ) (w : World)
    (hw : ReachablePlain parse w) :
    (w.state.currentTeamKey = none ∨ w.state.currentTeamKey = some "" ∨
      ∃ k ti, w.state.currentTeamKey = some k ∧
        getProp w.state.teamInsightsBySeason (currentKey w.state.currentSeason)
          = some (some ti) ∧
        statusOf w (currentKey w.state.currentSeason) = some Status.loaded ∧
        ((∃ team, getProp ti.teamsByKey k = some team) ∨
          (getProp ti.teamsByKey k = none ∧ k ∈ objectPrototypeNames))) ∧
    (∀ season data, season ∈ w.pendingSeason →
      ((loadSeasonFetched season data w).state.currentSeason = some season ∧
        (loadSeasonFetched season data w).state.currentSeasonData = some data ∧
        (loadSeasonFetched season data w).state.currentTeamKey = none) ∧
      ((loadSeasonThrew season data w).state.currentSeason = some season ∧
        (loadSeasonThrew season data w).state.currentSeasonData = some data ∧
        (loadSeasonThrew season data w).state.currentTeamKey = none)) := by
  have hinv := inv_of_reachable parse w (reachable_of_plain parse w hw)
  constructor
  · cases hk : w.state.currentTeamKey with
    | none => exact Or.inl rfl
    | some k =>
      by_cases he : k = ""
      · exact Or.inr (Or.inl (by rw [he]))
      · right; right
        have hs := hinv.teamKey k hk he
        unfold teamLookup teamInherited at hs
        cases hb : getProp w.state.teamInsightsBySeason (currentKey w.state.currentSeason) with
        | none => rw [hb] at hs; simp at hs
        | some v =>
          cases v with
          | none => rw [hb] at hs; simp at hs
          | some ti =>
            rw [hb] at hs
            refine ⟨k, ti, rfl, rfl, hinv.coherent _ ti hb, ?_⟩
            rcases hs with hs | hs
            · exact Or.inl (Option.isSome_iff_exists.mp hs)
            · right
              simpa using hs
  · intro season data hp
    constructor
    · unfold loadSeasonFetched
      rw [if_pos hp]
      cases hst : statusOf w (seasonKey season) with
      | some st =>
        have e := ensureTeamInsightsCall_of_status season
          { w with
            state := { w.state with
              currentSeason := some season
              currentSeasonData := some data
              currentTeamKey := none }
            renders := w.renders ++ [RenderCall.seasonView season]
            pendingSeason := w.pendingSeason.erase season } st hst
        simp [e]
      | none =>
        have e := ensureTeamInsightsCall_of_unloaded season
          { w with
            state := { w.state with
              currentSeason := some season
              currentSeasonData := some data
              currentTeamKey := none }
            renders := w.renders ++ [RenderCall.seasonView season]
            pendingSeason := w.pendingSeason.erase season } hst
        simp [e]
    · unfold loadSeasonThrew
      rw [if_pos hp]
      exact ⟨rfl, rfl, rfl⟩

set_option maxRecDepth 100000 in
/-- Instance of C4 at the page where season 2024 is loaded with its teams and
the team `t1` has been selected. -/
theorem currentTeamKey_of_current_season_witness :
    ReachablePlain parseDigits (setTeamSelection (some "t1") exampleLoaded) ∧
    ((setTeamSelection (some "t1") exampleLoaded).state.currentTeamKey = none ∨
      (setTeamSelection (some "t1") exampleLoaded).state.currentTeamKey = some "" ∨
      ∃ k ti, (setTeamSelection (some "t1") exampleLoaded).state.currentTeamKey = some k ∧
        getProp (setTeamSelection (some "t1") exampleLoaded).state.teamInsightsBySeason
            (currentKey (setTeamSelection (some "t1") exampleLoaded).state.currentSeason)
          = some (some ti) ∧
        statusOf (setTeamSelection (some "t1") exampleLoaded)
            (currentKey (setTeamSelection (some "t1") exampleLoaded).state.currentSeason)
          = some Status.loaded ∧
        ((∃ team, getProp ti.teamsByKey k = some team) ∨
          (getProp ti.teamsByKey k = none ∧ k ∈ objectPrototypeNames))) ∧
    (setTeamSelection (some "t1") exampleLoaded).state.currentTeamKey = some "t1" :=
  have hr : ReachablePlain parseDigits (setTeamSelection (some "t1") exampleLoaded) :=
    ⟨[], [ Event.init [SeasonId.str "2023", SeasonId.str "2024"],
      Event.seasonFetched (SeasonId.str "2024")
        { insights := some [⟨"juggernaut", "Juggernaut"⟩], missing := none },
      Event.teamsFetched "2024" (some exampleTeams),
      Event.seasonResumed (SeasonId.str "2024"),
      Event.setTeamSelection (some "t1") ], by with_unfolding_all decide, rfl⟩
  ⟨hr, (currentTeamKey_of_current_season parseDigits _ hr).1, by with_unfolding_all decide⟩

set_option maxRecDepth 100000 in
/-- C4 as stated fails: after `setTeamSelection("")` on the page where the team
document of the current season is missing, the current team key is the empty
string: it is not null, and no team-insight set is stored for the season. -/
theorem currentTeamKey_empty_reachable :
    Reachable parseDigits (setTeamSelection (some "") exampleMissing) ∧
    (setTeamSelection (some "") exampleMissing).state.currentTeamKey ≠ none ∧
    teamLookup (setTeamSelection (some "") exampleMissing).state
      (currentKey (setTeamSelection (some "") exampleMissing).state.currentSeason) "" = none :=
  ⟨⟨[], [ Event.init [SeasonId.str "2023", SeasonId.str "2024"],
      Event.seasonFetched (SeasonId.str "2024")
        { insights := some [⟨"juggernaut", "Juggernaut"⟩], missing := none },
      Event.teamsFetched "2024" none,
      Event.seasonResumed (SeasonId.str "2024"),
      Event.setTeamSelection (some "") ], rfl⟩,
    by with_unfolding_all decide, by with_unfolding_all decide⟩


/-- C5, as the code has it: when `k` is a truthy key (not the empty string) of
the team-insight set stored for the current season, `setTeamSelection(k)` makes
`k` the current team key and hands to rendering that team's own `missing` and
`insights` lists (the empty list for an absent field) with the summary section
hidden; `setTeamSelection(null)` hands over the `missing` and `insights` lists
of the current season's dataset with the summary section shown; neither makes
a request; and what `applyInsightsForSeason` hands over for the current season
is the same on two pages that agree on the dataset, on the team key and on the
set stored for the current season. -/
theorem setTeamSelection_active_insights (w : World) (k : String) (hk : k ≠ "")
    (ti : TeamInsights) (team : TeamRecord)
    (hti : getProp w.state.teamInsightsBySeason (currentKey w.state.currentSeason)
      = some (some ti))
    (hteam : getProp ti.teamsByKey k = some team) :
    setTeamSelection (some k) w =
      { w with
        state := { w.state with currentTeamKey := some k }
        renders := w.renders ++
          [RenderCall.teamButtons w.state.currentSeason,
           RenderCall.insightsView w.state.currentSeason
            { summaryHidden := true
              missing := team.missing.getD []
              insights := team.insights.getD [] }] } ∧
    setTeamSelection none w =
      { w with
        state := { w.state with currentTeamKey := none }
        renders := w.renders ++
          [RenderCall.teamButtons w.state.currentSeason,
           RenderCall.insightsView w.state.currentSeason
            { summaryHidden := false
              missing := (w.state.currentSeasonData.bind (fun d => d.missing)).getD []
              insights := (w.state.currentSeasonData.bind (fun d => d.insights)).getD [] }] } ∧
    (∀ w2 : World, w2.state.currentSeasonData = w.state.currentSeasonData →
      w2.state.currentTeamKey = w.state.currentTeamKey →
      getProp w2.state.teamInsightsBySeason (currentKey w2.state.currentSeason)
        = getProp w.state.teamInsightsBySeason (currentKey w.state.currentSeason) →
      applyInsightsForSeason w2.state.currentSeason w2.state
        = applyInsightsForSeason w.state.currentSeason w.state) := by
  have hl : teamLookup w.state (currentKey w.state.currentSeason) k = some team := by
    unfold teamLookup
    rw [hti]
    exact hteam
  refine ⟨?_, ?_, ?_⟩
  · have hl2 : teamLookup { w.state with currentTeamKey := some k }
        (currentKey w.state.currentSeason) k = some team := hl
    unfold setTeamSelection
    simp [truthyKey, hk, hl, applyInsightsForSeason, hl2]
  · unfold setTeamSelection
    simp [truthyKey, applyInsightsForSeason]
  · intro w2 h1 h2 h3
    unfold applyInsightsForSeason teamLookup teamInherited
    rw [h1, h2, h3]

/-- Instance of C5 at the page where season 2024 is loaded with its teams: the
team `t1` is selected. -/
theorem setTeamSelection_active_insights_witness :
    "t1" ≠ "" ∧
    (∃ ti team, getProp exampleLoaded.state.teamInsightsBySeason
        (currentKey exampleLoaded.state.currentSeason) = some (some ti) ∧
      getProp ti.teamsByKey "t1" = some team ∧
      setTeamSelection (some "t1") exampleLoaded =
        { exampleLoaded with
          state := { exampleLoaded.state with currentTeamKey := some "t1" }
          renders := exampleLoaded.renders ++
            [RenderCall.teamButtons exampleLoaded.state.currentSeason,
             RenderCall.insightsView exampleLoaded.state.currentSeason
              { summaryHidden := true
                missing := team.missing.getD []
                insights := team.insights.getD [] }] }) :=
  ⟨by decide,
    ⟨{ data := exampleTeams
       teams := exampleTeams.teams.getD []
       teamsByKey := buildTeamsByKey (exampleTeams.teams.getD []) },
     { team_key := "t1", insights := some [⟨"peak_week", "Peak Week"⟩], missing := none },
     by with_unfolding_all decide, by with_unfolding_all decide,
     (setTeamSelection_active_insights exampleLoaded "t1" (by decide)
        { data := exampleTeams
          teams := exampleTeams.teams.getD []
          teamsByKey := buildTeamsByKey (exampleTeams.teams.getD []) }
        { team_key := "t1", insights := some [⟨"peak_week", "Peak Week"⟩], missing := none }
        (by with_unfolding_all decide) (by with_unfolding_all decide)).1⟩⟩

/-- C5 as stated fails for a team whose key is the empty string: that key is a
key of the set loaded for the current season, `setTeamSelection("")` stores
it, and the lists handed to rendering are those of the season, with the
summary section shown, not the team's own. -/
theorem setTeamSelection_empty_key_shows_season :
    teamLookup exampleLoaded.state (currentKey exampleLoaded.state.currentSeason) ""
      = some { team_key := "", insights := some [⟨"rock_bottom", "Rock Bottom"⟩],
               missing := some [⟨"draft_steal", "no draft"⟩] } ∧
    (setTeamSelection (some "") exampleLoaded).state.currentTeamKey = some "" ∧
    (setTeamSelection (some "") exampleLoaded).renders.getLast?
      = some (RenderCall.insightsView (some (SeasonId.str "2024"))
          { summaryHidden := false
            missing := []
            insights := [⟨"juggernaut", "Juggernaut"⟩] }) := by
  with_unfolding_all decide


/-! ### Properties of the lazy load of team insights -/

theorem statusStep_ensureTeamInsightsCall (season : SeasonId) (w : World) (key : String) :
    StatusStep (statusOf w key) (statusOf (ensureTeamInsightsCall season w).1 key) := by
  cases hst : statusOf w (seasonKey season) with
  | some st => rw [ensureTeamInsightsCall_of_status season w st hst]; exact Or.inl rfl
  | none =>
    rw [ensureTeamInsightsCall_of_unloaded season w hst]
    by_cases hproto : seasonKey season = "__proto__"
    · left
      simp [statusOf, getProp_assignProp, hproto]
    · by_cases e : seasonKey season = key
      · subst e
        right; left
        exact ⟨hst, by simp [statusOf, getProp_assignProp, hproto]⟩
      · left
        simp [statusOf, getProp_assignProp, e]

theorem statusStep_ensureTeamInsightsResume (key' : String) (result : Option TeamsDoc)
    (w : World) (h : Inv w) (key : String) :
    StatusStep (statusOf w key) (statusOf (ensureTeamInsightsResume key' result w) key) := by
  unfold ensureTeamInsightsResume
  split_ifs with hp
  · by_cases hproto : key' = "__proto__"
    · left
      cases result <;> simp [statusOf, getProp_assignProp, hproto]
    · have hload := h.pending key' hproto hp
      by_cases e : key' = key
      · subst e
        cases result with
        | some data =>
          right; right; left
          exact ⟨hload, by simp [statusOf, getProp_assignProp, hproto]⟩
        | none =>
          right; right; right
          exact ⟨hload, by simp [statusOf, getProp_assignProp, hproto]⟩
      · left
        cases result <;> simp [statusOf, getProp_assignProp, e]
  · exact Or.inl rfl

theorem statusStep_loadSeasonFetched (season : SeasonId) (data : SeasonData) (w : World)
    (key : String) :
    StatusStep (statusOf w key) (statusOf (loadSeasonFetched season data w) key) := by
  unfold loadSeasonFetched
  split_ifs with hp
  · exact statusStep_ensureTeamInsightsCall season
      { w with
        state := { w.state with
          currentSeason := some season
          currentSeasonData := some data
          currentTeamKey := none }
        renders := w.renders ++ [RenderCall.seasonView season]
        pendingSeason := w.pendingSeason.erase season } key
  · exact Or.inl rfl

theorem statusStep_step (parse : String → Option ℚ) (w : World) (h : Inv w) (e : Event)
    (key : String) : StatusStep (statusOf w key) (statusOf (step parse w e) key) := by
  cases e with
  | init index => exact Or.inl rfl
  | clickSeason season =>
    show StatusStep _ (statusOf (clickSeason season w) key)
    unfold clickSeason
    split_ifs <;> exact Or.inl rfl
  | loadSeason season => exact Or.inl rfl
  | seasonFetched season data => exact statusStep_loadSeasonFetched season data w key
  | seasonThrew season data =>
    show StatusStep _ (statusOf (loadSeasonThrew season data w) key)
    unfold loadSeasonThrew
    split_ifs <;> exact Or.inl rfl
  | seasonFailed season => exact Or.inl rfl
  | ensureTeamInsights season => exact statusStep_ensureTeamInsightsCall season w key
  | teamsFetched key' result => exact statusStep_ensureTeamInsightsResume key' result w h key
  | seasonResumed season =>
    show StatusStep _ (statusOf (loadSeasonResume season w) key)
    unfold loadSeasonResume
    cases canResume season w <;> exact Or.inl rfl
  | setTeamSelection teamKey =>
    show StatusStep _ (statusOf (setTeamSelection teamKey w) key)
    unfold setTeamSelection
    simp only []
    split_ifs <;> exact Or.inl rfl

/-- A status that is loaded or missing stays what it is, whatever happens
next. -/
theorem status_final_run (parse : String → Option ℚ) (more : List Event) (w : World)
    (h : Inv w) (key : String)
    (hfin : statusOf w key = some Status.loaded ∨ statusOf w key = some Status.missing) :
    statusOf (run parse w more) key = statusOf w key := by
  induction more generalizing w with
  | nil => rfl
  | cons e rest ih =>
    have hs := statusStep_step parse w h e key
    have heq : statusOf (step parse w e) key = statusOf w key := by
      rcases hs with hs | ⟨hs, -⟩ | ⟨hs, -⟩ | ⟨hs, -⟩
      · exact hs.symm
      · rcases hfin with hf | hf <;> rw [hf] at hs <;> cases hs
      · rcases hfin with hf | hf <;> rw [hf] at hs <;> cases hs
      · rcases hfin with hf | hf <;> rw [hf] at hs <;> cases hs
    have := ih (step parse w e) (inv_step parse w e h) (by rw [heq]; exact hfin)
    show statusOf (run parse (step parse w e) rest) key = statusOf w key
    rw [this, heq]

/-- C6, as the code has it: for every season whose property name `key` is not
`__proto__`, on every page brought about by a sequence of events (calls of
`ensureTeamInsights`, direct or from `loadSeason`, ends of fetches and anything
else, in any order), at most one request for the team document of the season
has been made; the first call for an unloaded season makes that request and
sets the status to loading, and a call under any set status, a fetch in flight
included, makes no request and changes nothing; every event moves the status
only from unloaded to loading or from loading to loaded or missing; a status
that is loaded or missing never changes afterwards, and no further request is
made; and the failure of the fetch sets the status to missing. -/
theorem ensureTeamInsights_fetches_once (parse : String → Option ℚ)
    (query : List (String × String)) (events : List Event) (key : String)
    (hkey : key ≠ "__proto__") :
    teamFetchCount (run parse (World.initial query) events) key ≤ 1 ∧
    (∀ season, seasonKey season = key →
      statusOf (run parse (World.initial query) events) key = none →
      teamFetchCount (ensureTeamInsightsCall season (run parse (World.initial query) events)).1 key
        = 1 ∧
      statusOf (ensureTeamInsightsCall season (run parse (World.initial query) events)).1 key
        = some Status.loading) ∧
    (∀ season, seasonKey season = key →
      statusOf (run parse (World.initial query) events) key ≠ none →
      ensureTeamInsightsCall season (run parse (World.initial query) events)
        = (run parse (World.initial query) events, false)) ∧
    (∀ e, StatusStep (statusOf (run parse (World.initial query) events) key)
      (statusOf (step parse (run parse (World.initial query) events) e) key)) ∧
    (∀ more,
      statusOf (run parse (World.initial query) events) key = some Status.loaded ∨
        statusOf (run parse (World.initial query) events) key = some Status.missing →
      statusOf (run parse (run parse (World.initial query) events) more) key
        = statusOf (run parse (World.initial query) events) key ∧
      teamFetchCount (run parse (run parse (World.initial query) events) more) key
        = teamFetchCount (run parse (World.initial query) events) key) ∧
    (key ∈ (run parse (World.initial query) events).pendingTeams →
      statusOf (ensureTeamInsightsResume key none (run parse (World.initial query) events)) key
        = some Status.missing) := by
  have hinv := inv_run parse events _ (inv_initial query)
  generalize run parse (World.initial query) events = w at hinv
  refine ⟨?_, ?_, ?_, ?_, ?_, ?_⟩
  · rw [hinv.fetched key hkey]
    split_ifs <;> omega
  · intro season hk hst
    subst hk
    have hinv2 := inv_ensureTeamInsightsCall season w hinv
    have hs : statusOf (ensureTeamInsightsCall season w).1 (seasonKey season)
        = some Status.loading := by
      rw [ensureTeamInsightsCall_of_unloaded season w hst]
      simp [statusOf, getProp_assignProp, hkey]
    refine ⟨?_, hs⟩
    rw [hinv2.fetched _ hkey, hs]
    simp
  · intro season hk hst
    subst hk
    cases h : statusOf w (seasonKey season) with
    | none => exact absurd h hst
    | some st => exact ensureTeamInsightsCall_of_status season w st h
  · intro e
    exact statusStep_step parse w hinv e key
  · intro more hfin
    have hs := status_final_run parse more w hinv key hfin
    refine ⟨hs, ?_⟩
    rw [(inv_run parse more w hinv).fetched key hkey, hinv.fetched key hkey, hs]
  · intro hp
    unfold ensureTeamInsightsResume
    rw [if_pos hp]
    simp [statusOf, getProp_assignProp, hkey]

set_option maxRecDepth 100000 in
/-- Instance of C6: the index lists 2023 and 2024, season 2024 is loaded, its
team document is requested and the request fails; a later call of
`ensureTeamInsights` makes no request. -/
theorem ensureTeamInsights_fetches_once_witness :
    "2024" ≠ "__proto__" ∧
    statusOf exampleMissing "2024" = some Status.missing ∧
    teamFetchCount exampleMissing "2024" = 1 ∧
    ensureTeamInsightsCall (SeasonId.str "2024") exampleMissing = (exampleMissing, false) :=
  ⟨by decide, by with_unfolding_all decide, by with_unfolding_all decide,
    (ensureTeamInsights_fetches_once parseDigits []
      [ Event.init [SeasonId.str "2023", SeasonId.str "2024"],
        Event.seasonFetched (SeasonId.str "2024")
          { insights := some [⟨"juggernaut", "Juggernaut"⟩], missing := none },
        Event.teamsFetched "2024" none,
        Event.seasonResumed (SeasonId.str "2024") ] "2024" (by decide)).2.2.1
      (SeasonId.str "2024") rfl (by with_unfolding_all decide)⟩

set_option maxRecDepth 100000 in
/-- C6 as stated fails for a season named `__proto__`: the assignment
`state.teamInsightsStatus["__proto__"] = "loading"` of line 1058 goes to the
setter inherited from `Object.prototype`, which ignores a string, so no status
is ever recorded and every call of `ensureTeamInsights("__proto__")` requests
the team document again: two calls, the second while the first fetch is in
flight, make two requests. -/
theorem ensureTeamInsights_proto_fetches_again :
    teamFetchCount
      (run parseDigits (World.initial [])
        [ Event.ensureTeamInsights (SeasonId.str "__proto__"),
          Event.ensureTeamInsights (SeasonId.str "__proto__") ]) "__proto__" = 2 ∧
    statusOf
      (run parseDigits (World.initial [])
        [ Event.ensureTeamInsights (SeasonId.str "__proto__"),
          Event.ensureTeamInsights (SeasonId.str "__proto__") ]) "__proto__" = none ∧
    (run parseDigits (World.initial [])
        [ Event.ensureTeamInsights (SeasonId.str "__proto__"),
          Event.ensureTeamInsights (SeasonId.str "__proto__") ]).fetches
      = [Fetch.seasonTeams "__proto__", Fetch.seasonTeams "__proto__"] := by
  with_unfolding_all decide


/-! ### Properties of the season chosen by `init` -/

theorem seasonLe_iff_numKey (parse : String → Option ℚ) (a b : SeasonId)
    (ha : toNumber parse a ≠ none) (hb : toNumber parse b ≠ none) :
    seasonLe parse a b ↔ numKey parse a ≤ numKey parse b := by
  unfold seasonLe numKey
  cases hx : toNumber parse a with
  | none => exact absurd hx ha
  | some x =>
    cases hy : toNumber parse b with
    | none => exact absurd hy hb
    | some y => simp

theorem orderedInsert_congr {α : Type} (r r' : α → α → Prop) [DecidableRel r] [DecidableRel r']
    (a : α) (l : List α) (h : ∀ b ∈ l, (r a b ↔ r' a b)) :
    List.orderedInsert r a l = List.orderedInsert r' a l := by
  induction l with
  | nil => rfl
  | cons b rest ih =>
    have hb := h b (List.mem_cons_self _ _)
    have ih' := ih (fun c hc => h c (List.mem_cons_of_mem _ hc))
    by_cases hr : r a b
    · simp [List.orderedInsert, hr, hb.mp hr]
    · have hr' : ¬ r' a b := fun h' => hr (hb.mpr h')
      simp [List.orderedInsert, hr, hr', ih']

theorem insertionSort_congr {α : Type} (r r' : α → α → Prop) [DecidableRel r] [DecidableRel r']
    (l : List α) (h : ∀ a ∈ l, ∀ b ∈ l, (r a b ↔ r' a b)) :
    List.insertionSort r l = List.insertionSort r' l := by
  induction l with
  | nil => rfl
  | cons a rest ih =>
    have ih' := ih (fun x hx y hy => h x (List.mem_cons_of_mem _ hx) y (List.mem_cons_of_mem _ hy))
    simp only [List.insertionSort]
    rw [ih']
    apply orderedInsert_congr
    intro b hb
    have hb' : b ∈ rest := (List.mem_insertionSort r').mp hb
    exact h a (List.mem_cons_self _ _) b (List.mem_cons_of_mem _ hb')

theorem mem_sortSeasons (parse : String → Option ℚ) (index : List SeasonId) (x : SeasonId) :
    x ∈ sortSeasons parse index ↔ x ∈ index :=
  List.mem_insertionSort _

/-- The last season of the sorted list of numeric seasons is one of the index
and no season of the index has a greater number. -/
theorem getLast_sortSeasons (parse : String → Option ℚ) (index : List SeasonId)
    (hne : index ≠ []) (hnum : ∀ s ∈ index, toNumber parse s ≠ none) :
    ∃ s, (sortSeasons parse index).getLast? = some s ∧ s ∈ index ∧
      ∀ t ∈ index, numKey parse t ≤ numKey parse s := by
  have hsort : sortSeasons parse index
      = List.insertionSort (fun a b => numKey parse a ≤ numKey parse b) index := by
    unfold sortSeasons
    apply insertionSort_congr
    intro a ha b hb
    exact seasonLe_iff_numKey parse a b (hnum a ha) (hnum b hb)
  haveI : IsTotal SeasonId (fun a b => numKey parse a ≤ numKey parse b) :=
    ⟨fun a b => le_total _ _⟩
  haveI : IsTrans SeasonId (fun a b => numKey parse a ≤ numKey parse b) :=
    ⟨fun a b c hab hbc => le_trans hab hbc⟩
  have hsorted := List.sorted_insertionSort (fun a b => numKey parse a ≤ numKey parse b) index
  rw [← hsort] at hsorted
  have hne' : sortSeasons parse index ≠ [] := by
    intro h
    obtain ⟨x, hx⟩ := List.exists_mem_of_ne_nil index hne
    have := (mem_sortSeasons parse index x).mpr hx
    rw [h] at this
    cases this
  obtain ⟨s, hs⟩ : ∃ s, (sortSeasons parse index).getLast? = some s :=
    ⟨_, List.getLast?_eq_getLast _ hne'⟩
  obtain ⟨ys, hys⟩ := List.getLast?_eq_some_iff.mp hs
  refine ⟨s, hs, ?_, ?_⟩
  · apply (mem_sortSeasons parse index s).mp
    rw [hys]; simp
  · intro t ht
    have ht' := (mem_sortSeasons parse index t).mpr ht
    rw [hys] at ht' hsorted
    rcases List.mem_append.mp ht' with h | h
    · have := (List.pairwise_append.mp hsorted).2.2 t h s (by simp)
      exact this
    · rw [List.mem_singleton] at h
      rw [h]

/-- C7, as the code has it: when every season of a non-empty index has a number
(none converts to NaN) and the requested season is absent or not in the index,
`init` loads a season of the index whose number is the greatest: it requests
that season's dataset and waits for it. In particular, with 2023 and 2024 read
as those numbers, the index "2023", "2024" loads "2024" both without a
requested season and with the requested season "1999". -/
theorem init_loads_greatest_season (parse : String → Option ℚ) (w : World)
    (index : List SeasonId) (hne : index ≠ [])
    (hnum : ∀ s ∈ index, toNumber parse s ≠ none)
    (hreq : ∀ r, getParam w.query "season" = some r → SeasonId.str r ∉ index) :
    (∃ s x, s ∈ index ∧ toNumber parse s = some x ∧
      (∀ t ∈ index, ∀ y, toNumber parse t = some y → y ≤ x) ∧
      (init parse index w).pendingSeason = w.pendingSeason ++ [s] ∧
      (init parse index w).fetches.getLast? = some (Fetch.season (seasonKey s))) ∧
    (parse "2023" = some 2023 → parse "2024" = some 2024 →
      ∀ w' : World, getParam w'.query "season" = none ∨ getParam w'.query "season" = some "1999" →
        (init parse [SeasonId.str "2023", SeasonId.str "2024"] w').pendingSeason
          = w'.pendingSeason ++ [SeasonId.str "2024"]) := by
  constructor
  · obtain ⟨s, hs, hmem, hmax⟩ := getLast_sortSeasons parse index hne hnum
    have hsel : selectedSeason (sortSeasons parse index) (getParam w.query "season") = s := by
      unfold selectedSeason
      cases hq : getParam w.query "season" with
      | none => simp [hs]
      | some r =>
        have hr : SeasonId.str r ∉ sortSeasons parse index :=
          fun h => hreq r hq ((mem_sortSeasons parse index _).mp h)
        simp [hs, hr]
    cases hx : toNumber parse s with
    | none => exact absurd hx (hnum s hmem)
    | some x =>
      refine ⟨s, x, hmem, hx, ?_, ?_, ?_⟩
      · intro t ht y hy
        have := hmax t ht
        simpa [numKey, hx, hy] using this
      · show (loadSeasonCall _ _).pendingSeason = _
        simp only [loadSeasonCall]
        rw [hsel]
      · show (loadSeasonCall _ _).fetches.getLast? = _
        simp only [loadSeasonCall]
        rw [hsel]
        simp
  · intro h23 h24 w' hq
    have hsort : sortSeasons parse [SeasonId.str "2023", SeasonId.str "2024"]
        = [SeasonId.str "2023", SeasonId.str "2024"] := by
      have hle : seasonLe parse (SeasonId.str "2023") (SeasonId.str "2024") := by
        simp only [seasonLe, toNumber, h23, h24]
        norm_num
      simp [sortSeasons, List.insertionSort, List.orderedInsert, hle]
    show (loadSeasonCall _ _).pendingSeason = _
    simp only [loadSeasonCall, hsort, selectedSeason]
    rcases hq with hq | hq
    · rw [hq]; simp
    · rw [hq]; simp

set_option maxRecDepth 100000 in
/-- Instance of C7: the index "2023", "2024" at an address that requests the
season "1999". -/
theorem init_loads_greatest_season_witness :
    [SeasonId.str "2023", SeasonId.str "2024"] ≠ [] ∧
    (∀ s ∈ [SeasonId.str "2023", SeasonId.str "2024"], toNumber parseDigits s ≠ none) ∧
    (∀ r, getParam (World.initial [("season", "1999")]).query "season" = some r →
      SeasonId.str r ∉ [SeasonId.str "2023", SeasonId.str "2024"]) ∧
    (init parseDigits [SeasonId.str "2023", SeasonId.str "2024"]
        (World.initial [("season", "1999")])).pendingSeason = [SeasonId.str "2024"] :=
  have h1 : ([SeasonId.str "2023", SeasonId.str "2024"] : List SeasonId) ≠ [] := by decide
  have h2 : ∀ s ∈ [SeasonId.str "2023", SeasonId.str "2024"], toNumber parseDigits s ≠ none := by
    with_unfolding_all decide
  have h3 : ∀ r, getParam (World.initial [("season", "1999")]).query "season" = some r →
      SeasonId.str r ∉ [SeasonId.str "2023", SeasonId.str "2024"] := by
    intro r hr
    have e : r = "1999" := by
      have h : getParam (World.initial [("season", "1999")]).query "season" = some "1999" := by
        decide
      rw [h] at hr
      exact (Option.some.inj hr).symm
    subst e
    decide
  ⟨h1, h2, h3,
    (init_loads_greatest_season parseDigits (World.initial [("season", "1999")])
      [SeasonId.str "2023", SeasonId.str "2024"] h1 h2 h3).2
      (by with_unfolding_all decide) (by with_unfolding_all decide)
      (World.initial [("season", "1999")]) (Or.inr (by decide))⟩

set_option maxRecDepth 100000 in
/-- C7 as stated fails for a season without a number: for the index "2024",
"preseason" and no requested season, `init` loads "preseason", whose number is
NaN, although "2024" is listed. -/
theorem init_loads_season_without_number :
    toNumber parseDigits (SeasonId.str "2024") = some 2024 ∧
    toNumber parseDigits (SeasonId.str "preseason") = none ∧
    getParam (World.initial []).query "season" = none ∧
    (init parseDigits [SeasonId.str "2024", SeasonId.str "preseason"]
        (World.initial [])).pendingSeason = [SeasonId.str "preseason"] ∧
    (init parseDigits [SeasonId.str "2024", SeasonId.str "preseason"]
        (World.initial [])).fetches.getLast? = some (Fetch.season "preseason") := by
  with_unfolding_all decide


/-! ### Properties of the season kept in the address -/

theorem getProp_filter_ne (q : List (String × String)) (name m : String) (h : m ≠ name) :
    getProp (q.filter (fun e => decide (e.1 ≠ name))) m = getProp q m := by
  induction q with
  | nil => rfl
  | cons p rest ih =>
    obtain ⟨a, b⟩ := p
    by_cases ha : a = name
    · subst ha
      have : ¬ a = m := fun e => h e.symm
      simpa [List.filter_cons, getProp, this] using ih
    · by_cases hm : a = m
      · subst hm
        simp [List.filter_cons, getProp, ha]
      · simpa [List.filter_cons, getProp, ha, hm] using ih

theorem getParam_setParam_self (q : List (String × String)) (name value : String) :
    getParam (setParam q name value) name = some value := by
  unfold getParam
  induction q with
  | nil => simp [setParam, getProp]
  | cons p rest ih =>
    obtain ⟨a, b⟩ := p
    by_cases ha : a = name
    · simp [setParam, getProp, ha]
    · simp [setParam, getProp, ha, ih]

theorem getParam_setParam_ne (q : List (String × String)) (name value m : String)
    (h : m ≠ name) : getParam (setParam q name value) m = getParam q m := by
  unfold getParam
  induction q with
  | nil => simp [setParam, getProp, Ne.symm h]
  | cons p rest ih =>
    obtain ⟨a, b⟩ := p
    by_cases ha : a = name
    · subst ha
      have hne : ¬ a = m := fun e => h e.symm
      have hf := getProp_filter_ne rest a m h
      simpa [setParam, getProp, hne] using hf
    · by_cases hm : a = m
      · subst hm
        simp [setParam, getProp, ha]
      · simp [setParam, getProp, ha, hm, ih]

/-- C8, as the code has it: for every season listed in the index as a string
`t`, when a call of `loadSeason(t)` runs to its end the query parameter
`season` holds `t`, every other query parameter is what it was, and
`setTeamSelection` never touches the query; and `init` over the same index, on
a fresh page opened at that address, loads the season `t` again. -/
theorem loadSeason_season_round_trip (parse : String → Option ℚ) (w : World) (t : String)
    (index : List SeasonId) (hidx : SeasonId.str t ∈ index)
    (hres : (canResume (SeasonId.str t) w).isSome = true) :
    getParam (loadSeasonResume (SeasonId.str t) w).query "season" = some t ∧
    (∀ name, name ≠ "season" →
      getParam (loadSeasonResume (SeasonId.str t) w).query name = getParam w.query name) ∧
    (∀ teamKey, (setTeamSelection teamKey w).query = w.query) ∧
    (init parse index (World.initial (loadSeasonResume (SeasonId.str t) w).query)).pendingSeason
      = [SeasonId.str t] ∧
    (init parse index (World.initial (loadSeasonResume (SeasonId.str t) w).query)).fetches.getLast?
      = some (Fetch.season t) := by
  obtain ⟨e, he⟩ := Option.isSome_iff_exists.mp hres
  have hq : (loadSeasonResume (SeasonId.str t) w).query = setParam w.query "season" t := by
    unfold loadSeasonResume
    rw [he]
    rfl
  have hget : getParam (loadSeasonResume (SeasonId.str t) w).query "season" = some t := by
    rw [hq]; exact getParam_setParam_self _ _ _
  have hsel : selectedSeason (sortSeasons parse index)
      (getParam (loadSeasonResume (SeasonId.str t) w).query "season") = SeasonId.str t := by
    rw [hget]
    unfold selectedSeason
    simp [(mem_sortSeasons parse index _).mpr hidx]
  refine ⟨hget, ?_, ?_, ?_, ?_⟩
  · intro name hname
    rw [hq]; exact getParam_setParam_ne _ _ _ _ hname
  · intro teamKey
    unfold setTeamSelection
    simp only []
    split_ifs <;> rfl
  · show (loadSeasonCall _ _).pendingSeason = _
    simp only [loadSeasonCall, World.initial]
    simp [hsel]
  · show (loadSeasonCall _ _).fetches.getLast? = _
    simp only [loadSeasonCall, World.initial]
    simp [hsel, seasonKey]


set_option maxRecDepth 100000 in
/-- Instance of C8: the index lists "2023" and "2024"; the call of
`loadSeason("2024")` made by `init` has its dataset, the request for the team
document failed, and the call can run to its end. -/
theorem loadSeason_season_round_trip_witness :
    SeasonId.str "2024" ∈ [SeasonId.str "2023", SeasonId.str "2024"] ∧
    (canResume (SeasonId.str "2024")
      (run parseDigits (World.initial [("theme", "ember")])
        [ Event.init [SeasonId.str "2023", SeasonId.str "2024"],
          Event.seasonFetched (SeasonId.str "2024") { insights := none, missing := none },
          Event.teamsFetched "2024" none ])).isSome = true ∧
    getParam (loadSeasonResume (SeasonId.str "2024")
      (run parseDigits (World.initial [("theme", "ember")])
        [ Event.init [SeasonId.str "2023", SeasonId.str "2024"],
          Event.seasonFetched (SeasonId.str "2024") { insights := none, missing := none },
          Event.teamsFetched "2024" none ])).query "season" = some "2024" :=
  ⟨by decide, by with_unfolding_all decide,
    (loadSeason_season_round_trip parseDigits
      (run parseDigits (World.initial [("theme", "ember")])
        [ Event.init [SeasonId.str "2023", SeasonId.str "2024"],
          Event.seasonFetched (SeasonId.str "2024") { insights := none, missing := none },
          Event.teamsFetched "2024" none ])
      "2024" [SeasonId.str "2023", SeasonId.str "2024"] (by decide)
      (by with_unfolding_all decide)).1⟩

set_option maxRecDepth 100000 in
/-- C8 as stated fails for seasons listed as numbers: with the index 2023, 2024
and season 2023 loaded to the end, the query parameter `season` holds the text
"2023", and `init` over the same index at that address loads 2024, not 2023. -/
theorem reload_of_numeric_season_loads_default :
    exampleNumeric.state.currentSeason = some (SeasonId.num 2023) ∧
    exampleNumeric.pendingSeason = [] ∧ exampleNumeric.pendingResume = [] ∧
    getParam exampleNumeric.query "season" = some "2023" ∧
    (init parseDigits [SeasonId.num 2023, SeasonId.num 2024]
      (World.initial exampleNumeric.query)).pendingSeason = [SeasonId.num 2024] ∧
    (init parseDigits [SeasonId.num 2023, SeasonId.num 2024]
      (World.initial exampleNumeric.query)).fetches.getLast? = some (Fetch.season "2024") := by
  with_unfolding_all decide

/-! ### Properties of selecting a season twice -/

theorem seasonFetchCount_ensureTeamInsightsCall (season : SeasonId) (w : World) (key : String) :
    seasonFetchCount (ensureTeamInsightsCall season w).1 key = seasonFetchCount w key := by
  cases hst : statusOf w (seasonKey season) with
  | some st => rw [ensureTeamInsightsCall_of_status season w st hst]
  | none =>
    rw [ensureTeamInsightsCall_of_unloaded season w hst]
    simp [seasonFetchCount, List.count_append]

theorem currentSeason_ensureTeamInsightsCall (season : SeasonId) (w : World) :
    (ensureTeamInsightsCall season w).1.state.currentSeason = w.state.currentSeason := by
  cases hst : statusOf w (seasonKey season) with
  | some st => rw [ensureTeamInsightsCall_of_status season w st hst]
  | none => rw [ensureTeamInsightsCall_of_unloaded season w hst]

/-- An event that selects no season and delivers no dataset keeps the current
season and makes no request for a dataset. -/
theorem quiet_step (parse : String → Option ℚ) (w : World) (e : Event)
    (he : e.selectsSeason = false) (key : String) :
    (step parse w e).state.currentSeason = w.state.currentSeason ∧
    seasonFetchCount (step parse w e) key = seasonFetchCount w key := by
  cases e with
  | init index => cases he
  | clickSeason season => cases he
  | loadSeason season => cases he
  | seasonFetched season data => cases he
  | seasonThrew season data => cases he
  | seasonFailed season => exact ⟨rfl, rfl⟩
  | ensureTeamInsights season =>
    exact ⟨currentSeason_ensureTeamInsightsCall season w,
      seasonFetchCount_ensureTeamInsightsCall season w key⟩
  | teamsFetched key' result =>
    show (ensureTeamInsightsResume key' result w).state.currentSeason = _ ∧
      seasonFetchCount (ensureTeamInsightsResume key' result w) key = _
    unfold ensureTeamInsightsResume
    split_ifs
    · cases result <;> exact ⟨rfl, rfl⟩
    · exact ⟨rfl, rfl⟩
  | seasonResumed season =>
    show (loadSeasonResume season w).state.currentSeason = _ ∧
      seasonFetchCount (loadSeasonResume season w) key = _
    unfold loadSeasonResume
    cases canResume season w <;> exact ⟨rfl, rfl⟩
  | setTeamSelection teamKey =>
    show (setTeamSelection teamKey w).state.currentSeason = _ ∧
      seasonFetchCount (setTeamSelection teamKey w) key = _
    unfold setTeamSelection
    simp only []
    split_ifs <;> exact ⟨rfl, rfl⟩

theorem quiet_run (parse : String → Option ℚ) (more : List Event) (w : World)
    (hq : ∀ e ∈ more, e.selectsSeason = false) (key : String) :
    (run parse w more).state.currentSeason = w.state.currentSeason ∧
    seasonFetchCount (run parse w more) key = seasonFetchCount w key := by
  induction more generalizing w with
  | nil => exact ⟨rfl, rfl⟩
  | cons e rest ih =>
    have h1 := quiet_step parse w e (hq e (List.mem_cons_self _ _)) key
    have h2 := ih (step parse w e) (fun x hx => hq x (List.mem_cons_of_mem _ hx))
    show (run parse (step parse w e) rest).state.currentSeason = _ ∧
      seasonFetchCount (run parse (step parse w e) rest) key = _
    rw [h2.1, h2.2, h1.1, h1.2]
    exact ⟨rfl, rfl⟩

/-- C9, as the code has it: when the season `s` is not the current one, a click
on its button requests its dataset once; once that dataset has arrived, `s` is
the current season, and as long as no other season is selected in between, a
second click on the button of `s` changes nothing and requests nothing, so
that one request for the dataset has been made in all. A click on the button
of the current season never does anything. -/
theorem clickSeason_twice_fetches_once (parse : String → Option ℚ) (w : World)
    (s : SeasonId) (data : SeasonData) (more : List Event)
    (hcur : w.state.currentSeason ≠ some s)
    (hquiet : ∀ e ∈ more, e.selectsSeason = false) :
    seasonFetchCount (clickSeason s w) (seasonKey s) = seasonFetchCount w (seasonKey s) + 1 ∧
    (run parse (loadSeasonFetched s data (clickSeason s w)) more).state.currentSeason = some s ∧
    clickSeason s (run parse (loadSeasonFetched s data (clickSeason s w)) more)
      = run parse (loadSeasonFetched s data (clickSeason s w)) more ∧
    seasonFetchCount
        (clickSeason s (run parse (loadSeasonFetched s data (clickSeason s w)) more)) (seasonKey s)
      = seasonFetchCount w (seasonKey s) + 1 ∧
    (∀ w' : World, w'.state.currentSeason = some s → clickSeason s w' = w') := by
  have hnoop : ∀ w' : World, w'.state.currentSeason = some s → clickSeason s w' = w' := by
    intro w' h
    unfold clickSeason
    rw [if_pos h.symm]
  have hclick : clickSeason s w = loadSeasonCall s w := by
    unfold clickSeason
    rw [if_neg (fun h => hcur h.symm)]
  have hcount : seasonFetchCount (clickSeason s w) (seasonKey s)
      = seasonFetchCount w (seasonKey s) + 1 := by
    rw [hclick]
    simp [loadSeasonCall, seasonFetchCount, List.count_append]
  have hpend : s ∈ (clickSeason s w).pendingSeason := by
    rw [hclick]
    simp [loadSeasonCall]
  have hfetched : (loadSeasonFetched s data (clickSeason s w)).state.currentSeason = some s ∧
      seasonFetchCount (loadSeasonFetched s data (clickSeason s w)) (seasonKey s)
        = seasonFetchCount (clickSeason s w) (seasonKey s) := by
    unfold loadSeasonFetched
    rw [if_pos hpend]
    constructor
    · show (ensureTeamInsightsCall s _).1.state.currentSeason = some s
      rw [currentSeason_ensureTeamInsightsCall]
    · show seasonFetchCount (ensureTeamInsightsCall s _).1 (seasonKey s) = _
      rw [seasonFetchCount_ensureTeamInsightsCall]
      rfl
  have hrun := quiet_run parse more (loadSeasonFetched s data (clickSeason s w)) hquiet
    (seasonKey s)
  have hcur2 : (run parse (loadSeasonFetched s data (clickSeason s w)) more).state.currentSeason
      = some s := by rw [hrun.1, hfetched.1]
  refine ⟨hcount, hcur2, hnoop _ hcur2, ?_, hnoop⟩
  rw [hnoop _ hcur2, hrun.2, hfetched.2, hcount]

set_option maxRecDepth 100000 in
/-- Instance of C9: season 2024 is current; season "2023" is clicked, its
dataset arrives, the request for its team document fails and the load runs to
its end; a second click changes nothing. -/
theorem clickSeason_twice_fetches_once_witness :
    exampleMissing.state.currentSeason ≠ some (SeasonId.str "2023") ∧
    (∀ e ∈ [Event.teamsFetched "2023" none, Event.seasonResumed (SeasonId.str "2023")],
      e.selectsSeason = false) ∧
    seasonFetchCount
      (clickSeason (SeasonId.str "2023")
        (run parseDigits
          (loadSeasonFetched (SeasonId.str "2023") { insights := none, missing := none }
            (clickSeason (SeasonId.str "2023") exampleMissing))
          [Event.teamsFetched "2023" none, Event.seasonResumed (SeasonId.str "2023")]))
      "2023" = 1 :=
  have h1 : exampleMissing.state.currentSeason ≠ some (SeasonId.str "2023") := by
    with_unfolding_all decide
  have h2 : ∀ e ∈ [Event.teamsFetched "2023" none, Event.seasonResumed (SeasonId.str "2023")],
      e.selectsSeason = false := by
    intro e he
    simp only [List.mem_cons, List.mem_singleton, List.not_mem_nil, or_false] at he
    rcases he with rfl | rfl <;> rfl
  have h3 : seasonFetchCount exampleMissing (seasonKey (SeasonId.str "2023")) = 0 := by
    with_unfolding_all decide
  ⟨h1, h2, by
    have h := (clickSeason_twice_fetches_once parseDigits exampleMissing (SeasonId.str "2023")
      { insights := none, missing := none }
      [Event.teamsFetched "2023" none, Event.seasonResumed (SeasonId.str "2023")] h1 h2).2.2.2.1
    rw [h3] at h
    exact h⟩

set_option maxRecDepth 100000 in
/-- C9 as stated fails when the second click comes before the dataset: season
2024 is current, the button of "2023" is clicked twice in a row, and two
requests for the dataset of "2023" are made: the second click is not a no-op. -/
theorem clickSeason_twice_in_flight_fetches_twice :
    exampleMissing.state.currentSeason = some (SeasonId.str "2024") ∧
    seasonFetchCount exampleMissing "2023" = 0 ∧
    seasonFetchCount
      (clickSeason (SeasonId.str "2023") (clickSeason (SeasonId.str "2023") exampleMissing))
      "2023" = 2 ∧
    clickSeason (SeasonId.str "2023") (clickSeason (SeasonId.str "2023") exampleMissing)
      ≠ clickSeason (SeasonId.str "2023") exampleMissing := by
  with_unfolding_all decide


/-! ### Properties of the hidden insights -/

theorem sectionItems_filter_hidden (insights : List Insight) (name : String) :
    sectionItems (insights.filter (fun i => decide (i.id ∉ HIDDEN_INSIGHTS))) name
      = sectionItems insights name := by
  unfold sectionItems
  rw [List.filter_filter]
  congr 1
  funext i
  by_cases h : i.id ∈ HIDDEN_INSIGHTS <;> simp [h]

/-- C11: for every list of insights, an insight whose id is in
`HIDDEN_INSIGHTS` (the three ids league_summary, draft_position_champion and
average_playoff_cutoff) gets no card in any rendered section, whatever section
its id would be sent to; and the sections and cards rendered are the same as
for the list without its hidden insights. -/
theorem renderInsights_hidden_suppressed (insights : List Insight) :
    HIDDEN_INSIGHTS = ["league_summary", "draft_position_champion", "average_playoff_cutoff"] ∧
    (∀ p ∈ renderInsights insights, ∀ i ∈ p.2, i.id ∉ HIDDEN_INSIGHTS) ∧
    renderInsights insights
      = renderInsights (insights.filter (fun i => decide (i.id ∉ HIDDEN_INSIGHTS))) := by
  refine ⟨rfl, ?_, ?_⟩
  · rintro ⟨name, items⟩ hp i hi
    obtain ⟨-, rfl, -⟩ := (mem_renderInsights _ _ _).mp hp
    exact ((mem_sectionItems _ _ _).mp hi).2.1
  · rw [renderInsights_eq, renderInsights_eq]
    congr 1
    funext name
    rw [sectionItems_filter_hidden]

/-! ### More on the chart layout -/

/-- The chart of a non-empty series with all that the computation fixes: the
step reached after `k` passes of the loop, `k` being the first count at which
the upper bound covers `maxBoundRaw`, the range and the points. -/
theorem createSparkline_cons_full (v : ℚ) (vs : List ℚ) :
    ∃ (c : Chart) (k : ℕ), createSparkline (v :: vs) = some (Sparkline.chart c) ∧
      c.min = jsMin v vs ∧ c.max = jsMax v vs ∧
      c.pad = padOf c.min c.max ∧
      c.minBoundRaw = c.min - c.pad ∧ c.maxBoundRaw = c.max + c.pad ∧
      c.minBound = floorTen c.minBoundRaw ∧
      c.step = stepFloor (stepCeil c.minBound (widenBound c.minBound (ceilTen c.maxBoundRaw)))
        + 10 * (k : ℤ) ∧
      (∀ j : ℕ, j < k →
        ((c.minBound + (stepFloor (stepCeil c.minBound
            (widenBound c.minBound (ceilTen c.maxBoundRaw))) + 10 * (j : ℤ)) * 4 : ℤ) : ℚ)
          < c.maxBoundRaw) ∧
      c.maxBoundRaw ≤ (c.maxBound : ℚ) ∧
      c.maxBound = c.minBound + c.step * 4 ∧
      c.boundedRange = orNum ((c.maxBound - c.minBound : ℤ) : ℚ) 1 ∧
      c.coords = (v :: vs).enum.map
        (fun p => coordOf (v :: vs).length c.minBound c.boundedRange p.1 p.2) ∧
      c.yTickValues = (List.range 5).map (fun idx => c.maxBound - c.step * (idx : ℤ)) := by
  obtain ⟨k, hk, hge, hlt⟩ := growStep_terminates
    (floorTen (jsMin v vs - padOf (jsMin v vs) (jsMax v vs)))
    (jsMax v vs + padOf (jsMin v vs) (jsMax v vs))
    (loopFuel (jsMax v vs + padOf (jsMin v vs) (jsMax v vs))
      (floorTen (jsMin v vs - padOf (jsMin v vs) (jsMax v vs))
        + stepFloor (stepCeil (floorTen (jsMin v vs - padOf (jsMin v vs) (jsMax v vs)))
            (widenBound (floorTen (jsMin v vs - padOf (jsMin v vs) (jsMax v vs)))
              (ceilTen (jsMax v vs + padOf (jsMin v vs) (jsMax v vs))))) * 4))
    (stepFloor (stepCeil (floorTen (jsMin v vs - padOf (jsMin v vs) (jsMax v vs)))
      (widenBound (floorTen (jsMin v vs - padOf (jsMin v vs) (jsMax v vs)))
        (ceilTen (jsMax v vs + padOf (jsMin v vs) (jsMax v vs))))))
    (by unfold loopFuel; omega)
  unfold createSparkline
  simp only []
  rw [hk]
  exact ⟨_, k, rfl, rfl, rfl, rfl, rfl, rfl, rfl, rfl, hlt, hge, rfl, rfl, rfl, rfl⟩

/-- The range of a chart is the positive difference of its bounds. -/
theorem boundedRange_eq (c : Chart) (k : ℕ)
    (hstep : c.step = stepFloor (stepCeil c.minBound
      (widenBound c.minBound (ceilTen c.maxBoundRaw))) + 10 * (k : ℤ))
    (hmax : c.maxBound = c.minBound + c.step * 4)
    (hr : c.boundedRange = orNum ((c.maxBound - c.minBound : ℤ) : ℚ) 1) :
    c.boundedRange = (c.maxBound : ℚ) - (c.minBound : ℚ) ∧ 40 ≤ c.boundedRange := by
  have h10 := ten_le_stepFloor (stepCeil c.minBound (widenBound c.minBound (ceilTen c.maxBoundRaw)))
  have hs : 10 ≤ c.step := by rw [hstep]; omega
  have hd : (40 : ℤ) ≤ c.maxBound - c.minBound := by rw [hmax]; omega
  have hq : (40 : ℚ) ≤ ((c.maxBound - c.minBound : ℤ) : ℚ) := by exact_mod_cast hd
  have hne : ((c.maxBound - c.minBound : ℤ) : ℚ) ≠ 0 := by linarith
  rw [hr]
  unfold orNum
  rw [if_neg hne]
  constructor
  · push_cast; ring
  · exact hq

theorem jsMin_const (c v : ℚ) (vs : List ℚ) (h : ∀ x ∈ v :: vs, x = c) : jsMin v vs = c :=
  h _ (jsMin_mem v vs)

theorem jsMax_const (c v : ℚ) (vs : List ℚ) (h : ∀ x ∈ v :: vs, x = c) : jsMax v vs = c :=
  h _ (jsMax_mem v vs)

theorem padOf_const (c : ℚ) : padOf c c = 5 := by
  rw [padOf_eq]
  norm_num

/-- For a flat series at `c` the rounded bounds are 10 or 20 apart, the guard
on the bounds does not fire, and the first step is 10. -/
theorem step_const (c : ℚ) :
    stepFloor (stepCeil (floorTen (c - 5)) (widenBound (floorTen (c - 5)) (ceilTen (c + 5))))
      = 10 := by
  have ha1 := Int.floor_le ((c - 5) / 10)
  have ha2 := Int.lt_floor_add_one ((c - 5) / 10)
  have hb1 := Int.le_ceil ((c + 5) / 10)
  have hb2 := Int.ceil_lt_add_one ((c + 5) / 10)
  have hlo : ⌊(c - 5) / 10⌋ + 1 ≤ ⌈(c + 5) / 10⌉ := by
    have : ((⌊(c - 5) / 10⌋ : ℤ) : ℚ) < ((⌈(c + 5) / 10⌉ : ℤ) : ℚ) := by linarith
    have := Int.cast_lt.mp this
    omega
  have hhi : ⌈(c + 5) / 10⌉ ≤ ⌊(c - 5) / 10⌋ + 2 := by
    have : ((⌈(c + 5) / 10⌉ : ℤ) : ℚ) < ((⌊(c - 5) / 10⌋ + 3 : ℤ) : ℚ) := by
      push_cast; linarith
    have := Int.cast_lt.mp this
    omega
  have hw : widenBound (floorTen (c - 5)) (ceilTen (c + 5)) = ceilTen (c + 5) := by
    unfold widenBound floorTen ceilTen
    rw [if_neg]
    omega
  rw [hw]
  have hd1 : (10 : ℤ) ≤ ceilTen (c + 5) - floorTen (c - 5) := by
    unfold floorTen ceilTen; omega
  have hd2 : ceilTen (c + 5) - floorTen (c - 5) ≤ (20 : ℤ) := by
    unfold floorTen ceilTen; omega
  have hceil : ⌈(((ceilTen (c + 5) - floorTen (c - 5) : ℤ) : ℚ) / 4) / 10⌉ = 1 := by
    rw [Int.ceil_eq_iff]
    have h1 : (10 : ℚ) ≤ ((ceilTen (c + 5) - floorTen (c - 5) : ℤ) : ℚ) := by exact_mod_cast hd1
    have h2 : ((ceilTen (c + 5) - floorTen (c - 5) : ℤ) : ℚ) ≤ 20 := by exact_mod_cast hd2
    constructor
    · push_cast at h1 ⊢
      linarith
    · push_cast at h2 ⊢
      linarith
  unfold stepCeil
  rw [hceil]
  rfl

/-- The chart of a flat series at `c`: the pad is 5, the loop makes no pass,
the step is 10 and the bounds are 40 apart. -/
theorem flat_series_chart (c v : ℚ) (vs : List ℚ) (hall : ∀ x ∈ v :: vs, x = c) :
    ∃ ch : Chart, createSparkline (v :: vs) = some (Sparkline.chart ch) ∧
      ch.pad = 5 ∧ ch.step = 10 ∧ ch.minBound = floorTen (c - 5) ∧
      ch.maxBound = ch.minBound + 40 := by
  obtain ⟨ch, k, hc, hmin, hmax, hpad, hlo, hhi, hmb, hstep, hlt, -, hmaxb, -, -, -⟩ :=
    createSparkline_cons_full v vs
  have hmin' : ch.min = c := by rw [hmin]; exact jsMin_const c v vs hall
  have hmax' : ch.max = c := by rw [hmax]; exact jsMax_const c v vs hall
  have hpad' : ch.pad = 5 := by rw [hpad, hmin', hmax']; exact padOf_const c
  have hlo' : ch.minBoundRaw = c - 5 := by rw [hlo, hmin', hpad']
  have hhi' : ch.maxBoundRaw = c + 5 := by rw [hhi, hmax', hpad']
  have hmb' : ch.minBound = floorTen (c - 5) := by rw [hmb, hlo']
  have hs0 : stepFloor (stepCeil ch.minBound (widenBound ch.minBound (ceilTen ch.maxBoundRaw)))
      = 10 := by
    rw [hmb', hhi']; exact step_const c
  have hfl := Int.lt_floor_add_one ((c - 5) / 10)
  have hk : k = 0 := by
    by_contra hk0
    have h0 := hlt 0 (Nat.pos_of_ne_zero hk0)
    rw [hs0, hhi', hmb'] at h0
    unfold floorTen at h0
    push_cast at h0
    linarith
  have hstep' : ch.step = 10 := by
    rw [hstep, hs0, hk]; simp
  exact ⟨ch, hc, hpad', hstep', hmb', by rw [hmaxb, hstep']; ring⟩

/-- The chart of a non-empty series, with its range and its points spelled
out: the range is `maxBound - minBound`, at least 40; every sample lies within
the bounds; and the point of index `i` is `coordOf` of the sample of index
`i`. -/
theorem createSparkline_points (v : ℚ) (vs : List ℚ) :
    ∃ c : Chart, createSparkline (v :: vs) = some (Sparkline.chart c) ∧
      c.boundedRange = (c.maxBound : ℚ) - (c.minBound : ℚ) ∧
      40 ≤ c.boundedRange ∧
      (∀ x ∈ v :: vs, (c.minBound : ℚ) ≤ x ∧ x ≤ (c.maxBound : ℚ)) ∧
      c.coords.length = (v :: vs).length ∧
      (∀ i : ℕ, c.coords[i]? =
        ((v :: vs)[i]?).map (fun x => coordOf (v :: vs).length c.minBound c.boundedRange i x)) := by
  obtain ⟨c, k, hc, hmin, hmax, hpad, hlo, hhi, hmb, hstep, -, hge, hmaxb, hr, hcoords, -⟩ :=
    createSparkline_cons_full v vs
  obtain ⟨hrange, h40⟩ := boundedRange_eq c k hstep hmaxb hr
  refine ⟨c, hc, hrange, h40, ?_, ?_, ?_⟩
  · intro x hx
    have h5 : 5 ≤ c.pad := hpad ▸ five_le_padOf _ _
    have hfl : (c.minBound : ℚ) ≤ c.min - c.pad := by
      rw [hmb, hlo]; exact floorTen_le _
    have hcl : c.max + c.pad ≤ (c.maxBound : ℚ) := hhi ▸ hge
    have h1 : c.min ≤ x := by
      rw [hmin]
      rcases List.mem_cons.mp hx with rfl | hx
      · exact jsMin_le_head x vs
      · exact jsMin_le_of_mem v vs x hx
    have h2 : x ≤ c.max := by
      rw [hmax]
      rcases List.mem_cons.mp hx with rfl | hx
      · exact head_le_jsMax x vs
      · exact le_jsMax_of_mem v vs x hx
    constructor <;> linarith
  · rw [hcoords]; simp
  · intro i
    rw [hcoords, List.getElem?_map, List.getElem?_enum]
    cases (v :: vs)[i]? <;> rfl

/-- C14: for every single-element series the chart has range 40, so that the
division by the range is not a division by zero, and its one point has the
x-coordinate `56 + (840 - 56 - 18) / 2 = 439`, the centre of the plotting
rectangle, computed without the division by `length - 1`; the one point marker
sits there. -/
theorem createSparkline_single_point (v : ℚ) :
    ∃ c : Chart, createSparkline [v] = some (Sparkline.chart c) ∧
      c.boundedRange = 40 ∧ c.boundedRange ≠ 0 ∧
      c.coords = [((56 : ℚ) + (840 - 56 - 18) / 2,
        12 + (1 - (v - c.minBound) / c.boundedRange) * (200 - 12 - 46))] ∧
      ((56 : ℚ) + (840 - 56 - 18) / 2 = 439) ∧
      (pointMarkers c.coords).map (fun m => m.cx) = [439] := by
  obtain ⟨c, hc, hrange, -, -, hlen, hget⟩ := createSparkline_points v []
  obtain ⟨c', hc', -, hstep, -, hmaxb⟩ := flat_series_chart v v [] (by simp)
  have hcc : c' = c := by
    rw [hc] at hc'
    injection hc' with h
    injection h with h
    exact h.symm
  subst hcc
  have h40 : c'.boundedRange = 40 := by
    rw [hrange, hmaxb]; push_cast; ring
  have hcoords : c'.coords = [((56 : ℚ) + (840 - 56 - 18) / 2,
      12 + (1 - (v - c'.minBound) / c'.boundedRange) * (200 - 12 - 46))] := by
    apply List.ext_getElem?
    intro i
    rw [hget i]
    cases i with
    | zero => simp [coordOf]
    | succ n => simp
  refine ⟨c', hc, h40, by rw [h40]; norm_num, hcoords, by norm_num, ?_⟩
  rw [hcoords]
  simp [pointMarkers]
  norm_num

theorem chart?_of_eq (values : List ℚ) (c : Chart)
    (h : createSparkline values = some (Sparkline.chart c)) :
    (createSparkline values).bind Sparkline.chart? = some c := by
  rw [h]; rfl

set_option maxRecDepth 100000 in
/-- C16: for the series 80, 95, 110, 105 over the weeks 1 to 4 the axis bounds
are 70 and 150, both multiples of 10; the axis interval contains 70 to 120, and
the padded data, 75 to 115, with room on both sides of the data; four point
markers are emitted, at the x-coordinates 56, 934/3, 1700/3 and 822, which are
strictly increasing; and the four tick labels W1 to W4 sit at those
x-coordinates. -/
theorem createSparkline_trend_scenario :
    ∃ c : Chart, createSparkline [80, 95, 110, 105] = some (Sparkline.chart c) ∧
      c.minBound = 70 ∧ c.maxBound = 150 ∧
      (10 : ℤ) ∣ c.minBound ∧ (10 : ℤ) ∣ c.maxBound ∧
      (c.minBound : ℚ) ≤ 70 ∧ (120 : ℚ) ≤ c.maxBound ∧
      (c.minBound : ℚ) ≤ c.min - c.pad ∧ c.max + c.pad ≤ (c.maxBound : ℚ) ∧
      c.min - c.pad = 75 ∧ c.max + c.pad = 115 ∧
      (pointMarkers c.coords).length = 4 ∧
      (pointMarkers c.coords).map (fun m => m.cx) = [56, 934 / 3, 1700 / 3, 822] ∧
      List.Pairwise (fun a b : ℚ => a < b) ((pointMarkers c.coords).map (fun m => m.cx)) ∧
      (xTicks c.coords { weeks := some [1, 2, 3, 4], startWeek := some 1, endWeek := some 4 }).map
          (fun t => (t.text, t.x))
        = [("W1", 56), ("W2", 934 / 3), ("W3", 1700 / 3), ("W4", 822)] := by
  obtain ⟨c, hc, -⟩ := createSparkline_cons 80 [95, 110, 105]
  have hb := chart?_of_eq _ c hc
  have e1 : ((createSparkline [80, 95, 110, 105]).bind Sparkline.chart?).map
      (fun c => (c.minBound, c.maxBound)) = some (70, 150) := by
    with_unfolding_all decide
  have e2 : ((createSparkline [80, 95, 110, 105]).bind Sparkline.chart?).map
      (fun c => (c.min - c.pad, c.max + c.pad)) = some (75, 115) := by
    with_unfolding_all decide
  have e3 : ((createSparkline [80, 95, 110, 105]).bind Sparkline.chart?).map
      (fun c => (pointMarkers c.coords).map (fun m => m.cx))
        = some [56, 934 / 3, 1700 / 3, 822] := by
    with_unfolding_all decide
  have e4 : ((createSparkline [80, 95, 110, 105]).bind Sparkline.chart?).map
      (fun c => (xTicks c.coords
          { weeks := some [1, 2, 3, 4], startWeek := some 1, endWeek := some 4 }).map
            (fun t => (t.text, t.x)))
        = some [("W1", 56), ("W2", 934 / 3), ("W3", 1700 / 3), ("W4", 822)] := by
    with_unfolding_all decide
  rw [hb] at e1 e2 e3 e4
  simp only [Option.map_some', Option.some.injEq, Prod.mk.injEq] at e1 e2 e3 e4
  obtain ⟨h1, h2⟩ := e1
  obtain ⟨h3, h4⟩ := e2
  have h5 := e3
  have h6 := e4
  have hlen : (pointMarkers c.coords).length = 4 := by
    have := congrArg List.length h5
    simpa using this
  refine ⟨c, hc, h1, h2, by rw [h1]; decide, by rw [h2]; decide, by rw [h1]; norm_num,
    by rw [h2]; norm_num, by rw [h1, h3]; norm_num, by rw [h2, h4]; norm_num, h3, h4, hlen,
    h5, ?_, h6⟩
  rw [h5]
  simp only [List.pairwise_cons, List.mem_cons, List.mem_singleton, List.not_mem_nil,
    List.Pairwise.nil, and_true]
  norm_num

/-! ### Properties of the x-axis tick labels -/

/-- C17, as the code has it: for every non-empty series of `n` points, if
`axisConfig.weeks` has exactly `n` entries then `n` tick labels are emitted,
the one of index `i` reading `W{weeks[i]}` at the x-coordinate of the point of
index `i`; in every other case (no week labels, or a different number of them)
two tick labels are emitted when `startWeek` and `endWeek` are both defined,
reading `W{startWeek}` at x = 56 and `W{endWeek}` at x = 822, which for two or
more points are the x-coordinates of the first and of the last point, and no
tick label is emitted when one of them is undefined. -/
theorem createSparkline_x_ticks (values : List ℚ) (hne : values ≠ [])
    (axisConfig : AxisConfig) :
    ∃ c : Chart, createSparkline values = some (Sparkline.chart c) ∧
      c.coords.length = values.length ∧
      (∀ weeks, axisConfig.weeks = some weeks → weeks.length = values.length →
        (xTicks c.coords axisConfig).length = values.length ∧
        ∀ (i : ℕ) (week : ℤ) (point : ℚ × ℚ), weeks[i]? = some week →
          c.coords[i]? = some point →
          (xTicks c.coords axisConfig)[i]? = some
            { text := "W" ++ toString week, x := point.1, y := 168, anchor := "middle" }) ∧
      ((axisConfig.weeks.getD []).length ≠ values.length →
        (∀ startWeek endWeek, axisConfig.startWeek = some startWeek →
          axisConfig.endWeek = some endWeek →
          xTicks c.coords axisConfig =
            [ { text := "W" ++ toString startWeek, x := 56, y := 168, anchor := "start" },
              { text := "W" ++ toString endWeek, x := 822, y := 168, anchor := "end" } ]) ∧
        (axisConfig.startWeek = none ∨ axisConfig.endWeek = none →
          xTicks c.coords axisConfig = [])) ∧
      (2 ≤ values.length →
        c.coords.head?.map Prod.fst = some 56 ∧
        c.coords[values.length - 1]?.map Prod.fst = some 822) := by
  cases values with
  | nil => exact absurd rfl hne
  | cons v vs =>
    obtain ⟨c, hc, -, -, -, hlen, hget⟩ := createSparkline_points v vs
    refine ⟨c, hc, hlen, ?_, ?_, ?_⟩
    · intro weeks hw hwl
      have hl : weeks.length = c.coords.length := by rw [hwl, hlen]
      constructor
      · simp [xTicks, hw, hl, hlen]
      · intro i week point hwi hpi
        have hz : (weeks.zip c.coords)[i]? = some (week, point) :=
          List.getElem?_zip_eq_some.mpr ⟨hwi, hpi⟩
        simp only [xTicks, hw, Option.getD_some, hl, if_true, List.getElem?_map, hz,
          Option.map_some']
        norm_num
    · intro hdiff
      have hl : ¬ (axisConfig.weeks.getD []).length = c.coords.length := by
        rw [hlen]; exact hdiff
      constructor
      · intro a b ha hb
        simp only [xTicks, hl, if_false, ha, hb]
        norm_num
      · intro hnone
        simp only [xTicks, hl, if_false]
        rcases hnone with h | h
        · rw [h]
        · rw [h]
          cases axisConfig.startWeek <;> rfl
    · intro h2
      have hn1 : (v :: vs).length ≠ 1 := by omega
      have hn : (2 : ℚ) ≤ ((v :: vs).length : ℚ) := by exact_mod_cast h2
      have hd : ((v :: vs).length : ℚ) - 1 ≠ 0 := by
        have : (0 : ℚ) < ((v :: vs).length : ℚ) - 1 := by linarith
        exact this.ne'
      constructor
      · rw [List.head?_eq_getElem?, hget 0]
        have h0 : (v :: vs)[0]? = some v := by simp
        rw [h0]
        simp only [Option.map_some', coordOf, if_neg hn1, Option.some.injEq]
        norm_num
      · rw [hget]
        have hlt : (v :: vs).length - 1 < (v :: vs).length := by omega
        rw [List.getElem?_eq_getElem hlt]
        have hc1 : (((v :: vs).length - 1 : ℕ) : ℚ) = ((v :: vs).length : ℚ) - 1 := by
          rw [Nat.cast_sub (by omega)]; simp
        simp only [Option.map_some', coordOf, hn1, if_false, hc1, Option.some.injEq]
        rw [div_self hd]
        norm_num

/-- Instance of C17: three points and three week labels. -/
theorem createSparkline_x_ticks_witness :
    ([10, 20, 30] : List ℚ) ≠ [] ∧
    ∃ c : Chart, createSparkline [10, 20, 30] = some (Sparkline.chart c) ∧
      (xTicks c.coords { weeks := some [5, 6, 7], startWeek := some 5, endWeek := some 7 }).length
        = 3 :=
  match createSparkline_x_ticks [10, 20, 30] (by simp)
    { weeks := some [5, 6, 7], startWeek := some 5, endWeek := some 7 } with
  | ⟨c, hc, _, hweeks, _⟩ => ⟨by simp, c, hc, (hweeks [5, 6, 7] rfl rfl).1⟩

set_option maxRecDepth 100000 in
/-- C17 as stated fails when `startWeek` or `endWeek` is undefined: with the
default `axisConfig` (no week labels, no start and end week) the chart of the
three samples 10, 20, 30 gets no x-axis tick label, not two. -/
theorem createSparkline_default_config_no_ticks :
    AxisConfig.empty.weeks = none ∧ AxisConfig.empty.startWeek = none ∧
    ((createSparkline [10, 20, 30]).bind Sparkline.chart?).map
      (fun c => (c.coords.length, xTicks c.coords AxisConfig.empty)) = some (3, []) := by
  with_unfolding_all decide

/-! ### Properties of the formatters -/

theorem formatValues_eq_map (fmt : NumberFormat) (items : List Json) :
    formatValues fmt items = items.map (formatValue fmt) := by
  induction items with
  | nil => rfl
  | cons v vs ih => simp [formatValues, ih]

theorem formatEntries_eq_map (fmt : NumberFormat) (fields : List (String × Json)) :
    formatEntries fmt fields
      = fields.map (fun e => prettyLabel e.1 ++ ": " ++ formatValue fmt e.2) := by
  induction fields with
  | nil => rfl
  | cons e rest ih =>
    obtain ⟨k, v⟩ := e
    simp [formatEntries, ih]

/-- The function `formatValue` satisfies its recursive description. -/
theorem formatValue_satisfies (fmt : NumberFormat) : FormatValueSpec fmt (formatValue fmt) where
  null := by simp [formatValue]
  undefined := by simp [formatValue]
  number := by intro q; simp [formatValue, formatNumber]
  string := by intro s; simp [formatValue]
  boolean := by intro b; simp [formatValue, jsToString]
  array := by intro items; simp [formatValue, formatValues_eq_map]
  team := by
    intro fields h
    have : (((Json.obj fields).get "team_name").truthy
        || ((Json.obj fields).get "manager_names").truthy) = true := by
      rcases h with h | h <;> simp [h]
    simp [formatValue, this]
  player := by
    intro fields h1 h2 h
    have : (((Json.obj fields).get "player_name").truthy
        || ((Json.obj fields).get "player_position").truthy) = true := by
      rcases h with h | h <;> simp [h]
    simp [formatValue, h1, h2, this]
  other := by
    intro fields h1 h2 h3 h4
    simp [formatValue, h1, h2, h3, h4, formatEntries_eq_map]

mutual
/-- A function that satisfies the recursive description is `formatValue`. -/
theorem formatValue_unique (fmt : NumberFormat) (f : Json → String)
    (h : FormatValueSpec fmt f) : ∀ v : Json, f v = formatValue fmt v
  | Json.null => by rw [h.null]; simp [formatValue]
  | Json.undefined => by rw [h.undefined]; simp [formatValue]
  | Json.bool b => by rw [h.boolean]; simp [formatValue, jsToString]
  | Json.num q => by
    have := h.number q
    simp only [formatNumber, Option.some.injEq] at this
    rw [this]; simp [formatValue]
  | Json.str s => by rw [h.string]; simp [formatValue]
  | Json.arr items => by
    rw [h.array, formatValue_unique_items fmt f h items]
    simp [formatValue]
  | Json.obj fields => by
    by_cases ht : ((Json.obj fields).get "team_name").truthy = true ∨
        ((Json.obj fields).get "manager_names").truthy = true
    · rw [h.team fields ht, (formatValue_satisfies fmt).team fields ht]
    · have h1 : ((Json.obj fields).get "team_name").truthy = false := by
        cases hb : ((Json.obj fields).get "team_name").truthy
        · rfl
        · exact absurd (Or.inl hb) ht
      have h2 : ((Json.obj fields).get "manager_names").truthy = false := by
        cases hb : ((Json.obj fields).get "manager_names").truthy
        · rfl
        · exact absurd (Or.inr hb) ht
      by_cases hp : ((Json.obj fields).get "player_name").truthy = true ∨
          ((Json.obj fields).get "player_position").truthy = true
      · rw [h.player fields h1 h2 hp, (formatValue_satisfies fmt).player fields h1 h2 hp]
      · have h3 : ((Json.obj fields).get "player_name").truthy = false := by
          cases hb : ((Json.obj fields).get "player_name").truthy
          · rfl
          · exact absurd (Or.inl hb) hp
        have h4 : ((Json.obj fields).get "player_position").truthy = false := by
          cases hb : ((Json.obj fields).get "player_position").truthy
          · rfl
          · exact absurd (Or.inr hb) hp
        rw [h.other fields h1 h2 h3 h4, (formatValue_satisfies fmt).other fields h1 h2 h3 h4,
          formatValue_unique_fields fmt f h fields]
/-- The same for the elements of an array. -/
theorem formatValue_unique_items (fmt : NumberFormat) (f : Json → String)
    (h : FormatValueSpec fmt f) : ∀ items : List Json, items.map f = formatValues fmt items
  | [] => rfl
  | v :: vs => by
    simp only [List.map_cons, formatValues]
    rw [formatValue_unique fmt f h v, formatValue_unique_items fmt f h vs]
/-- The same for the entries of an object. -/
theorem formatValue_unique_fields (fmt : NumberFormat) (f : Json → String)
    (h : FormatValueSpec fmt f) : ∀ fields : List (String × Json),
      fields.map (fun e => prettyLabel e.1 ++ ": " ++ f e.2)
        = fields.map (fun e => prettyLabel e.1 ++ ": " ++ formatValue fmt e.2)
  | [] => rfl
  | (k, v) :: rest => by
    simp only [List.map_cons]
    rw [formatValue_unique fmt f h v, formatValue_unique_fields fmt f h rest]
end

/-- C19, as the code has it: `formatValue` is a total function, and it is the one
function on values with: null and undefined give "—"; a number gives
`formatNumber` of it; a string gives itself; a boolean gives its text; an
array gives the `formatValue` of its elements joined with ", "; an object
whose `team_name` or `manager_names` is truthy gives `formatTeam` (checked
before the player shape); an object whose `player_name` or `player_position`
is truthy gives `formatPlayer`; any other object gives its entries in order,
each as `{prettyLabel(key)}: {formatValue(value)}`, joined with " • ". -/
theorem formatValue_recursive_definition (fmt : NumberFormat) :
    FormatValueSpec fmt (formatValue fmt) ∧
    ∀ f : Json → String, FormatValueSpec fmt f → ∀ v : Json, f v = formatValue fmt v := by
  refine ⟨formatValue_satisfies fmt, ?_⟩
  intro f hf v
  exact formatValue_unique fmt f hf v

set_option maxRecDepth 100000 in
/-- C19 as stated fails for an object that has `team_name` with a falsy value:
the object with the one field `team_name` equal to the empty string has that
field, yet `formatValue` gives "Team Name: ", the text of its entries, where
`formatTeam` gives "Unknown". -/
theorem formatValue_falsy_team_name :
    (getProp [("team_name", Json.str "")] "team_name").isSome = true ∧
    formatValue exampleFormat (Json.obj [("team_name", Json.str "")]) = "Team Name: " ∧
    formatTeam exampleFormat (Json.obj [("team_name", Json.str "")]) = "Unknown" := by
  with_unfolding_all decide

theorem snapshot_mapM (fmt : NumberFormat) (snapshot : Json) :
    ∀ fields : List (String × String),
      (∀ p ∈ fields, snapshot.get p.2 = Json.null ∨ ∃ q, snapshot.get p.2 = Json.num q) →
      fields.mapM
          (fun p => (snapshotValue fmt (snapshot.get p.2)).map (fun value => (p.1, rowText value)))
        = some (fields.map (fun p =>
            (p.1, rowText (match snapshot.get p.2 with
              | Json.num q => formatNumberOf fmt q
              | _ => "—"))))
  | [], _ => rfl
  | p :: rest, h => by
    have ih := snapshot_mapM fmt snapshot rest (fun x hx => h x (List.mem_cons_of_mem _ hx))
    have hp := h p (List.mem_cons_self _ _)
    rw [List.mapM_cons, ih, List.map_cons]
    rcases hp with hp | ⟨q, hp⟩
    · simp [hp, snapshotValue, Json.isNull]
    · simp [hp, snapshotValue, Json.isNull, formatNumber]

/-- C18, as the code has it: `formatValue`, `formatPercent`, `formatTeam` and
`formatPlayer` give "—" for a null or undefined argument; for every overview
record whose five Season Snapshot fields are each null or a number,
`renderOverview` builds the Season Snapshot card and shows "—" in the row of
each field that is null; in the Upset Rate card the row Rate shows "—" when
`rate` is null or absent, and the row Upsets shows "—" when `upsets` is null or
`games` is falsy; and a team or a player without a name is shown as
"Unknown". -/
theorem placeholder_for_null_fields (fmt : NumberFormat) :
    (formatValue fmt Json.null = "—" ∧ formatValue fmt Json.undefined = "—") ∧
    (∀ digits, formatPercent fmt Json.null digits = "—" ∧
      formatPercent fmt Json.undefined digits = "—") ∧
    (formatTeam fmt Json.null = "—" ∧ formatTeam fmt Json.undefined = "—") ∧
    (formatPlayer fmt Json.null = "—" ∧ formatPlayer fmt Json.undefined = "—") ∧
    (∀ overview : Json, overview.truthy = true →
      (∀ p ∈ snapshotFields,
        ((overview.get "snapshot").orElse (Json.obj [])).get p.2 = Json.null ∨
        ∃ q, ((overview.get "snapshot").orElse (Json.obj [])).get p.2 = Json.num q) →
      ∃ rows, snapshotCard fmt overview = some rows ∧
        rows.map Prod.fst = snapshotFields.map Prod.fst ∧
        ∀ p ∈ snapshotFields,
          ((overview.get "snapshot").orElse (Json.obj [])).get p.2 = Json.null →
          (p.1, "—") ∈ rows) ∧
    (∀ overview : Json,
      (((overview.get "upset_rate").orElse (Json.obj [])).get "rate" = Json.null ∨
        ((overview.get "upset_rate").orElse (Json.obj [])).get "rate" = Json.undefined →
        ("Rate", "—") ∈ upsetCard fmt overview) ∧
      (((overview.get "upset_rate").orElse (Json.obj [])).get "upsets" = Json.null ∨
        (((overview.get "upset_rate").orElse (Json.obj [])).get "games").truthy = false →
        ("Upsets", "—") ∈ upsetCard fmt overview)) ∧
    (∀ team : Json, team.truthy = true → (team.get "team_name").truthy = false →
      (team.get "manager_names").truthy = false → formatTeam fmt team = "Unknown") ∧
    (∀ player : Json, player.truthy = true → (player.get "player_name").truthy = false →
      (player.get "player_position").truthy = false → formatPlayer fmt player = "Unknown") := by
  refine ⟨⟨by simp [formatValue], by simp [formatValue]⟩, ?_, ⟨rfl, rfl⟩, ⟨rfl, rfl⟩, ?_, ?_, ?_, ?_⟩
  · intro digits
    exact ⟨rfl, rfl⟩
  · intro overview ht hf
    have hm := snapshot_mapM fmt ((overview.get "snapshot").orElse (Json.obj [])) snapshotFields hf
    refine ⟨snapshotFields.map (fun p =>
        (p.1, rowText (match ((overview.get "snapshot").orElse (Json.obj [])).get p.2 with
          | Json.num q => formatNumberOf fmt q
          | _ => "—"))), ?_, ?_, ?_⟩
    · unfold snapshotCard
      simp only [ht, Bool.not_true, Bool.false_eq_true, if_false]
      exact hm
    · simp [List.map_map, Function.comp_def]
    · intro p hp hnull
      rw [List.mem_map]
      refine ⟨p, hp, ?_⟩
      rw [hnull]
      rfl
  · intro overview
    constructor
    · intro h
      have : formatPercent fmt (((overview.get "upset_rate").orElse (Json.obj [])).get "rate") 1
          = "—" := by
        rcases h with h | h <;> rw [h] <;> rfl
      simp [upsetCard, this, rowText]
    · intro h
      have : (!(((overview.get "upset_rate").orElse (Json.obj [])).get "upsets").isNull
          && (((overview.get "upset_rate").orElse (Json.obj [])).get "games").truthy) = false := by
        rcases h with h | h
        · rw [h]; rfl
        · rw [h]; simp
      simp [upsetCard, this, rowText]
  · intro team ht h1 h2
    simp [formatTeam, ht, h1, h2, Json.orElse, jsToString]
  · intro player ht h1 h2
    simp [formatPlayer, ht, h1, h2, Json.orElse, jsToString]

set_option maxRecDepth 100000 in
/-- Instance of C18: an overview record whose snapshot has a total of 1500, a
null average margin and numbers elsewhere. -/
theorem placeholder_for_null_fields_witness :
    snapshotCard exampleFormat
      (Json.obj [("snapshot", Json.obj
        [ ("total_points", Json.num 1500), ("avg_weekly_points", Json.num (225 / 2)),
          ("avg_margin", Json.null), ("closest_margin", Json.num 1),
          ("blowout_margin", Json.num 60) ])])
      = some [ ("Total points", "1500"), ("Avg weekly points", "112.50"), ("Avg margin", "—"),
               ("Closest game", "1"), ("Biggest blowout", "60") ] ∧
    formatValue exampleFormat Json.null = "—" :=
  ⟨by with_unfolding_all rfl, (placeholder_for_null_fields exampleFormat).1.1⟩

set_option maxRecDepth 100000 in
/-- C18 as stated fails for a missing name: a team record without `team_name`
is shown with the name "Unknown", not with "—". -/
theorem formatTeam_missing_name_unknown :
    (getProp [("manager_names", Json.str "Bob")] "team_name").isNone = true ∧
    formatTeam exampleFormat (Json.obj [("manager_names", Json.str "Bob")]) = "Unknown (Bob)" := by
  with_unfolding_all decide

set_option maxRecDepth 100000 in
/-- What the code does with a Season Snapshot field that is absent: with an
overview record that has no snapshot, `formatNumber(undefined)` throws and no
card is built; and with `upsets` absent and 16 games the row Upsets reads
"undefined/16". -/
theorem snapshotCard_absent_field_throws :
    snapshotCard exampleFormat (Json.obj [("season", Json.str "2024")]) = none ∧
    upsetCard exampleFormat (Json.obj [("upset_rate", Json.obj [("games", Json.num 16)])])
      = [("Upsets", "undefined/16"), ("Rate", "—")] := by
  with_unfolding_all decide

/-! ### A switch of season during a load -/

set_option maxRecDepth 100000 in
/-- C20, the code at a switch of season during a load. Before the resumption of
`loadSeason("2024")`, season 2023 is current with its team `b1` selected, the
address holds season 2023, the last team buttons are those of 2023 and the last
insights rendered are those of the team `b1`; the arrival of the team document
of 2024 has set the cache entry and the status of 2024 only. After the
resumption, with 2023 still current and `b1` still selected, the last team
buttons are those of season 2024, the last insights rendered are the
season-level ones with the summary shown, and the address holds season 2024;
nothing is left to run that would put this right. -/
theorem loadSeason_stale_resumption :
    (raceBefore.state.currentSeason = some (SeasonId.str "2023") ∧
      raceBefore.state.currentTeamKey = some "b1" ∧
      getParam raceBefore.query "season" = some "2023" ∧
      raceBefore.renders.reverse.take 2 =
        [ RenderCall.insightsView (some (SeasonId.str "2023"))
            { summaryHidden := true, missing := [],
              insights := [⟨"peak_week", "Peak Week of b1"⟩] },
          RenderCall.teamButtons (some (SeasonId.str "2023")) ] ∧
      statusOf raceBefore "2024" = some Status.loaded ∧
      statusOf raceBefore "2023" = some Status.loaded ∧
      (teamLookup raceBefore.state "2023" "b1").isSome = true ∧
      (teamLookup raceBefore.state "2023" "a1").isSome = false) ∧
    (raceAfter.state = raceBefore.state ∧
      getParam raceAfter.query "season" = some "2024" ∧
      raceAfter.renders.reverse.take 2 =
        [ RenderCall.insightsView (some (SeasonId.str "2024"))
            { summaryHidden := false, missing := [],
              insights := [⟨"paper_tiger", "Paper Tiger 2023"⟩] },
          RenderCall.teamButtons (some (SeasonId.str "2024")) ] ∧
      raceAfter.pendingSeason = [] ∧ raceAfter.pendingTeams = [] ∧
      raceAfter.pendingResume = []) := by
  with_unfolding_all decide

/-! ### Lemmas on binary64 rounding -/

theorem bitLength_zero (fuel : ℕ) : bitLength fuel 0 = 0 := by
  cases fuel <;> simp [bitLength]

theorem bitLength_spec : ∀ (fuel n : ℕ), n ≤ fuel → 0 < n →
    n < 2 ^ bitLength fuel n ∧ 2 ^ bitLength fuel n ≤ 2 * n
  | 0, n, h, hn => by omega
  | fuel + 1, n, h, hn => by
    have hne : n ≠ 0 := by omega
    simp only [bitLength, hne, if_false]
    by_cases h2 : n / 2 = 0
    · have h1 : n = 1 := by omega
      subst h1
      simp [bitLength_zero]
    · have ih := bitLength_spec fuel (n / 2) (by omega) (by omega)
      generalize bitLength fuel (n / 2) = b at ih
      rw [pow_succ]
      generalize 2 ^ b = P at ih
      omega

/-- The binary exponent brackets the magnitude. -/
theorem floorLog2_spec (q : ℚ) (hq : q ≠ 0) :
    (2 : ℚ) ^ floorLog2 q ≤ |q| ∧ |q| < (2 : ℚ) ^ (floorLog2 q + 1) := by
  have ha : 0 < q.num.natAbs := Int.natAbs_pos.mpr (Rat.num_ne_zero.mpr hq)
  have hb : 0 < q.den := q.den_pos
  obtain ⟨hA1, hA2⟩ := bitLength_spec q.num.natAbs q.num.natAbs le_rfl ha
  obtain ⟨hB1, hB2⟩ := bitLength_spec q.den q.den le_rfl hb
  have habs : |q| = (q.num.natAbs : ℚ) / (q.den : ℚ) := by
    rw [← Rat.num_div_den q, abs_div]
    simp [Rat.num_div_den, Nat.cast_natAbs]
  unfold floorLog2
  simp only []
  generalize bitLength q.num.natAbs q.num.natAbs = A at hA1 hA2
  generalize bitLength q.den q.den = B at hB1 hB2
  have hbq : (0 : ℚ) < (q.den : ℚ) := by exact_mod_cast hb
  have hA1q : (q.num.natAbs : ℚ) < (2 : ℚ) ^ A := by exact_mod_cast hA1
  have hA2q : (2 : ℚ) ^ A ≤ 2 * (q.num.natAbs : ℚ) := by exact_mod_cast hA2
  have hB1q : (q.den : ℚ) < (2 : ℚ) ^ B := by exact_mod_cast hB1
  have hB2q : (2 : ℚ) ^ B ≤ 2 * (q.den : ℚ) := by exact_mod_cast hB2
  have hpA : (0 : ℚ) < (2 : ℚ) ^ A := by positivity
  have hpB : (0 : ℚ) < (2 : ℚ) ^ B := by positivity
  have e0 : (2 : ℚ) ^ ((A : ℤ) - (B : ℤ)) = (2 : ℚ) ^ A / (2 : ℚ) ^ B := by
    rw [zpow_sub₀ (by norm_num : (2 : ℚ) ≠ 0), zpow_natCast, zpow_natCast]
  have e1 : (2 : ℚ) ^ ((A : ℤ) - (B : ℤ) + 1) = 2 * ((2 : ℚ) ^ A / (2 : ℚ) ^ B) := by
    rw [zpow_add₀ (by norm_num : (2 : ℚ) ≠ 0), e0]; ring
  have e2 : (2 : ℚ) ^ ((A : ℤ) - (B : ℤ) - 1) = ((2 : ℚ) ^ A / (2 : ℚ) ^ B) / 2 := by
    rw [zpow_sub₀ (by norm_num : (2 : ℚ) ≠ 0), e0]; simp
  have hupper : |q| < 2 * ((2 : ℚ) ^ A / (2 : ℚ) ^ B) := by
    rw [habs, div_lt_iff₀ hbq]
    have : 2 * ((2 : ℚ) ^ A / (2 : ℚ) ^ B) * (q.den : ℚ)
        = (2 : ℚ) ^ A * (2 * (q.den : ℚ)) / (2 : ℚ) ^ B := by ring
    rw [this, lt_div_iff₀ hpB]
    calc (q.num.natAbs : ℚ) * (2 : ℚ) ^ B < (2 : ℚ) ^ A * (2 : ℚ) ^ B := by
          exact mul_lt_mul_of_pos_right hA1q hpB
      _ ≤ (2 : ℚ) ^ A * (2 * (q.den : ℚ)) := by
          exact mul_le_mul_of_nonneg_left hB2q hpA.le
  have hlower : ((2 : ℚ) ^ A / (2 : ℚ) ^ B) / 2 ≤ |q| := by
    rw [habs, div_div, div_le_div_iff₀ (by positivity) hbq]
    have h1 : (2 : ℚ) ^ A * (q.den : ℚ) ≤ 2 * (q.num.natAbs : ℚ) * (2 : ℚ) ^ B := by
      calc (2 : ℚ) ^ A * (q.den : ℚ) ≤ 2 * (q.num.natAbs : ℚ) * (q.den : ℚ) :=
            mul_le_mul_of_nonneg_right hA2q hbq.le
        _ ≤ 2 * (q.num.natAbs : ℚ) * (2 : ℚ) ^ B :=
            mul_le_mul_of_nonneg_left hB1q.le (by positivity)
    linarith
  by_cases hc : (2 : ℚ) ^ ((A : ℤ) - (B : ℤ)) ≤ |q|
  · rw [if_pos hc]
    exact ⟨hc, by rw [e1]; exact hupper⟩
  · rw [if_neg hc]
    refine ⟨by rw [e2]; exact hlower, ?_⟩
    have : (A : ℤ) - (B : ℤ) - 1 + 1 = (A : ℤ) - (B : ℤ) := by ring
    rw [this]
    exact lt_of_not_le hc

theorem roundHalfEven_near (t : ℚ) : |(roundHalfEven t : ℚ) - t| ≤ 1 / 2 := by
  have h1 := Int.floor_le t
  have h2 := Int.lt_floor_add_one t
  unfold roundHalfEven
  simp only []
  split_ifs with ha hb hc
  · rw [abs_le]; constructor <;> linarith
  · rw [abs_le]; push_cast; constructor <;> linarith
  · rw [abs_le]; constructor <;> linarith
  · rw [abs_le]; push_cast; constructor <;> linarith

/-- No integer is nearer to `t` than `roundHalfEven t`. -/
theorem roundHalfEven_nearest (t : ℚ) (w : ℤ) :
    |(roundHalfEven t : ℚ) - t| ≤ |(w : ℚ) - t| := by
  have h := roundHalfEven_near t
  by_cases e : w = roundHalfEven t
  · rw [e]
  · have hd : (1 : ℚ) ≤ |(w : ℚ) - (roundHalfEven t : ℚ)| := by
      have : (1 : ℤ) ≤ |w - roundHalfEven t| := Int.one_le_abs (sub_ne_zero.mpr e)
      exact_mod_cast this
    have htri : |(w : ℚ) - (roundHalfEven t : ℚ)|
        ≤ |(w : ℚ) - t| + |(roundHalfEven t : ℚ) - t| := by
      have := abs_sub_le (w : ℚ) t (roundHalfEven t : ℚ)
      rwa [abs_sub_comm t _] at this
    linarith

theorem ulpExponent_ge (q : ℚ) : -1074 ≤ ulpExponent q := by
  unfold ulpExponent
  have := le_max_right (floorLog2 q) (-1022)
  omega

theorem floorLog2_le_ulpExponent (q : ℚ) : floorLog2 q ≤ ulpExponent q + 52 := by
  unfold ulpExponent
  have := le_max_left (floorLog2 q) (-1022)
  omega

theorem fl_zero : fl 0 = 0 := by simp [fl]

theorem two_zpow_pos (k : ℤ) : (0 : ℚ) < (2 : ℚ) ^ k := zpow_pos (by norm_num) k

theorem two_zpow_le {a b : ℤ} (h : a ≤ b) : (2 : ℚ) ^ a ≤ (2 : ℚ) ^ b :=
  zpow_le_zpow_right₀ (by norm_num) h

theorem two_zpow_lt {a b : ℤ} (h : a < b) : (2 : ℚ) ^ a < (2 : ℚ) ^ b :=
  zpow_lt_zpow_right₀ (by norm_num) h

theorem two_zpow_add (a b : ℤ) : (2 : ℚ) ^ (a + b) = (2 : ℚ) ^ a * (2 : ℚ) ^ b :=
  zpow_add₀ (by norm_num) a b

/-- A power of two with an exponent that is not negative is an integer. -/
theorem two_zpow_int {k : ℤ} (h : 0 ≤ k) : (2 : ℚ) ^ k = (((2 : ℤ) ^ k.toNat : ℤ) : ℚ) := by
  obtain ⟨n, rfl⟩ := Int.eq_ofNat_of_zero_le h
  simp

/-- The value of `fl` is a multiple of the spacing, and no multiple of the
spacing is nearer. -/
theorem fl_nearest_grid (q : ℚ) (w : ℤ) :
    |fl q - q| ≤ |(w : ℚ) * (2 : ℚ) ^ ulpExponent q - q| := by
  by_cases hq : q = 0
  · rw [hq, fl_zero]; simp
  · have hg := two_zpow_pos (ulpExponent q)
    have h := roundHalfEven_nearest (q / (2 : ℚ) ^ ulpExponent q) w
    unfold fl
    rw [if_neg hq]
    generalize (2 : ℚ) ^ ulpExponent q = g at hg h ⊢
    generalize roundHalfEven (q / g) = z at h ⊢
    have e1 : (z : ℚ) * g - q = g * ((z : ℚ) - q / g) := by field_simp
    have e2 : (w : ℚ) * g - q = g * ((w : ℚ) - q / g) := by field_simp
    rw [e1, e2, abs_mul, abs_mul, abs_of_pos hg]
    exact mul_le_mul_of_nonneg_left h hg.le

/-- No representable number is nearer to `q` than `fl q`. -/
theorem fl_nearest (q d : ℚ) (hd : Representable d) : |fl q - q| ≤ |d - q| := by
  obtain ⟨m, j, hm, hj, rfl⟩ := hd
  by_cases hq : q = 0
  · rw [hq, fl_zero]; simp
  by_cases hk : ulpExponent q ≤ j
  · -- `d` is a multiple of the spacing around `q`
    have e : (m : ℚ) * (2 : ℚ) ^ j
        = ((m * (2 : ℤ) ^ (j - ulpExponent q).toNat : ℤ) : ℚ) * (2 : ℚ) ^ ulpExponent q := by
      have : j = (j - ulpExponent q) + ulpExponent q := by ring
      rw [this, two_zpow_add, two_zpow_int (by omega : 0 ≤ j - ulpExponent q)]
      push_cast
      have h2 : j - ulpExponent q + ulpExponent q - ulpExponent q = j - ulpExponent q := by ring
      rw [h2]
      ring
    rw [e]
    exact fl_nearest_grid q _
  · -- `d` is smaller in magnitude than every double of the binade of `q`
    push_neg at hk
    have hex : ulpExponent q = floorLog2 q - 52 := by
      unfold ulpExponent at hk ⊢
      rcases le_total (floorLog2 q) (-1022) with h | h
      · rw [max_eq_right h] at hk; omega
      · rw [max_eq_left h]
    obtain ⟨hlo, -⟩ := floorLog2_spec q hq
    have hmq : |(m : ℚ)| ≤ (2 : ℚ) ^ (53 : ℤ) := by
      have : ((|m| : ℤ) : ℚ) ≤ ((2 ^ 53 : ℤ) : ℚ) := by exact_mod_cast hm
      rw [Int.cast_abs] at this
      calc |(m : ℚ)| ≤ ((2 ^ 53 : ℤ) : ℚ) := this
        _ = (2 : ℚ) ^ (53 : ℤ) := by norm_num
    have hd : |(m : ℚ) * (2 : ℚ) ^ j| ≤ (2 : ℚ) ^ floorLog2 q := by
      rw [abs_mul, abs_of_pos (two_zpow_pos j)]
      calc |(m : ℚ)| * (2 : ℚ) ^ j ≤ (2 : ℚ) ^ (53 : ℤ) * (2 : ℚ) ^ j :=
            mul_le_mul_of_nonneg_right hmq (two_zpow_pos j).le
        _ = (2 : ℚ) ^ (53 + j) := (two_zpow_add 53 j).symm
        _ ≤ (2 : ℚ) ^ floorLog2 q := two_zpow_le (by omega)
    have hgrid : (2 : ℚ) ^ floorLog2 q
        = (((2 : ℤ) ^ 52 : ℤ) : ℚ) * (2 : ℚ) ^ ulpExponent q := by
      have : floorLog2 q = 52 + ulpExponent q := by omega
      rw [this, two_zpow_add]
      norm_num
    rcases lt_or_gt_of_ne hq with hneg | hpos
    · have h1 := fl_nearest_grid q (-(2 : ℤ) ^ 52)
      have e : ((-(2 : ℤ) ^ 52 : ℤ) : ℚ) * (2 : ℚ) ^ ulpExponent q = -(2 : ℚ) ^ floorLog2 q := by
        rw [hgrid]; push_cast; ring
      rw [e] at h1
      rw [abs_of_neg hneg] at hlo
      have h2 : |-(2 : ℚ) ^ floorLog2 q - q| = -q - (2 : ℚ) ^ floorLog2 q := by
        rw [abs_of_nonneg (by linarith)]; ring
      rw [h2] at h1
      have h3 : -q - |(m : ℚ) * (2 : ℚ) ^ j| ≤ |(m : ℚ) * (2 : ℚ) ^ j - q| := by
        have := abs_sub_abs_le_abs_sub q ((m : ℚ) * (2 : ℚ) ^ j)
        rw [abs_of_neg hneg, abs_sub_comm] at this
        exact this
      linarith
    · have h1 := fl_nearest_grid q ((2 : ℤ) ^ 52)
      rw [← hgrid] at h1
      rw [abs_of_pos hpos] at hlo
      have h2 : |(2 : ℚ) ^ floorLog2 q - q| = q - (2 : ℚ) ^ floorLog2 q := by
        rw [abs_of_nonpos (by linarith)]; ring
      rw [h2] at h1
      have h3 : q - |(m : ℚ) * (2 : ℚ) ^ j| ≤ |(m : ℚ) * (2 : ℚ) ^ j - q| := by
        have := abs_sub_abs_le_abs_sub q ((m : ℚ) * (2 : ℚ) ^ j)
        rw [abs_of_pos hpos, abs_sub_comm] at this
        exact this
      linarith

theorem fl_of_representable (d : ℚ) (hd : Representable d) : fl d = d := by
  have h := fl_nearest d d hd
  rw [sub_self, abs_zero] at h
  have := abs_nonneg (fl d - d)
  have h0 : |fl d - d| = 0 := le_antisymm h this
  exact sub_eq_zero.mp (abs_eq_zero.mp h0)

theorem representable_fl (q : ℚ) : Representable (fl q) := by
  by_cases hq : q = 0
  · exact ⟨0, 0, by norm_num, by norm_num, by rw [hq, fl_zero]; simp⟩
  · refine ⟨roundHalfEven (q / (2 : ℚ) ^ ulpExponent q), ulpExponent q, ?_, ulpExponent_ge q, ?_⟩
    · obtain ⟨-, hhi⟩ := floorLog2_spec q hq
      have hg := two_zpow_pos (ulpExponent q)
      have hle := floorLog2_le_ulpExponent q
      have hb : |q / (2 : ℚ) ^ ulpExponent q| < (2 : ℚ) ^ (53 : ℤ) := by
        rw [abs_div, abs_of_pos hg, div_lt_iff₀ hg, ← two_zpow_add]
        exact lt_of_lt_of_le hhi (two_zpow_le (by omega))
      have hn := roundHalfEven_near (q / (2 : ℚ) ^ ulpExponent q)
      generalize roundHalfEven (q / (2 : ℚ) ^ ulpExponent q) = z at hn ⊢
      generalize q / (2 : ℚ) ^ ulpExponent q = t at hb hn
      have h53 : (2 : ℚ) ^ (53 : ℤ) = 9007199254740992 := by norm_num
      rw [h53] at hb
      have hz : |(z : ℚ)| < 9007199254740992 + 1 := by
        have := abs_sub_abs_le_abs_sub (z : ℚ) t
        linarith
      have hz2 : |z| < 9007199254740992 + 1 := by
        have : ((|z| : ℤ) : ℚ) < ((9007199254740992 + 1 : ℤ) : ℚ) := by
          rw [Int.cast_abs]; push_cast; linarith
        exact_mod_cast this
      have : (2 : ℤ) ^ 53 = 9007199254740992 := by norm_num
      omega
    · unfold fl
      rw [if_neg hq]

theorem fl_fl (q : ℚ) : fl (fl q) = fl q := fl_of_representable _ (representable_fl q)

/-- Rounding is monotone. -/
theorem fl_mono {a b : ℚ} (h : a ≤ b) : fl a ≤ fl b := by
  by_contra hlt
  push_neg at hlt
  have h1 := fl_nearest a (fl b) (representable_fl b)
  have h2 := fl_nearest b (fl a) (representable_fl a)
  rw [← sq_le_sq] at h1 h2
  have h3 : fl a + fl b ≤ 2 * a := by
    by_contra hc
    push_neg at hc
    nlinarith
  have h4 : 2 * b ≤ fl a + fl b := by
    by_contra hc
    push_neg at hc
    nlinarith
  have hab : a = b := le_antisymm h (by linarith)
  rw [hab] at hlt
  exact lt_irrefl _ hlt

theorem representable_neg (d : ℚ) (hd : Representable d) : Representable (-d) := by
  obtain ⟨m, j, hm, hj, rfl⟩ := hd
  exact ⟨-m, j, by rwa [abs_neg], hj, by push_cast; ring⟩

theorem representable_int (n : ℤ) (hn : |n| ≤ 2 ^ 53) : Representable (n : ℚ) :=
  ⟨n, 0, hn, by norm_num, by simp⟩

theorem fl_int (n : ℤ) (hn : |n| ≤ 2 ^ 53) : fl (n : ℚ) = n :=
  fl_of_representable _ (representable_int n hn)

/-- A multiple of `2 ^ k` of magnitude at most `2 ^ (k + 53)` is representable. -/
theorem representable_of_grid (z k : ℤ) (hk : -1074 ≤ k)
    (hz : |(z : ℚ) * (2 : ℚ) ^ k| ≤ (2 : ℚ) ^ (k + 53)) : Representable ((z : ℚ) * (2 : ℚ) ^ k) := by
  refine ⟨z, k, ?_, hk, rfl⟩
  rw [abs_mul, abs_of_pos (two_zpow_pos k), two_zpow_add, mul_comm ((2 : ℚ) ^ k)] at hz
  have h := le_of_mul_le_mul_right hz (two_zpow_pos k)
  have : ((|z| : ℤ) : ℚ) ≤ (((2 : ℤ) ^ 53 : ℤ) : ℚ) := by
    rw [Int.cast_abs]
    calc |(z : ℚ)| ≤ (2 : ℚ) ^ (53 : ℤ) := h
      _ = (((2 : ℤ) ^ 53 : ℤ) : ℚ) := by norm_num
  exact_mod_cast this

/-- A double of magnitude at least `2 ^ j` is a multiple of `2 ^ (j - 52)`. -/
theorem double_grid (x : ℚ) (hx : fl x = x) (j : ℤ) (hj : (2 : ℚ) ^ j ≤ |x|) :
    ∃ z : ℤ, x = (z : ℚ) * (2 : ℚ) ^ (j - 52) := by
  have hx0 : x ≠ 0 := by
    intro h
    rw [h, abs_zero] at hj
    exact absurd hj (not_le.mpr (two_zpow_pos j))
  obtain ⟨-, hhi⟩ := floorLog2_spec x hx0
  have hlt : (2 : ℚ) ^ j < (2 : ℚ) ^ (floorLog2 x + 1) := lt_of_le_of_lt hj hhi
  have hje : j < floorLog2 x + 1 := by
    by_contra hc
    push_neg at hc
    exact absurd (two_zpow_le hc) (not_le.mpr hlt)
  have hle := le_max_left (floorLog2 x) (-1022)
  have hk : 0 ≤ ulpExponent x - (j - 52) := by
    unfold ulpExponent
    omega
  refine ⟨roundHalfEven (x / (2 : ℚ) ^ ulpExponent x) * (2 : ℤ) ^ (ulpExponent x - (j - 52)).toNat, ?_⟩
  have e : (2 : ℚ) ^ ulpExponent x
      = (((2 : ℤ) ^ (ulpExponent x - (j - 52)).toNat : ℤ) : ℚ) * (2 : ℚ) ^ (j - 52) := by
    rw [← two_zpow_int hk, ← two_zpow_add]
    congr 1
    ring
  have hfl : fl x = (roundHalfEven (x / (2 : ℚ) ^ ulpExponent x) : ℚ) * (2 : ℚ) ^ ulpExponent x := by
    unfold fl
    rw [if_neg hx0]
  rw [hx] at hfl
  generalize roundHalfEven (x / (2 : ℚ) ^ ulpExponent x) = z at hfl ⊢
  calc x = (z : ℚ) * (2 : ℚ) ^ ulpExponent x := hfl
    _ = _ := by rw [e]; push_cast; ring

/-- A division of a double by 10 never rounds to an integer that is not the
exact quotient: for a double `x` and an integer `n`, not zero and below
`2 ^ 51` in magnitude, `fl (x / 10) = n` only if `x = 10 * n`. -/
theorem fl_div_ten_ne (x : ℚ) (hx : fl x = x) (n : ℤ) (hn0 : n ≠ 0)
    (hn : |n| < 2 ^ 51) (hne : x ≠ 10 * (n : ℚ)) : fl (x / 10) ≠ (n : ℚ) := by
  intro hfl
  have hnq : (n : ℚ) ≠ 0 := by exact_mod_cast hn0
  obtain ⟨hlo, hhi⟩ := floorLog2_spec (n : ℚ) hnq
  have habsq : |(n : ℚ)| = ((|n| : ℤ) : ℚ) := by rw [Int.cast_abs]
  have h1n : (1 : ℚ) ≤ |(n : ℚ)| := by
    rw [habsq]
    exact_mod_cast Int.one_le_abs hn0
  have hn51 : |(n : ℚ)| < (2 : ℚ) ^ (51 : ℤ) := by
    rw [habsq]
    have : ((|n| : ℤ) : ℚ) < (((2 : ℤ) ^ 51 : ℤ) : ℚ) := by exact_mod_cast hn
    calc ((|n| : ℤ) : ℚ) < (((2 : ℤ) ^ 51 : ℤ) : ℚ) := this
      _ = (2 : ℚ) ^ (51 : ℤ) := by norm_num
  generalize floorLog2 (n : ℚ) = e at hlo hhi
  have he0 : 0 ≤ e := by
    by_contra hc
    push_neg at hc
    have : (2 : ℚ) ^ (e + 1) ≤ (2 : ℚ) ^ (0 : ℤ) := two_zpow_le (by omega)
    rw [zpow_zero] at this
    linarith
  have he50 : e ≤ 50 := by
    by_contra hc
    push_neg at hc
    have : (2 : ℚ) ^ (51 : ℤ) ≤ (2 : ℚ) ^ e := two_zpow_le (by omega)
    linarith
  -- the spacing of the doubles just around `n`
  have hu : (0 : ℚ) < (2 : ℚ) ^ (e - 52) := two_zpow_pos _
  have hu4 : (2 : ℚ) ^ (e - 52) ≤ 1 / 4 := by
    have : (2 : ℚ) ^ (e - 52) ≤ (2 : ℚ) ^ (-2 : ℤ) := two_zpow_le (by omega)
    have h4 : (2 : ℚ) ^ (-2 : ℤ) = 1 / 4 := by norm_num
    rw [h4] at this
    exact this
  have hsplit : (2 : ℚ) ^ (e + 1) = (2 : ℚ) ^ (e - 52 + 53) := by congr 1; ring
  have hnint : (n : ℚ) = ((n * (2 : ℤ) ^ (52 - e).toNat : ℤ) : ℚ) * (2 : ℚ) ^ (e - 52) := by
    push_cast
    have h := two_zpow_int (by omega : 0 ≤ 52 - e)
    push_cast at h
    rw [← h, mul_assoc, ← two_zpow_add]
    have : 52 - e + (e - 52) = 0 := by ring
    rw [this, zpow_zero, mul_one]
  -- `|n| + u` stays below `2 ^ (e + 1)`
  have hmag : |(n : ℚ)| + (2 : ℚ) ^ (e - 52) ≤ (2 : ℚ) ^ (e + 1) := by
    have hpow : (2 : ℚ) ^ (e + 1) = (((2 : ℤ) ^ (e + 1).toNat : ℤ) : ℚ) :=
      two_zpow_int (by omega)
    rw [hpow, habsq] at hhi ⊢
    have hlt : |n| < (2 : ℤ) ^ (e + 1).toNat := by exact_mod_cast hhi
    have hle : |n| + 1 ≤ (2 : ℤ) ^ (e + 1).toNat := by omega
    have : ((|n| + 1 : ℤ) : ℚ) ≤ (((2 : ℤ) ^ (e + 1).toNat : ℤ) : ℚ) := by exact_mod_cast hle
    push_cast at this ⊢
    linarith
  have hrep1 : Representable ((n : ℚ) + (2 : ℚ) ^ (e - 52)) := by
    have e1 : (n : ℚ) + (2 : ℚ) ^ (e - 52)
        = ((n * (2 : ℤ) ^ (52 - e).toNat + 1 : ℤ) : ℚ) * (2 : ℚ) ^ (e - 52) := by
      conv_lhs => rw [hnint]
      push_cast
      ring
    rw [e1]
    apply representable_of_grid _ _ (by omega)
    rw [← e1, ← hsplit]
    calc |(n : ℚ) + (2 : ℚ) ^ (e - 52)| ≤ |(n : ℚ)| + |(2 : ℚ) ^ (e - 52)| := abs_add _ _
      _ = |(n : ℚ)| + (2 : ℚ) ^ (e - 52) := by rw [abs_of_pos hu]
      _ ≤ _ := hmag
  have hrep2 : Representable ((n : ℚ) - (2 : ℚ) ^ (e - 52)) := by
    have e1 : (n : ℚ) - (2 : ℚ) ^ (e - 52)
        = ((n * (2 : ℤ) ^ (52 - e).toNat - 1 : ℤ) : ℚ) * (2 : ℚ) ^ (e - 52) := by
      conv_lhs => rw [hnint]
      push_cast
      ring
    rw [e1]
    apply representable_of_grid _ _ (by omega)
    rw [← e1, ← hsplit]
    calc |(n : ℚ) - (2 : ℚ) ^ (e - 52)| ≤ |(n : ℚ)| + |(2 : ℚ) ^ (e - 52)| := abs_sub _ _
      _ = |(n : ℚ)| + (2 : ℚ) ^ (e - 52) := by rw [abs_of_pos hu]
      _ ≤ _ := hmag
  have hn1 := fl_nearest (x / 10) _ hrep1
  have hn2 := fl_nearest (x / 10) _ hrep2
  rw [hfl, ← sq_le_sq] at hn1 hn2
  generalize hu_def : (2 : ℚ) ^ (e - 52) = u at hu hu4 hn1 hn2 hmag
  -- `x` is within `5 * u` of `10 * n`
  have hnear1 : (10 : ℚ) * n - x ≤ 5 * u := by nlinarith
  have hnear2 : -(5 * u) ≤ (10 : ℚ) * n - x := by nlinarith
  -- so `x` is at least `2 ^ (e + 3)` in magnitude, and a multiple of `2 ^ (e - 49)`
  have hxbig : (2 : ℚ) ^ (e + 3) ≤ |x| := by
    have h8 : (2 : ℚ) ^ (e + 3) = 8 * (2 : ℚ) ^ e := by
      rw [two_zpow_add]; norm_num; ring
    rw [h8]
    have h1e : (1 : ℚ) ≤ (2 : ℚ) ^ e := by
      have := two_zpow_le he0
      rwa [zpow_zero] at this
    rcases abs_cases (n : ℚ) with ⟨ha, -⟩ | ⟨ha, -⟩
    · rw [ha] at hlo
      have : 8 * (2 : ℚ) ^ e ≤ x := by linarith
      exact le_trans this (le_abs_self x)
    · rw [ha] at hlo
      have : 8 * (2 : ℚ) ^ e ≤ -x := by linarith
      exact le_trans this (neg_le_abs x)
  obtain ⟨z, hz⟩ := double_grid x hx (e + 3) hxbig
  have hexp : e + 3 - 52 = e - 49 := by ring
  rw [hexp] at hz
  have h10 : (10 : ℚ) * n = ((5 * n * (2 : ℤ) ^ (50 - e).toNat : ℤ) : ℚ) * (2 : ℚ) ^ (e - 49) := by
    push_cast
    have h := two_zpow_int (by omega : 0 ≤ 50 - e)
    push_cast at h
    rw [← h, mul_assoc, ← two_zpow_add]
    have : 50 - e + (e - 49) = 1 := by ring
    rw [this]
    norm_num
    ring
  have h8u : (2 : ℚ) ^ (e - 49) = 8 * (2 : ℚ) ^ (e - 52) := by
    have : e - 49 = 3 + (e - 52) := by ring
    rw [this, two_zpow_add]
    norm_num
  rw [hu_def] at h8u
  have hdiff : (10 : ℚ) * n - x
      = ((5 * n * (2 : ℤ) ^ (50 - e).toNat - z : ℤ) : ℚ) * (8 * u) := by
    rw [h10, hz, h8u]
    push_cast
    ring
  have hwz : 5 * n * (2 : ℤ) ^ (50 - e).toNat - z ≠ 0 := by
    intro h
    apply hne
    have h0 : (10 : ℚ) * n - x = 0 := by rw [hdiff, h]; simp
    linarith
  have hone : (1 : ℚ) ≤ |((5 * n * (2 : ℤ) ^ (50 - e).toNat - z : ℤ) : ℚ)| := by
    rw [← Int.cast_abs]
    exact_mod_cast Int.one_le_abs hwz
  have habs : |(10 : ℚ) * n - x|
      = |((5 * n * (2 : ℤ) ^ (50 - e).toNat - z : ℤ) : ℚ)| * (8 * u) := by
    rw [hdiff, abs_mul, abs_of_pos (by linarith : (0 : ℚ) < 8 * u)]
  have hle : |(10 : ℚ) * n - x| ≤ 5 * u := abs_le.mpr ⟨hnear2, hnear1⟩
  rw [habs] at hle
  nlinarith


/-- For a double `x` that is zero or at least `2 ^ (-53)` (the number
1/9007199254740992) in magnitude, with
`fl (x / 10)` below `2 ^ 50` in magnitude, `Math.floor(x / 10) * 10` is at most
`x`: the rounding of the quotient does not lift it to the next integer. -/
theorem ten_floor_le (x : ℚ) (hx : fl x = x) (hx0 : x = 0 ∨ 1 / 9007199254740992 ≤ |x|)
    (hb : |fl (x / 10)| < (2 : ℚ) ^ (50 : ℤ)) :
    (10 : ℚ) * (⌊fl (x / 10)⌋ : ℚ) ≤ x := by
  by_contra hc
  push_neg at hc
  have hfloor := Int.floor_le (fl (x / 10))
  have hnb : |⌊fl (x / 10)⌋| < 2 ^ 51 := by
    have h1 := Int.floor_le (fl (x / 10))
    have h2 := Int.lt_floor_add_one (fl (x / 10))
    have h50 : (2 : ℚ) ^ (50 : ℤ) = 1125899906842624 := by norm_num
    rw [h50, abs_lt] at hb
    have h3 : (⌊fl (x / 10)⌋ : ℚ) < 1125899906842624 := by linarith
    have h4 : (-1125899906842624 - 1 : ℚ) < (⌊fl (x / 10)⌋ : ℚ) := by linarith
    have h5 : ⌊fl (x / 10)⌋ < 1125899906842624 := by exact_mod_cast h3
    have h6 : -1125899906842624 - 1 < ⌊fl (x / 10)⌋ := by exact_mod_cast h4
    rw [abs_lt]
    norm_num
    constructor <;> omega
  have hle : fl (x / 10) ≤ (⌊fl (x / 10)⌋ : ℚ) := by
    have := fl_mono (a := x / 10) (b := (⌊fl (x / 10)⌋ : ℚ)) (by linarith)
    rwa [fl_int _ (le_of_lt (lt_of_lt_of_le hnb (by norm_num)))] at this
  have heq : fl (x / 10) = (⌊fl (x / 10)⌋ : ℚ) := le_antisymm hle hfloor
  by_cases hn0 : ⌊fl (x / 10)⌋ = 0
  · rw [hn0] at hc heq
    simp only [Int.cast_zero, mul_zero] at hc heq
    rcases hx0 with h | h
    · rw [h] at hc; exact lt_irrefl _ hc
    · rw [abs_of_neg hc] at h
      have hrep : Representable (-(2 : ℚ) ^ (-57 : ℤ)) :=
        representable_neg _ ⟨1, -57, by norm_num, by norm_num, by simp⟩
      have h57 : x / 10 ≤ -(2 : ℚ) ^ (-57 : ℤ) := by
        have e : (1 : ℚ) / 9007199254740992 = 16 * (2 : ℚ) ^ (-57 : ℤ) := by norm_num
        rw [e] at h
        have hp : (0 : ℚ) < (2 : ℚ) ^ (-57 : ℤ) := by positivity
        generalize (2 : ℚ) ^ (-57 : ℤ) = p at h hp ⊢
        linarith
      have := fl_mono h57
      rw [fl_of_representable _ hrep, heq] at this
      have hp : (0 : ℚ) < (2 : ℚ) ^ (-57 : ℤ) := by positivity
      generalize (2 : ℚ) ^ (-57 : ℤ) = p at this hp
      linarith
  · exact fl_div_ten_ne x hx _ hn0 hnb (ne_of_lt hc) heq

/-- The mirror image of `ten_floor_le`: `Math.ceil(x / 10) * 10` is at least
`x`. -/
theorem le_ten_ceil (x : ℚ) (hx : fl x = x) (hx0 : x = 0 ∨ 1 / 9007199254740992 ≤ |x|)
    (hb : |fl (x / 10)| < (2 : ℚ) ^ (50 : ℤ)) :
    x ≤ (10 : ℚ) * (⌈fl (x / 10)⌉ : ℚ) := by
  by_contra hc
  push_neg at hc
  have hceil := Int.le_ceil (fl (x / 10))
  have hnb : |⌈fl (x / 10)⌉| < 2 ^ 51 := by
    have h1 := Int.le_ceil (fl (x / 10))
    have h2 := Int.ceil_lt_add_one (fl (x / 10))
    have h50 : (2 : ℚ) ^ (50 : ℤ) = 1125899906842624 := by norm_num
    rw [h50, abs_lt] at hb
    have h3 : (⌈fl (x / 10)⌉ : ℚ) < 1125899906842624 + 1 := by linarith
    have h4 : (-1125899906842624 : ℚ) < (⌈fl (x / 10)⌉ : ℚ) := by linarith
    have h5 : ⌈fl (x / 10)⌉ < 1125899906842624 + 1 := by exact_mod_cast h3
    have h6 : -1125899906842624 < ⌈fl (x / 10)⌉ := by exact_mod_cast h4
    rw [abs_lt]
    norm_num
    constructor <;> omega
  have hle : (⌈fl (x / 10)⌉ : ℚ) ≤ fl (x / 10) := by
    have := fl_mono (a := (⌈fl (x / 10)⌉ : ℚ)) (b := x / 10) (by linarith)
    rwa [fl_int _ (le_of_lt (lt_of_lt_of_le hnb (by norm_num)))] at this
  have heq : fl (x / 10) = (⌈fl (x / 10)⌉ : ℚ) := le_antisymm hceil hle
  by_cases hn0 : ⌈fl (x / 10)⌉ = 0
  · rw [hn0] at hc heq
    simp only [Int.cast_zero, mul_zero] at hc heq
    rcases hx0 with h | h
    · rw [h] at hc; exact lt_irrefl _ hc
    · rw [abs_of_pos hc] at h
      have hrep : Representable ((2 : ℚ) ^ (-57 : ℤ)) :=
        ⟨1, -57, by norm_num, by norm_num, by simp⟩
      have h57 : (2 : ℚ) ^ (-57 : ℤ) ≤ x / 10 := by
        have e : (1 : ℚ) / 9007199254740992 = 16 * (2 : ℚ) ^ (-57 : ℤ) := by norm_num
        rw [e] at h
        have hp : (0 : ℚ) < (2 : ℚ) ^ (-57 : ℤ) := by positivity
        generalize (2 : ℚ) ^ (-57 : ℤ) = p at h hp ⊢
        linarith
      have := fl_mono h57
      rw [fl_of_representable _ hrep, heq] at this
      have hp : (0 : ℚ) < (2 : ℚ) ^ (-57 : ℤ) := by positivity
      generalize (2 : ℚ) ^ (-57 : ℤ) = p at this hp
      linarith
  · exact fl_div_ten_ne x hx _ hn0 hnb (ne_of_gt hc) heq


/-! ### The chart layout on doubles -/

theorem representable_of_fl_eq {x : ℚ} (h : fl x = x) : Representable x := h ▸ representable_fl x

theorem fl_le_of_le {q d : ℚ} (hd : Representable d) (h : q ≤ d) : fl q ≤ d := by
  have := fl_mono h
  rwa [fl_of_representable _ hd] at this

theorem le_fl_of_le {q d : ℚ} (hd : Representable d) (h : d ≤ q) : d ≤ fl q := by
  have := fl_mono h
  rwa [fl_of_representable _ hd] at this

theorem abs_fl_le {q d : ℚ} (hd : Representable d) (h : |q| ≤ d) : |fl q| ≤ d := by
  rw [abs_le] at h ⊢
  exact ⟨le_fl_of_le (representable_neg _ hd) h.1, fl_le_of_le hd h.2⟩

theorem le_abs_fl {q d : ℚ} (hd : Representable d) (h : d ≤ |q|) : d ≤ |fl q| := by
  rcases le_total 0 q with hq | hq
  · rw [abs_of_nonneg hq] at h
    exact le_trans (le_fl_of_le hd h) (le_abs_self _)
  · rw [abs_of_nonpos hq] at h
    have h2 : fl q ≤ -d := fl_le_of_le (representable_neg _ hd) (by linarith)
    have := neg_le_abs (fl q)
    linarith

theorem fl_nonneg {q : ℚ} (h : 0 ≤ q) : 0 ≤ fl q := by
  have := fl_mono h
  rwa [fl_zero] at this

/-- An expression whose value is an integer of magnitude at most `2 ^ 53` is
computed exactly. -/
theorem fl_eq_int (q : ℚ) (z : ℤ) (h : q = (z : ℚ)) (hz : |z| ≤ 2 ^ 53) : fl q = q := by
  rw [h]
  exact fl_int z hz

theorem representable_two_zpow (k : ℤ) (hk : -1074 ≤ k) : Representable ((2 : ℚ) ^ k) :=
  ⟨1, k, by norm_num, hk, by simp⟩

/-- The difference of two doubles, the second of magnitude at least 1, is
zero or rounds to a double of magnitude at least `2 ^ (-53)`, the number
1/9007199254740992. -/
theorem fl_sub_zero_or (a b : ℚ) (ha : fl a = a) (hb : fl b = b) (hb1 : 1 ≤ |b|) :
    fl (a - b) = 0 ∨ 1 / 9007199254740992 ≤ |fl (a - b)| := by
  have e53 : (1 : ℚ) / 9007199254740992 = (2 : ℚ) ^ ((-1 : ℤ) - 52) := by norm_num
  by_cases h0 : a - b = 0
  · left; rw [h0, fl_zero]
  · right
    apply le_abs_fl (by rw [e53]; exact representable_two_zpow _ (by norm_num))
    by_cases ha2 : |a| < 1 / 2
    · have := abs_sub_abs_le_abs_sub b a
      rw [abs_sub_comm b a] at this
      linarith
    · push_neg at ha2
      have ha3 : (2 : ℚ) ^ (-1 : ℤ) ≤ |a| := by
        have : (2 : ℚ) ^ (-1 : ℤ) = 1 / 2 := by norm_num
        rw [this]; exact ha2
      have hb3 : (2 : ℚ) ^ (0 : ℤ) ≤ |b| := by rw [zpow_zero]; exact hb1
      obtain ⟨z1, hz1⟩ := double_grid a ha (-1) ha3
      obtain ⟨z2, hz2⟩ := double_grid b hb 0 hb3
      have e52 : (2 : ℚ) ^ ((0 : ℤ) - 52) = 2 * (2 : ℚ) ^ ((-1 : ℤ) - 52) := by norm_num
      rw [e52] at hz2
      have hu : (0 : ℚ) < (2 : ℚ) ^ ((-1 : ℤ) - 52) := by positivity
      rw [e53]
      generalize (2 : ℚ) ^ ((-1 : ℤ) - 52) = u at hz1 hz2 hu ⊢
      have hd : a - b = ((z1 - 2 * z2 : ℤ) : ℚ) * u := by
        rw [hz1, hz2]; push_cast; ring
      have hne : z1 - 2 * z2 ≠ 0 := by
        intro h
        apply h0
        rw [hd, h]; simp
      have hone : (1 : ℚ) ≤ |((z1 - 2 * z2 : ℤ) : ℚ)| := by
        rw [← Int.cast_abs]
        exact_mod_cast Int.one_le_abs hne
      rw [hd, abs_mul, abs_of_pos hu]
      nlinarith

theorem fl_add_zero_or (a b : ℚ) (ha : fl a = a) (hb : fl b = b) (hb1 : 1 ≤ |b|) :
    fl (a + b) = 0 ∨ 1 / 9007199254740992 ≤ |fl (a + b)| := by
  have hnb : fl (-b) = -b :=
    fl_of_representable _ (representable_neg _ (representable_of_fl_eq hb))
  have := fl_sub_zero_or a (-b) ha hnb (by rwa [abs_neg])
  rwa [sub_neg_eq_add] at this

theorem orNum_ne_zero (a : ℚ) : orNum a 1 ≠ 0 := by
  unfold orNum
  split_ifs with h
  · norm_num
  · exact h

/-- The pad of a series of doubles of magnitude at most `2 ^ 40`: a double
between 5 and `2 ^ 41`. -/
theorem padOf64_facts (mn mx : ℚ) (h1 : mn ≤ mx)
    (hmn : |mn| ≤ 1099511627776) (hmx : |mx| ≤ 1099511627776) :
    5 ≤ padOf64 mn mx ∧ padOf64 mn mx ≤ 2199023255552 ∧
      fl (padOf64 mn mx) = padOf64 mn mx := by
  have hr41 : Representable (2199023255552 : ℚ) := by
    have := representable_int 2199023255552 (by norm_num)
    simpa using this
  have hr1 : Representable (1 : ℚ) := by
    have := representable_int 1 (by norm_num)
    simpa using this
  have hr5 : Representable (5 : ℚ) := by
    have := representable_int 5 (by norm_num)
    simpa using this
  rw [abs_le] at hmn hmx
  have hd0 : 0 ≤ fl (mx - mn) := fl_nonneg (by linarith)
  have hd1 : fl (mx - mn) ≤ 2199023255552 := fl_le_of_le hr41 (by linarith)
  have hrange : 0 ≤ orNum (fl (mx - mn)) 1 ∧ orNum (fl (mx - mn)) 1 ≤ 2199023255552 := by
    unfold orNum
    split_ifs <;> constructor <;> linarith
  have hc0 : 0 ≤ fl (15 / 100) := fl_nonneg (by norm_num)
  have hc1 : fl (15 / 100) ≤ 1 := fl_le_of_le hr1 (by norm_num)
  have hp0 : fl (orNum (fl (mx - mn)) 1 * fl (15 / 100)) ≤ 2199023255552 := by
    apply fl_le_of_le hr41
    nlinarith
  unfold padOf64
  refine ⟨le_max_left _ _, max_le (by norm_num) hp0, ?_⟩
  rcases max_choice (5 : ℚ) (fl (orNum (fl (mx - mn)) 1 * fl (15 / 100))) with h | h
  · rw [h]; exact fl_of_representable _ hr5
  · rw [h]; exact fl_fl _

/-- A multiple of `2 ^ k` of magnitude at most `2 ^ (k + 53)` is computed
exactly. -/
theorem fl_eq_grid (q : ℚ) (z k : ℤ) (h : q = (z : ℚ) * (2 : ℚ) ^ k) (hk : -1074 ≤ k)
    (hb : |q| ≤ (2 : ℚ) ^ (k + 53)) : fl q = q := by
  rw [h] at hb ⊢
  exact fl_of_representable _ (representable_of_grid z k hk hb)

theorem representable_ofNat (n : ℕ) (hn : n ≤ 2 ^ 53) : Representable (n : ℚ) := by
  have := representable_int (n : ℤ) (by rw [abs_of_nonneg (by positivity)]; exact_mod_cast hn)
  simpa using this

/-- The raw bounds of a series of doubles of magnitude at most `2 ^ 40`: they
lie strictly outside the data, stay below `2 ^ 42` in magnitude, and each is
zero or at least `2 ^ (-53)` in magnitude. -/
theorem raw_bounds64 (mn mx : ℚ) (hmn : fl mn = mn) (hmx : fl mx = mx) (h1 : mn ≤ mx)
    (bmn : |mn| ≤ 1099511627776) (bmx : |mx| ≤ 1099511627776) :
    fl (mn - padOf64 mn mx) < mn ∧ mx < fl (mx + padOf64 mn mx) ∧
    |fl (mn - padOf64 mn mx)| ≤ 4398046511104 ∧ |fl (mx + padOf64 mn mx)| ≤ 4398046511104 ∧
    (fl (mn - padOf64 mn mx) = 0 ∨ 1 / 9007199254740992 ≤ |fl (mn - padOf64 mn mx)|) ∧
    (fl (mx + padOf64 mn mx) = 0 ∨ 1 / 9007199254740992 ≤ |fl (mx + padOf64 mn mx)|) := by
  obtain ⟨hp5, hp41, hpfl⟩ := padOf64_facts mn mx h1 bmn bmx
  generalize padOf64 mn mx = pad at hp5 hp41 hpfl ⊢
  have hr42 : Representable (4398046511104 : ℚ) := by
    have := representable_int 4398046511104 (by norm_num)
    simpa using this
  have hpabs : 1 ≤ |pad| := by rw [abs_of_nonneg (by linarith)]; linarith
  rw [abs_le] at bmn bmx
  refine ⟨?_, ?_, ?_, ?_, fl_sub_zero_or mn pad hmn hpfl hpabs, fl_add_zero_or mx pad hmx hpfl hpabs⟩
  · -- an integer lies between `mn - 5` and `mn`
    have hc1 := Int.le_ceil mn
    have hc2 := Int.ceil_lt_add_one mn
    have hb1 : ⌈mn⌉ ≤ 1099511627776 := Int.ceil_le.mpr (by push_cast; linarith)
    have hb2 : -1099511627776 ≤ ⌈mn⌉ := by
      have : ((-1099511627776 : ℤ) : ℚ) ≤ (⌈mn⌉ : ℚ) := by push_cast; linarith
      exact_mod_cast this
    have hrep : Representable ((⌈mn⌉ - 1 : ℤ) : ℚ) :=
      representable_int _ (by rw [abs_le]; constructor <;> norm_num <;> omega)
    have hle : fl (mn - pad) ≤ ((⌈mn⌉ - 1 : ℤ) : ℚ) :=
      fl_le_of_le hrep (by push_cast; linarith)
    push_cast at hle
    linarith
  · have hc1 := Int.floor_le mx
    have hc2 := Int.lt_floor_add_one mx
    have hb1 : ⌊mx⌋ ≤ 1099511627776 := by
      have : (⌊mx⌋ : ℚ) ≤ ((1099511627776 : ℤ) : ℚ) := by push_cast; linarith
      exact_mod_cast this
    have hb2 : -1099511627776 ≤ ⌊mx⌋ := Int.le_floor.mpr (by push_cast; linarith)
    have hrep : Representable ((⌊mx⌋ + 1 : ℤ) : ℚ) :=
      representable_int _ (by rw [abs_le]; constructor <;> norm_num <;> omega)
    have hle : ((⌊mx⌋ + 1 : ℤ) : ℚ) ≤ fl (mx + pad) :=
      le_fl_of_le hrep (by push_cast; linarith)
    push_cast at hle
    linarith
  · exact abs_fl_le hr42 (by rw [abs_le]; constructor <;> linarith)
  · exact abs_fl_le hr42 (by rw [abs_le]; constructor <;> linarith)

theorem abs_fl_div_ten (x : ℚ) (hb : |x| ≤ 4398046511104) : |fl (x / 10)| ≤ 549755813888 := by
  have hr : Representable (549755813888 : ℚ) := by
    have := representable_int 549755813888 (by norm_num)
    simpa using this
  apply abs_fl_le hr
  rw [abs_le] at hb ⊢
  constructor <;> linarith

/-- Line 383 on a double of magnitude at most `2 ^ 42` that is zero or at least
`2 ^ (-53)` in magnitude: ten times an integer, and at most the argument. -/
theorem floorTen64_facts (x : ℚ) (hx : fl x = x) (hb : |x| ≤ 4398046511104)
    (hx0 : x = 0 ∨ 1 / 9007199254740992 ≤ |x|) :
    floorTen64 x = 10 * (⌊fl (x / 10)⌋ : ℚ) ∧ 10 * (⌊fl (x / 10)⌋ : ℚ) ≤ x ∧
      |⌊fl (x / 10)⌋| ≤ 549755813888 := by
  have hq := abs_fl_div_ten x hb
  have hn : |⌊fl (x / 10)⌋| ≤ 549755813888 := by
    rw [abs_le] at hq ⊢
    constructor
    · exact Int.le_floor.mpr (by push_cast; linarith)
    · have h1 := Int.floor_le (fl (x / 10))
      have : (⌊fl (x / 10)⌋ : ℚ) ≤ ((549755813888 : ℤ) : ℚ) := by push_cast; linarith
      exact_mod_cast this
  refine ⟨?_, ten_floor_le x hx hx0 (lt_of_le_of_lt hq (by norm_num)), hn⟩
  unfold floorTen64
  rw [mul_comm]
  apply fl_eq_int _ (10 * ⌊fl (x / 10)⌋) (by push_cast; ring)
  rw [abs_le] at hn ⊢
  constructor <;> norm_num <;> omega

/-- Line 384 on a double of magnitude at most `2 ^ 42` that is zero or at least
`2 ^ (-53)` in magnitude: ten times an integer, and at least the argument. -/
theorem ceilTen64_facts (x : ℚ) (hx : fl x = x) (hb : |x| ≤ 4398046511104)
    (hx0 : x = 0 ∨ 1 / 9007199254740992 ≤ |x|) :
    ceilTen64 x = 10 * (⌈fl (x / 10)⌉ : ℚ) ∧ x ≤ 10 * (⌈fl (x / 10)⌉ : ℚ) ∧
      |⌈fl (x / 10)⌉| ≤ 549755813888 := by
  have hq := abs_fl_div_ten x hb
  have hn : |⌈fl (x / 10)⌉| ≤ 549755813888 := by
    rw [abs_le] at hq ⊢
    constructor
    · have h1 := Int.le_ceil (fl (x / 10))
      have : ((-549755813888 : ℤ) : ℚ) ≤ (⌈fl (x / 10)⌉ : ℚ) := by push_cast; linarith
      exact_mod_cast this
    · exact Int.ceil_le.mpr (by push_cast; linarith)
  refine ⟨?_, le_ten_ceil x hx hx0 (lt_of_le_of_lt hq (by norm_num)), hn⟩
  unfold ceilTen64
  rw [mul_comm]
  apply fl_eq_int _ (10 * ⌈fl (x / 10)⌉) (by push_cast; ring)
  rw [abs_le] at hn ⊢
  constructor <;> norm_num <;> omega

/-- Line 388 on two multiples of 10 in the right order: the step is ten times
the quarter of their distance in tens, rounded up, and every operation is
exact. -/
theorem stepCeil64_int (n1 n2 : ℤ) (h : n1 < n2) (b1 : |n1| ≤ 549755813888)
    (b2 : |n2| ≤ 549755813888) :
    stepCeil64 (10 * (n1 : ℚ)) (10 * (n2 : ℚ)) = 10 * (⌈((n2 - n1 : ℤ) : ℚ) / 4⌉ : ℚ) ∧
      1 ≤ ⌈((n2 - n1 : ℤ) : ℚ) / 4⌉ ∧ ⌈((n2 - n1 : ℤ) : ℚ) / 4⌉ ≤ 274877906945 ∧
      n2 - n1 ≤ 4 * ⌈((n2 - n1 : ℤ) : ℚ) / 4⌉ := by
  rw [abs_le] at b1 b2
  have hi1 : 1 ≤ n2 - n1 := by omega
  have hi2 : n2 - n1 ≤ 1099511627776 := by omega
  have e0 : 10 * (n2 : ℚ) - 10 * (n1 : ℚ) = ((10 * (n2 - n1) : ℤ) : ℚ) := by push_cast; ring
  generalize n2 - n1 = d at hi1 hi2 e0 ⊢
  have hd1 : (1 : ℚ) ≤ (d : ℚ) := by exact_mod_cast hi1
  have hd2 : (d : ℚ) ≤ 1099511627776 := by exact_mod_cast hi2
  have e1 : fl (10 * (n2 : ℚ) - 10 * (n1 : ℚ)) = 10 * (d : ℚ) := by
    have := fl_eq_int (10 * (n2 : ℚ) - 10 * (n1 : ℚ)) (10 * d) e0
      (by rw [abs_le]; constructor <;> norm_num <;> omega)
    rw [this, e0]; push_cast; ring
  have e2 : fl (10 * (d : ℚ) / 4) = 10 * (d : ℚ) / 4 := by
    apply fl_eq_grid _ (5 * d) (-1) (by push_cast; norm_num; ring) (by norm_num)
    rw [abs_of_nonneg (by linarith)]
    norm_num
    linarith
  have e3 : fl (10 * (d : ℚ) / 4 / 10) = (d : ℚ) / 4 := by
    have e : 10 * (d : ℚ) / 4 / 10 = (d : ℚ) / 4 := by ring
    rw [e]
    apply fl_eq_grid _ d (-2) (by norm_num; ring) (by norm_num)
    rw [abs_of_nonneg (by linarith)]
    norm_num
    linarith
  have hk1 : 1 ≤ ⌈(d : ℚ) / 4⌉ := by
    have : 0 < ⌈(d : ℚ) / 4⌉ := Int.ceil_pos.mpr (by linarith)
    omega
  have hk2 : ⌈(d : ℚ) / 4⌉ ≤ 274877906945 :=
    Int.ceil_le.mpr (by push_cast; linarith)
  have hk3 : d ≤ 4 * ⌈(d : ℚ) / 4⌉ := by
    have := Int.le_ceil ((d : ℚ) / 4)
    have h4 : (d : ℚ) ≤ ((4 * ⌈(d : ℚ) / 4⌉ : ℤ) : ℚ) := by
      push_cast; linarith
    exact_mod_cast h4
  refine ⟨?_, hk1, hk2, hk3⟩
  unfold stepCeil64
  rw [e1, e2, e3, mul_comm]
  apply fl_eq_int _ (10 * ⌈(d : ℚ) / 4⌉) (by push_cast; ring)
  rw [abs_le]
  constructor <;> norm_num <;> omega

theorem growStep64_done (minBound maxBoundRaw : ℚ) (fuel : ℕ) (step maxBound : ℚ)
    (h : maxBoundRaw ≤ maxBound) :
    growStep64 minBound maxBoundRaw (fuel + 1) step maxBound = some (step, maxBound) := by
  simp [growStep64, not_lt.mpr h]

/-- The five gridline values when the lower bound is `10 * n1` and the step is
`10 * k`: every operation is exact. -/
theorem ticks64 (n1 k : ℤ) (b1 : |n1| ≤ 549755813888) (hk1 : 1 ≤ k) (hk2 : k ≤ 274877906945) :
    (List.range 5).map
        (fun (idx : ℕ) => fl ((10 * (n1 : ℚ) + 40 * (k : ℚ)) - fl (10 * (k : ℚ) * (idx : ℚ))))
      = [10 * (n1 : ℚ) + 40 * (k : ℚ), 10 * (n1 : ℚ) + 30 * (k : ℚ), 10 * (n1 : ℚ) + 20 * (k : ℚ),
          10 * (n1 : ℚ) + 10 * (k : ℚ), 10 * (n1 : ℚ)] := by
  rw [abs_le] at b1
  have hs : ∀ i : ℤ, 0 ≤ i → i ≤ 4 → fl (10 * (k : ℚ) * (i : ℚ)) = 10 * (k : ℚ) * (i : ℚ) := by
    intro i h0 h4
    apply fl_eq_int _ (10 * k * i) (by push_cast; ring)
    rw [abs_le]
    constructor <;> nlinarith
  have ht : ∀ i : ℤ, 0 ≤ i → i ≤ 4 →
      fl ((10 * (n1 : ℚ) + 40 * (k : ℚ)) - 10 * (k : ℚ) * (i : ℚ))
        = 10 * (n1 : ℚ) + 40 * (k : ℚ) - 10 * (k : ℚ) * (i : ℚ) := by
    intro i h0 h4
    apply fl_eq_int _ (10 * n1 + 40 * k - 10 * k * i) (by push_cast; ring)
    rw [abs_le]
    constructor <;> nlinarith
  have e : List.range 5 = [0, 1, 2, 3, 4] := by decide
  rw [e]
  have h0 := hs 0 (by norm_num) (by norm_num)
  have h1 := hs 1 (by norm_num) (by norm_num)
  have h2 := hs 2 (by norm_num) (by norm_num)
  have h3 := hs 3 (by norm_num) (by norm_num)
  have h4 := hs 4 (by norm_num) (by norm_num)
  have t0 := ht 0 (by norm_num) (by norm_num)
  have t1 := ht 1 (by norm_num) (by norm_num)
  have t2 := ht 2 (by norm_num) (by norm_num)
  have t3 := ht 3 (by norm_num) (by norm_num)
  have t4 := ht 4 (by norm_num) (by norm_num)
  push_cast at h0 h1 h2 h3 h4 t0 t1 t2 t3 t4
  simp only [List.map_cons, List.map_nil, Nat.cast_zero, Nat.cast_one, Nat.cast_ofNat,
    h0, h1, h2, h3, h4, t0, t1, t2, t3, t4]
  norm_num
  refine ⟨?_, ?_, ?_, ?_⟩ <;> ring

/-- The chart of a non-empty series of doubles of magnitude at most `2 ^ 40`
that the engine accepts as arguments: with `n1` the rounded-down tenth of the
raw lower bound, `n2` the rounded-up tenth of the raw upper bound and `k` the
rounded-up quarter of `n2 - n1`, the bounds are `10 * n1` and `10 * n1 + 40 * k`
and the step is `10 * k`; neither guard is taken and the loop makes no pass. -/
theorem axis64 (maxArgs fuel : ℕ) (v : ℚ) (vs : List ℚ) (hlen : (v :: vs).length ≤ maxArgs)
    (hd : ∀ x ∈ v :: vs, fl x = x ∧ |x| ≤ 1099511627776) :
    ∃ n1 n2 k : ℤ,
      n1 = ⌊fl (fl (jsMin v vs - padOf64 (jsMin v vs) (jsMax v vs)) / 10)⌋ ∧
      n2 = ⌈fl (fl (jsMax v vs + padOf64 (jsMin v vs) (jsMax v vs)) / 10)⌉ ∧
      k = ⌈((n2 - n1 : ℤ) : ℚ) / 4⌉ ∧
      n1 < n2 ∧ 1 ≤ k ∧ n2 - n1 ≤ 4 * k ∧
      |n1| ≤ 549755813888 ∧ |n2| ≤ 549755813888 ∧ k ≤ 274877906945 ∧
      floorTen64 (fl (jsMin v vs - padOf64 (jsMin v vs) (jsMax v vs))) = 10 * (n1 : ℚ) ∧
      ceilTen64 (fl (jsMax v vs + padOf64 (jsMin v vs) (jsMax v vs))) = 10 * (n2 : ℚ) ∧
      widenBound64 (10 * (n1 : ℚ)) (10 * (n2 : ℚ)) = 10 * (n2 : ℚ) ∧
      stepCeil64 (10 * (n1 : ℚ)) (10 * (n2 : ℚ)) = 10 * (k : ℚ) ∧
      stepFloor64 (10 * (k : ℚ)) = 10 * (k : ℚ) ∧
      fl (10 * (n1 : ℚ) + fl (10 * (k : ℚ) * 4)) = 10 * (n1 : ℚ) + 40 * (k : ℚ) ∧
      10 * (n1 : ℚ) ≤ fl (jsMin v vs - padOf64 (jsMin v vs) (jsMax v vs)) ∧
      fl (jsMin v vs - padOf64 (jsMin v vs) (jsMax v vs)) < jsMin v vs ∧
      jsMax v vs < fl (jsMax v vs + padOf64 (jsMin v vs) (jsMax v vs)) ∧
      fl (jsMax v vs + padOf64 (jsMin v vs) (jsMax v vs)) ≤ 10 * (n2 : ℚ) ∧
      createSparkline64 maxArgs (fuel + 1) (v :: vs) = some (Sparkline64.chart
        { min := jsMin v vs
          max := jsMax v vs
          pad := padOf64 (jsMin v vs) (jsMax v vs)
          minBoundRaw := fl (jsMin v vs - padOf64 (jsMin v vs) (jsMax v vs))
          maxBoundRaw := fl (jsMax v vs + padOf64 (jsMin v vs) (jsMax v vs))
          minBound := 10 * (n1 : ℚ)
          maxBound := 10 * (n1 : ℚ) + 40 * (k : ℚ)
          step := 10 * (k : ℚ)
          boundedRange := 40 * (k : ℚ)
          coords := (v :: vs).enum.map
            (fun p => coordOf64 (v :: vs).length (10 * (n1 : ℚ)) (40 * (k : ℚ)) p.1 p.2)
          yTickValues :=
            [10 * (n1 : ℚ) + 40 * (k : ℚ), 10 * (n1 : ℚ) + 30 * (k : ℚ),
              10 * (n1 : ℚ) + 20 * (k : ℚ), 10 * (n1 : ℚ) + 10 * (k : ℚ), 10 * (n1 : ℚ)] }) := by
  obtain ⟨hmnfl, hmnb⟩ := hd _ (jsMin_mem v vs)
  obtain ⟨hmxfl, hmxb⟩ := hd _ (jsMax_mem v vs)
  have hle := jsMin_le_jsMax v vs
  obtain ⟨hlo, hhi, hb1, hb2, hz1, hz2⟩ :=
    raw_bounds64 (jsMin v vs) (jsMax v vs) hmnfl hmxfl hle hmnb hmxb
  obtain ⟨hF, hFle, hn1⟩ := floorTen64_facts _ (fl_fl _) hb1 hz1
  obtain ⟨hC, hCle, hn2⟩ := ceilTen64_facts _ (fl_fl _) hb2 hz2
  generalize hmn : jsMin v vs = mn at *
  generalize hmx : jsMax v vs = mx at *
  generalize hpad : padOf64 mn mx = pad at *
  generalize hminRaw : fl (mn - pad) = minRaw at *
  generalize hmaxRaw : fl (mx + pad) = maxRaw at *
  generalize hn1def : ⌊fl (minRaw / 10)⌋ = n1 at *
  generalize hn2def : ⌈fl (maxRaw / 10)⌉ = n2 at *
  have hlt : n1 < n2 := by
    have : (n1 : ℚ) < (n2 : ℚ) := by linarith
    exact_mod_cast this
  obtain ⟨hS, hk1, hk2, hk3⟩ := stepCeil64_int n1 n2 hlt hn1 hn2
  generalize hkdef : ⌈((n2 - n1 : ℤ) : ℚ) / 4⌉ = k at *
  have hn1' := abs_le.mp hn1
  have hn2' := abs_le.mp hn2
  have hW : widenBound64 (10 * (n1 : ℚ)) (10 * (n2 : ℚ)) = 10 * (n2 : ℚ) := by
    unfold widenBound64
    rw [if_neg]
    have : (n1 : ℚ) < (n2 : ℚ) := by exact_mod_cast hlt
    linarith
  have hSF : stepFloor64 (10 * (k : ℚ)) = 10 * (k : ℚ) := by
    unfold stepFloor64
    rw [if_neg]
    have : (1 : ℚ) ≤ (k : ℚ) := by exact_mod_cast hk1
    linarith
  have h40 : fl (10 * (k : ℚ) * 4) = 40 * (k : ℚ) := by
    have := fl_eq_int (10 * (k : ℚ) * 4) (40 * k) (by push_cast; ring)
      (by rw [abs_le]; constructor <;> norm_num <;> omega)
    rw [this]; ring
  have hM : fl (10 * (n1 : ℚ) + fl (10 * (k : ℚ) * 4)) = 10 * (n1 : ℚ) + 40 * (k : ℚ) := by
    rw [h40]
    exact fl_eq_int _ (10 * n1 + 40 * k) (by push_cast; ring)
      (by rw [abs_le]; constructor <;> norm_num <;> omega)
  have hcover : maxRaw ≤ 10 * (n1 : ℚ) + 40 * (k : ℚ) := by
    have : ((n2 - n1 : ℤ) : ℚ) ≤ ((4 * k : ℤ) : ℚ) := by exact_mod_cast hk3
    push_cast at this
    linarith
  have hBR : orNum (fl (10 * (n1 : ℚ) + 40 * (k : ℚ) - 10 * (n1 : ℚ))) 1 = 40 * (k : ℚ) := by
    have e : fl (10 * (n1 : ℚ) + 40 * (k : ℚ) - 10 * (n1 : ℚ)) = 40 * (k : ℚ) := by
      have := fl_eq_int (10 * (n1 : ℚ) + 40 * (k : ℚ) - 10 * (n1 : ℚ)) (40 * k)
        (by push_cast; ring) (by rw [abs_le]; constructor <;> norm_num <;> omega)
      rw [this]; ring
    rw [e]
    unfold orNum
    rw [if_neg]
    have : (1 : ℚ) ≤ (k : ℚ) := by exact_mod_cast hk1
    linarith
  have hT := ticks64 n1 k hn1 hk1 hk2
  refine ⟨n1, n2, k, rfl, rfl, hkdef.symm, hlt, hk1, hk3, hn1, hn2, hk2, hF, hC, hW, hS, hSF, hM,
    hFle, hlo, hhi, hCle, ?_⟩
  unfold createSparkline64
  simp only [not_lt.mpr hlen, if_false, hmn, hmx, hpad, hminRaw, hmaxRaw, hF, hC, hW, hS, hSF, hM,
    growStep64_done _ _ _ _ _ hcover, hBR, hT]

/-- A series of doubles of magnitude at most `2 ^ 40`, in the form that the
lemmas on the axis take. -/
theorem bounded_series (values : List ℚ) (hd : ∀ x ∈ values, fl x = x ∧ |x| ≤ 2 ^ 40) :
    ∀ x ∈ values, fl x = x ∧ |x| ≤ 1099511627776 := by
  intro x hx
  have h := hd x hx
  norm_num at h
  exact h

theorem jsMin_least (v : ℚ) (vs : List ℚ) : ∀ x ∈ v :: vs, jsMin v vs ≤ x := by
  intro x hx
  rcases List.mem_cons.mp hx with rfl | hx
  · exact jsMin_le_head x vs
  · exact jsMin_le_of_mem v vs x hx

theorem jsMax_greatest (v : ℚ) (vs : List ℚ) : ∀ x ∈ v :: vs, x ≤ jsMax v vs := by
  intro x hx
  rcases List.mem_cons.mp hx with rfl | hx
  · exact head_le_jsMax x vs
  · exact le_jsMax_of_mem v vs x hx

/-- C1, as the code has it on doubles: for every non-empty series of doubles of
magnitude at most `2 ^ 40` that the engine accepts as arguments,
`createSparkline` returns a chart whose bounds contain the padded data as the
engine computes it. With `min` and `max` the least and the greatest sample,
`pad = Math.max(5, range * 0.15)` for `range = max - min || 1`, and the raw
bounds `min - pad` and `max + pad` rounded to doubles, the final lower bound is
at most the raw lower bound, which is below `min`, and the final upper bound is
at least the raw upper bound, which is above `max`; so every sample lies
strictly between the final bounds. -/
theorem createSparkline64_bounds_contain_padded_data (maxArgs fuel : ℕ) (values : List ℚ)
    (hne : values ≠ []) (hlen : values.length ≤ maxArgs)
    (hd : ∀ x ∈ values, fl x = x ∧ |x| ≤ 2 ^ 40) :
    ∃ c : Chart64, createSparkline64 maxArgs (fuel + 1) values = some (Sparkline64.chart c) ∧
      (c.min ∈ values ∧ ∀ x ∈ values, c.min ≤ x) ∧
      (c.max ∈ values ∧ ∀ x ∈ values, x ≤ c.max) ∧
      c.pad = Max.max 5
        (fl ((if fl (c.max - c.min) = 0 then 1 else fl (c.max - c.min)) * fl (15 / 100))) ∧
      c.minBoundRaw = fl (c.min - c.pad) ∧ c.maxBoundRaw = fl (c.max + c.pad) ∧
      c.minBound ≤ c.minBoundRaw ∧ c.minBoundRaw < c.min ∧
      c.max < c.maxBoundRaw ∧ c.maxBoundRaw ≤ c.maxBound ∧
      ∀ x ∈ values, c.minBound < x ∧ x < c.maxBound := by
  cases values with
  | nil => exact absurd rfl hne
  | cons v vs =>
    obtain ⟨n1, n2, k, -, -, -, -, -, hk3, -, -, -, -, -, -, -, -, -, hFle, hlo, hhi, hCle, hc⟩ :=
      axis64 maxArgs fuel v vs hlen (bounded_series _ hd)
    have hcover : (10 : ℚ) * (n2 : ℚ) ≤ 10 * (n1 : ℚ) + 40 * (k : ℚ) := by
      have : ((n2 - n1 : ℤ) : ℚ) ≤ ((4 * k : ℤ) : ℚ) := by exact_mod_cast hk3
      push_cast at this
      linarith
    refine ⟨_, hc, ⟨jsMin_mem v vs, jsMin_least v vs⟩, ⟨jsMax_mem v vs, jsMax_greatest v vs⟩,
      rfl, rfl, rfl, hFle, hlo, hhi, le_trans hCle hcover, ?_⟩
    intro x hx
    have h1 := jsMin_least v vs x hx
    have h2 := jsMax_greatest v vs x hx
    dsimp only
    constructor <;> linarith

set_option maxRecDepth 1000000 in
/-- Instance of C1 at the series 80, 95, 110, 105: every sample lies strictly
between the bounds. -/
theorem createSparkline64_bounds_contain_padded_data_witness :
    (∀ x ∈ ([80, 95, 110, 105] : List ℚ), fl x = x ∧ |x| ≤ 2 ^ 40) ∧
    ∃ c : Chart64, createSparkline64 4 1 [80, 95, 110, 105] = some (Sparkline64.chart c) ∧
      c.minBound ≤ c.minBoundRaw ∧ c.maxBoundRaw ≤ c.maxBound ∧
      ∀ x ∈ ([80, 95, 110, 105] : List ℚ), c.minBound < x ∧ x < c.maxBound :=
  have hd : ∀ x ∈ ([80, 95, 110, 105] : List ℚ), fl x = x ∧ |x| ≤ 2 ^ 40 := by
    intro x hx
    simp only [List.mem_cons, List.mem_singleton, List.not_mem_nil, or_false] at hx
    rcases hx with rfl | rfl | rfl | rfl <;> exact ⟨by with_unfolding_all rfl, by norm_num⟩
  match createSparkline64_bounds_contain_padded_data 4 0 [80, 95, 110, 105] (by simp) (by simp) hd
    with
  | ⟨c, hc, _, _, _, _, _, h1, _, _, h2, h3⟩ => ⟨hd, c, hc, h1, h2, h3⟩

set_option maxRecDepth 1000000 in
/-- The original C1 fails on doubles: the one-sample series 8.9e23, the double
889999999999999995805696, gets the lower bound 890000000000000130023424, which
is above the sample, and an upper bound equal to the lower one. -/
theorem createSparkline64_large_sample_below_bounds :
    fl 889999999999999995805696 = 889999999999999995805696 ∧
    createSparkline64 65536 1 [889999999999999995805696] = some (Sparkline64.chart
      { min := 889999999999999995805696, max := 889999999999999995805696, pad := 5,
        minBoundRaw := 889999999999999995805696, maxBoundRaw := 889999999999999995805696,
        minBound := 890000000000000130023424, maxBound := 890000000000000130023424, step := 10,
        boundedRange := 1, coords := [(439, 19058917530)],
        yTickValues := [890000000000000130023424, 890000000000000130023424,
          890000000000000130023424, 890000000000000130023424, 890000000000000130023424] }) ∧
    (889999999999999995805696 : ℚ) < 890000000000000130023424 :=
  ⟨by with_unfolding_all rfl, by with_unfolding_all rfl, by norm_num⟩

/-- C2, as the code has it on doubles: for every non-empty series of doubles of
magnitude at most `2 ^ 40` that the engine accepts as arguments,
`createSparkline` emits exactly the five gridline values `maxBound`,
`maxBound - step`, ..., `maxBound - 4 * step`, each computed without rounding
error; `step` is a positive multiple of 10, every gridline value is a multiple
of 10, the top gridline is the upper bound and the bottom gridline is the lower
bound `minBound`, which is `Math.floor(minBoundRaw / 10) * 10` for the raw lower
bound `min - pad`. -/
theorem createSparkline64_five_gridlines (maxArgs fuel : ℕ) (values : List ℚ)
    (hne : values ≠ []) (hlen : values.length ≤ maxArgs)
    (hd : ∀ x ∈ values, fl x = x ∧ |x| ≤ 2 ^ 40) :
    ∃ c : Chart64, createSparkline64 maxArgs (fuel + 1) values = some (Sparkline64.chart c) ∧
      c.yTickValues = [c.maxBound, c.maxBound - c.step, c.maxBound - 2 * c.step,
        c.maxBound - 3 * c.step, c.maxBound - 4 * c.step] ∧
      c.yTickValues = (List.range 5).map (fun (idx : ℕ) => fl (c.maxBound - fl (c.step * (idx : ℚ)))) ∧
      c.yTickValues.length = 5 ∧
      (∃ k : ℤ, 0 < k ∧ c.step = 10 * (k : ℚ)) ∧
      (∀ t ∈ c.yTickValues, ∃ z : ℤ, t = 10 * (z : ℚ)) ∧
      c.yTickValues.head? = some c.maxBound ∧
      c.yTickValues.getLast? = some c.minBound ∧
      c.maxBound - 4 * c.step = c.minBound ∧
      c.minBound = 10 * (⌊fl (fl (c.min - c.pad) / 10)⌋ : ℚ) ∧
      (c.min ∈ values ∧ ∀ x ∈ values, c.min ≤ x) ∧
      c.pad = Max.max 5
        (fl ((if fl (c.max - c.min) = 0 then 1 else fl (c.max - c.min)) * fl (15 / 100))) ∧
      (c.max ∈ values ∧ ∀ x ∈ values, x ≤ c.max) := by
  cases values with
  | nil => exact absurd rfl hne
  | cons v vs =>
    obtain ⟨n1, n2, k, hn1, -, -, -, hk1, -, hb1, -, hk2, -, -, -, -, -, -, -, -, -, -, hc⟩ :=
      axis64 maxArgs fuel v vs hlen (bounded_series _ hd)
    refine ⟨_, hc, ?_, ?_, rfl, ⟨k, by omega, rfl⟩, ?_, ?_, ?_, ?_, ?_,
      ⟨jsMin_mem v vs, jsMin_least v vs⟩, rfl, ⟨jsMax_mem v vs, jsMax_greatest v vs⟩⟩
    · dsimp only
      simp only [List.cons.injEq, and_true, true_and]
      refine ⟨?_, ?_, ?_, ?_⟩ <;> ring
    · dsimp only
      exact (ticks64 n1 k hb1 hk1 hk2).symm
    · intro t ht
      dsimp only at ht
      simp only [List.mem_cons, List.mem_singleton, List.not_mem_nil, or_false] at ht
      rcases ht with rfl | rfl | rfl | rfl | rfl
      · exact ⟨n1 + 4 * k, by push_cast; ring⟩
      · exact ⟨n1 + 3 * k, by push_cast; ring⟩
      · exact ⟨n1 + 2 * k, by push_cast; ring⟩
      · exact ⟨n1 + k, by push_cast; ring⟩
      · exact ⟨n1, rfl⟩
    · rfl
    · rfl
    · dsimp only
      ring
    · dsimp only
      rw [hn1]

set_option maxRecDepth 1000000 in
/-- Instance of C2 at the series 80, 95, 110, 105. -/
theorem createSparkline64_five_gridlines_witness :
    (∀ x ∈ ([80, 95, 110, 105] : List ℚ), fl x = x ∧ |x| ≤ 2 ^ 40) ∧
    ∃ c : Chart64, createSparkline64 4 1 [80, 95, 110, 105] = some (Sparkline64.chart c) ∧
      c.yTickValues = [c.maxBound, c.maxBound - c.step, c.maxBound - 2 * c.step,
        c.maxBound - 3 * c.step, c.maxBound - 4 * c.step] ∧
      (∃ k : ℤ, 0 < k ∧ c.step = 10 * (k : ℚ)) ∧
      c.maxBound - 4 * c.step = c.minBound :=
  have hd : ∀ x ∈ ([80, 95, 110, 105] : List ℚ), fl x = x ∧ |x| ≤ 2 ^ 40 := by
    intro x hx
    simp only [List.mem_cons, List.mem_singleton, List.not_mem_nil, or_false] at hx
    rcases hx with rfl | rfl | rfl | rfl <;> exact ⟨by with_unfolding_all rfl, by norm_num⟩
  match createSparkline64_five_gridlines 4 0 [80, 95, 110, 105] (by simp) (by simp) hd with
  | ⟨c, hc, h1, _, _, h2, _, _, _, h3, _⟩ => ⟨hd, c, hc, h1, h2, h3⟩

set_option maxRecDepth 1000000 in
/-- The original C2 fails on doubles: for the one-sample series 1e17 the five
gridline values are 1e17 + 32, 1e17 + 16, 1e17 + 16, 1e17 and 1e17 with the
step 10. The second and the third coincide, as do the fourth and the fifth;
they are not `maxBound - idx * step`, and 1e17 + 16 is not a multiple of 10. -/
theorem createSparkline64_gridlines_collapse :
    fl 100000000000000000 = 100000000000000000 ∧
    createSparkline64 65536 1 [100000000000000000] = some (Sparkline64.chart
      { min := 100000000000000000, max := 100000000000000000, pad := 5,
        minBoundRaw := 100000000000000000, maxBoundRaw := 100000000000000000,
        minBound := 100000000000000000, maxBound := 100000000000000032, step := 10,
        boundedRange := 32, coords := [(439, 154)],
        yTickValues := [100000000000000032, 100000000000000016, 100000000000000016,
          100000000000000000, 100000000000000000] }) ∧
    (100000000000000016 : ℚ) ≠ 100000000000000032 - 10 ∧
    ¬ ∃ z : ℤ, (100000000000000016 : ℚ) = 10 * (z : ℚ) := by
  refine ⟨by with_unfolding_all rfl, by with_unfolding_all rfl, by norm_num, ?_⟩
  rintro ⟨z, hz⟩
  have h : (100000000000000016 : ℤ) = 10 * z := by exact_mod_cast hz
  omega

/-- Rounding shortens the distance between two numbers of magnitude at most
`2 ^ (k + 53)` by at most two steps of the grid `2 ^ k`. -/
theorem fl_sub_ge (a b : ℚ) (k : ℤ) (hk : -1074 ≤ k) (ha : |a| ≤ (2 : ℚ) ^ (k + 53))
    (hb : |b| ≤ (2 : ℚ) ^ (k + 53)) : b - a - 2 * (2 : ℚ) ^ k ≤ fl b - fl a := by
  have hg := two_zpow_pos k
  have e53 : (2 : ℚ) ^ (k + 53) = (2 : ℚ) ^ k * 9007199254740992 := by
    rw [two_zpow_add]; norm_num
  rw [e53] at ha hb
  rw [abs_le] at ha hb
  have key1 : ∃ d1 : ℚ, Representable d1 ∧ a ≤ d1 ∧ d1 < a + (2 : ℚ) ^ k := by
    refine ⟨(⌈a / (2 : ℚ) ^ k⌉ : ℚ) * (2 : ℚ) ^ k, ?_, ?_, ?_⟩
    · apply representable_of_grid _ _ hk
      rw [e53, abs_le]
      have h1 := Int.le_ceil (a / (2 : ℚ) ^ k)
      have h2 : ⌈a / (2 : ℚ) ^ k⌉ ≤ 9007199254740992 := by
        apply Int.ceil_le.mpr
        rw [div_le_iff₀ hg]
        push_cast
        linarith
      have h2q : (⌈a / (2 : ℚ) ^ k⌉ : ℚ) ≤ 9007199254740992 := by exact_mod_cast h2
      rw [div_le_iff₀ hg] at h1
      constructor
      · linarith
      · nlinarith
    · have h1 := Int.le_ceil (a / (2 : ℚ) ^ k)
      rwa [div_le_iff₀ hg] at h1
    · have h1 := Int.ceil_lt_add_one (a / (2 : ℚ) ^ k)
      rw [← sub_lt_iff_lt_add, lt_div_iff₀ hg] at h1
      linarith
  have key2 : ∃ d2 : ℚ, Representable d2 ∧ d2 ≤ b ∧ b - (2 : ℚ) ^ k < d2 := by
    refine ⟨(⌊b / (2 : ℚ) ^ k⌋ : ℚ) * (2 : ℚ) ^ k, ?_, ?_, ?_⟩
    · apply representable_of_grid _ _ hk
      rw [e53, abs_le]
      have h1 := Int.floor_le (b / (2 : ℚ) ^ k)
      have h2 : -9007199254740992 ≤ ⌊b / (2 : ℚ) ^ k⌋ := by
        apply Int.le_floor.mpr
        rw [le_div_iff₀ hg]
        push_cast
        linarith
      have h2q : (-9007199254740992 : ℚ) ≤ (⌊b / (2 : ℚ) ^ k⌋ : ℚ) := by exact_mod_cast h2
      rw [le_div_iff₀ hg] at h1
      constructor
      · nlinarith
      · linarith
    · have h1 := Int.floor_le (b / (2 : ℚ) ^ k)
      rwa [le_div_iff₀ hg] at h1
    · have h1 := Int.lt_floor_add_one (b / (2 : ℚ) ^ k)
      rw [div_lt_iff₀ hg] at h1
      linarith
  obtain ⟨d1, hr1, h11, h12⟩ := key1
  obtain ⟨d2, hr2, h21, h22⟩ := key2
  have := fl_le_of_le hr1 h11
  have := le_fl_of_le hr2 h21
  linarith

theorem fl_one : fl 1 = 1 := by
  have := fl_int 1 (by norm_num)
  simpa using this

theorem representable_one : Representable (1 : ℚ) := by
  have := representable_int 1 (by norm_num)
  simpa using this

/-- The double computed for `a * b` lies between 0 and the integer `b`, for
`a` between 0 and 1. -/
theorem fl_mul_mem (a : ℚ) (b : ℕ) (hb : b ≤ 2 ^ 53) (h0 : 0 ≤ a) (h1 : a ≤ 1) :
    0 ≤ fl (a * (b : ℚ)) ∧ fl (a * (b : ℚ)) ≤ (b : ℚ) := by
  have hbq : (0 : ℚ) ≤ (b : ℚ) := Nat.cast_nonneg b
  exact ⟨fl_nonneg (mul_nonneg h0 hbq),
    fl_le_of_le (representable_ofNat b hb) (by nlinarith)⟩

set_option maxRecDepth 1000000 in
/-- The point of a sample, lines 403-410, with the inner width 766 and the
inner height 142 computed, for a series of at most `2 ^ 53` samples. -/
theorem coordOf64_eq (n : ℕ) (h1 : 1 ≤ n) (hn : n ≤ 2 ^ 53) (minBound range : ℚ) (i : ℕ)
    (v : ℚ) :
    coordOf64 n minBound range i v =
      (if n = 1 then 439 else fl (56 + fl (fl ((i : ℚ) / ((n : ℚ) - 1)) * 766)),
        fl (12 + fl (fl (1 - fl (fl (v - minBound) / range)) * 142))) := by
  have e766 : fl (fl ((840 : ℚ) - 56) - 18) = 766 := by with_unfolding_all rfl
  have e142 : fl (fl ((200 : ℚ) - 12) - 46) = 142 := by with_unfolding_all rfl
  have e439 : fl (56 + fl ((766 : ℚ) / 2)) = 439 := by with_unfolding_all rfl
  have en : fl ((n : ℚ) - 1) = (n : ℚ) - 1 := by
    apply fl_eq_int _ ((n : ℤ) - 1) (by push_cast; ring)
    have : (n : ℤ) ≤ 2 ^ 53 := by exact_mod_cast hn
    rw [abs_le]
    constructor <;> norm_num at this ⊢ <;> omega
  unfold coordOf64
  simp only [e766, e142, e439, en]

/-- The `y` of a sample between the bounds lies between 12 and 154. -/
theorem y64_mem (minBound range v : ℚ) (hr : 0 < range) (hrep : Representable range)
    (h0 : minBound ≤ v) (h1 : v ≤ minBound + range) :
    12 ≤ fl (12 + fl (fl (1 - fl (fl (v - minBound) / range)) * 142)) ∧
      fl (12 + fl (fl (1 - fl (fl (v - minBound) / range)) * 142)) ≤ 154 := by
  have hw0 : 0 ≤ fl (v - minBound) := fl_nonneg (by linarith)
  have hw1 : fl (v - minBound) ≤ range := fl_le_of_le hrep (by linarith)
  have hq0 : 0 ≤ fl (fl (v - minBound) / range) := fl_nonneg (div_nonneg hw0 hr.le)
  have hq1 : fl (fl (v - minBound) / range) ≤ 1 :=
    fl_le_of_le representable_one ((div_le_one hr).mpr hw1)
  have hs0 : 0 ≤ fl (1 - fl (fl (v - minBound) / range)) := fl_nonneg (by linarith)
  have hs1 : fl (1 - fl (fl (v - minBound) / range)) ≤ 1 :=
    fl_le_of_le representable_one (by linarith)
  have hp := fl_mul_mem _ 142 (by norm_num) hs0 hs1
  push_cast at hp
  have hr12 : Representable (12 : ℚ) := by
    have := representable_ofNat 12 (by norm_num)
    simpa using this
  have hr154 : Representable (154 : ℚ) := by
    have := representable_ofNat 154 (by norm_num)
    simpa using this
  exact ⟨le_fl_of_le hr12 (by linarith), fl_le_of_le hr154 (by linarith)⟩

/-- A larger value never gets a larger `y`. -/
theorem y64_antitone (minBound range v w : ℚ) (hr : 0 < range) (h : v ≤ w) :
    fl (12 + fl (fl (1 - fl (fl (w - minBound) / range)) * 142))
      ≤ fl (12 + fl (fl (1 - fl (fl (v - minBound) / range)) * 142)) := by
  have h1 : fl (v - minBound) ≤ fl (w - minBound) := fl_mono (by linarith)
  have h2 : fl (fl (v - minBound) / range) ≤ fl (fl (w - minBound) / range) :=
    fl_mono (div_le_div_of_nonneg_right h1 hr.le)
  have h3 : fl (1 - fl (fl (w - minBound) / range)) ≤ fl (1 - fl (fl (v - minBound) / range)) :=
    fl_mono (by linarith)
  have h4 : fl (fl (1 - fl (fl (w - minBound) / range)) * 142)
      ≤ fl (fl (1 - fl (fl (v - minBound) / range)) * 142) := fl_mono (by linarith)
  exact fl_mono (by linarith)

/-- The `x` of the samples of a series of `n` samples, `2 ≤ n ≤ 2 ^ 30 + 1`:
strictly increasing in the index, 56 for the first and 822 for the last. -/
theorem x64_strict (n : ℕ) (h2 : 2 ≤ n) (hn : n ≤ 2 ^ 30 + 1) :
    (∀ i j : ℕ, i < j → j < n →
      fl (56 + fl (fl ((i : ℚ) / ((n : ℚ) - 1)) * 766))
        < fl (56 + fl (fl ((j : ℚ) / ((n : ℚ) - 1)) * 766))) ∧
    fl (56 + fl (fl (((0 : ℕ) : ℚ) / ((n : ℚ) - 1)) * 766)) = 56 ∧
    fl (56 + fl (fl (((n - 1 : ℕ) : ℚ) / ((n : ℚ) - 1)) * 766)) = 822 := by
  have hnq : (2 : ℚ) ≤ (n : ℚ) := by exact_mod_cast h2
  have hnq2 : (n : ℚ) ≤ 1073741825 := by exact_mod_cast hn
  have hd : (0 : ℚ) < (n : ℚ) - 1 := by linarith
  have e56 : fl (56 : ℚ) = 56 := by
    have := fl_int 56 (by norm_num)
    simpa using this
  have e766 : fl (766 : ℚ) = 766 := by
    have := fl_int 766 (by norm_num)
    simpa using this
  have e822 : fl (822 : ℚ) = 822 := by
    have := fl_int 822 (by norm_num)
    simpa using this
  refine ⟨?_, ?_, ?_⟩
  · intro i j hij hj
    have hiq : (0 : ℚ) ≤ (i : ℚ) := Nat.cast_nonneg i
    have hijq : (i : ℚ) + 1 ≤ (j : ℚ) := by exact_mod_cast hij
    have hjq : (j : ℚ) + 1 ≤ (n : ℚ) := by exact_mod_cast hj
    -- the quotients lie in [0, 1] and are at least 1 / (n - 1) apart
    have ht0 : ∀ m : ℕ, 0 ≤ (m : ℚ) / ((n : ℚ) - 1) := fun m =>
      div_nonneg (Nat.cast_nonneg m) hd.le
    have hti1 : (i : ℚ) / ((n : ℚ) - 1) ≤ 1 := (div_le_one hd).mpr (by linarith)
    have htj1 : (j : ℚ) / ((n : ℚ) - 1) ≤ 1 := (div_le_one hd).mpr (by linarith)
    have hgap0 : 1 / 1073741824 ≤ (j : ℚ) / ((n : ℚ) - 1) - (i : ℚ) / ((n : ℚ) - 1) := by
      rw [← sub_div, le_div_iff₀ hd]
      linarith
    have e0 : (2 : ℚ) ^ ((-53 : ℤ) + 53) = 1 := by norm_num
    have g1 := fl_sub_ge ((i : ℚ) / ((n : ℚ) - 1)) ((j : ℚ) / ((n : ℚ) - 1)) (-53) (by norm_num)
      (by rw [e0, abs_of_nonneg (ht0 i)]; exact hti1)
      (by rw [e0, abs_of_nonneg (ht0 j)]; exact htj1)
    have e53 : (2 : ℚ) ^ (-53 : ℤ) = 1 / 9007199254740992 := by norm_num
    rw [e53] at g1
    have hfi0 : 0 ≤ fl ((i : ℚ) / ((n : ℚ) - 1)) := fl_nonneg (ht0 i)
    have hfj0 : 0 ≤ fl ((j : ℚ) / ((n : ℚ) - 1)) := fl_nonneg (ht0 j)
    have hfi1 : fl ((i : ℚ) / ((n : ℚ) - 1)) ≤ 1 := fl_le_of_le representable_one hti1
    have hfj1 : fl ((j : ℚ) / ((n : ℚ) - 1)) ≤ 1 := fl_le_of_le representable_one htj1
    generalize fl ((i : ℚ) / ((n : ℚ) - 1)) = ti at g1 hfi0 hfi1 ⊢
    generalize fl ((j : ℚ) / ((n : ℚ) - 1)) = tj at g1 hfj0 hfj1 ⊢
    have e10 : (2 : ℚ) ^ ((-43 : ℤ) + 53) = 1024 := by norm_num
    have e43 : (2 : ℚ) ^ (-43 : ℤ) = 1 / 8796093022208 := by norm_num
    have g2 := fl_sub_ge (ti * 766) (tj * 766) (-43) (by norm_num)
      (by rw [e10, abs_of_nonneg (by linarith)]; linarith)
      (by rw [e10, abs_of_nonneg (by linarith)]; linarith)
    rw [e43] at g2
    have hui := fl_mul_mem ti 766 (by norm_num) hfi0 hfi1
    have huj := fl_mul_mem tj 766 (by norm_num) hfj0 hfj1
    push_cast at hui huj
    generalize fl (ti * 766) = ui at g2 hui ⊢
    generalize fl (tj * 766) = uj at g2 huj ⊢
    have g3 := fl_sub_ge (56 + ui) (56 + uj) (-43) (by norm_num)
      (by rw [e10, abs_of_nonneg (by linarith)]; linarith)
      (by rw [e10, abs_of_nonneg (by linarith)]; linarith)
    rw [e43] at g3
    linarith
  · simp [fl_zero, e56]
  · have hc1 : (((n - 1 : ℕ) : ℚ)) = (n : ℚ) - 1 := by
      rw [Nat.cast_sub (by omega)]; simp
    rw [hc1, div_self hd.ne', fl_one, one_mul, e766]
    norm_num
    exact e822

/-- Two values between the bounds that are at least `range / 2 ^ 48` apart get
different `y`: the larger value has the strictly smaller `y`. -/
theorem y64_strict (minBound range v w : ℚ) (hr : 40 ≤ range) (hrep : Representable range)
    (h0 : minBound ≤ v) (h1 : w ≤ minBound + range)
    (hsep : range / 281474976710656 ≤ w - v) :
    fl (12 + fl (fl (1 - fl (fl (w - minBound) / range)) * 142))
      < fl (12 + fl (fl (1 - fl (fl (v - minBound) / range)) * 142)) := by
  have hr0 : (0 : ℚ) < range := by linarith
  have hvw : v ≤ w := by
    have : 0 ≤ range / 281474976710656 := by positivity
    linarith
  obtain ⟨he1, he2⟩ := floorLog2_spec range hr0.ne'
  rw [abs_of_pos hr0] at he1 he2
  have hk : -1074 ≤ floorLog2 range - 52 := by
    by_contra hnot
    have h : floorLog2 range + 1 ≤ 0 := by omega
    have := two_zpow_le h
    rw [zpow_zero] at this
    linarith
  have e52 : (2 : ℚ) ^ (floorLog2 range - 52 + 53) = (2 : ℚ) ^ (floorLog2 range + 1) := by
    congr 1
    ring
  have eg : (2 : ℚ) ^ (floorLog2 range - 52) = (2 : ℚ) ^ floorLog2 range / 4503599627370496 := by
    rw [sub_eq_add_neg, two_zpow_add]
    norm_num
    ring
  have g1 := fl_sub_ge (v - minBound) (w - minBound) (floorLog2 range - 52) hk
    (by rw [e52, abs_of_nonneg (by linarith)]; linarith)
    (by rw [e52, abs_of_nonneg (by linarith)]; linarith)
  rw [eg] at g1
  have hw0 : 0 ≤ fl (v - minBound) := fl_nonneg (by linarith)
  have hw0' : 0 ≤ fl (w - minBound) := fl_nonneg (by linarith)
  have hw1 : fl (v - minBound) ≤ range := fl_le_of_le hrep (by linarith)
  have hw1' : fl (w - minBound) ≤ range := fl_le_of_le hrep (by linarith)
  have hq : 7 / 2251799813685248
      ≤ fl (w - minBound) / range - fl (v - minBound) / range := by
    rw [← sub_div, le_div_iff₀ hr0]
    linarith
  generalize fl (v - minBound) = v1 at hq hw0 hw1 ⊢
  generalize fl (w - minBound) = w1 at hq hw0' hw1' ⊢
  have hv2 : 0 ≤ v1 / range := div_nonneg hw0 hr0.le
  have hw2 : 0 ≤ w1 / range := div_nonneg hw0' hr0.le
  have hv2' : v1 / range ≤ 1 := (div_le_one hr0).mpr hw1
  have hw2' : w1 / range ≤ 1 := (div_le_one hr0).mpr hw1'
  have e0 : (2 : ℚ) ^ ((-53 : ℤ) + 53) = 1 := by norm_num
  have e53 : (2 : ℚ) ^ (-53 : ℤ) = 1 / 9007199254740992 := by norm_num
  have g2 := fl_sub_ge (v1 / range) (w1 / range) (-53) (by norm_num)
    (by rw [e0, abs_of_nonneg hv2]; exact hv2') (by rw [e0, abs_of_nonneg hw2]; exact hw2')
  rw [e53] at g2
  have hv3 : 0 ≤ fl (v1 / range) := fl_nonneg hv2
  have hw3 : 0 ≤ fl (w1 / range) := fl_nonneg hw2
  have hv3' : fl (v1 / range) ≤ 1 := fl_le_of_le representable_one hv2'
  have hw3' : fl (w1 / range) ≤ 1 := fl_le_of_le representable_one hw2'
  generalize fl (v1 / range) = v2 at g2 hv3 hv3' ⊢
  generalize fl (w1 / range) = w2 at g2 hw3 hw3' ⊢
  have g3 := fl_sub_ge (1 - w2) (1 - v2) (-53) (by norm_num)
    (by rw [e0, abs_of_nonneg (by linarith)]; linarith)
    (by rw [e0, abs_of_nonneg (by linarith)]; linarith)
  rw [e53] at g3
  have hv4 : 0 ≤ fl (1 - v2) := fl_nonneg (by linarith)
  have hw4 : 0 ≤ fl (1 - w2) := fl_nonneg (by linarith)
  have hv4' : fl (1 - v2) ≤ 1 := fl_le_of_le representable_one (by linarith)
  have hw4' : fl (1 - w2) ≤ 1 := fl_le_of_le representable_one (by linarith)
  generalize fl (1 - v2) = v3 at g3 hv4 hv4' ⊢
  generalize fl (1 - w2) = w3 at g3 hw4 hw4' ⊢
  have e8 : (2 : ℚ) ^ ((-45 : ℤ) + 53) = 256 := by norm_num
  have e45 : (2 : ℚ) ^ (-45 : ℤ) = 1 / 35184372088832 := by norm_num
  have g4 := fl_sub_ge (w3 * 142) (v3 * 142) (-45) (by norm_num)
    (by rw [e8, abs_of_nonneg (by linarith)]; linarith)
    (by rw [e8, abs_of_nonneg (by linarith)]; linarith)
  rw [e45] at g4
  have hv5 := fl_mul_mem v3 142 (by norm_num) hv4 hv4'
  have hw5 := fl_mul_mem w3 142 (by norm_num) hw4 hw4'
  push_cast at hv5 hw5
  generalize fl (v3 * 142) = v4 at g4 hv5 ⊢
  generalize fl (w3 * 142) = w4 at g4 hw5 ⊢
  have g5 := fl_sub_ge (12 + w4) (12 + v4) (-45) (by norm_num)
    (by rw [e8, abs_of_nonneg (by linarith)]; linarith)
    (by rw [e8, abs_of_nonneg (by linarith)]; linarith)
  rw [e45] at g5
  linarith

set_option maxRecDepth 1000000 in
/-- C12, as the code has it on doubles: for every non-empty series of at most
`2 ^ 30` doubles of magnitude at most `2 ^ 40` that the engine accepts as
arguments, the point of the sample of index `i` and value `v` has
`y = 12 + (1 - (v - minBound) / (maxBound - minBound)) * 142` with every
operation rounded to a double, where 142 is the inner height `200 - 12 - 46`
and `maxBound - minBound` is computed exactly and is positive. A larger value
never has a larger `y`; two samples that are at least
`(maxBound - minBound) / 2 ^ 48` apart have different `y`, the larger value the
strictly smaller one; and the `y` of every sample lies between 12 and 154. With
at least two samples, `x = 56 + (i / (n - 1)) * 766` with every operation
rounded, where 766 is the inner width `840 - 56 - 18`; it is strictly
increasing in `i`, 56 for the first sample and 822 for the last. With one
sample `x` is 439. -/
theorem createSparkline64_linear_map (maxArgs fuel : ℕ) (values : List ℚ)
    (hne : values ≠ []) (hlen : values.length ≤ maxArgs) (hn : values.length ≤ 2 ^ 30)
    (hd : ∀ x ∈ values, fl x = x ∧ |x| ≤ 2 ^ 40) :
    ∃ c : Chart64, createSparkline64 maxArgs (fuel + 1) values = some (Sparkline64.chart c) ∧
      c.minBound < c.maxBound ∧
      c.boundedRange = c.maxBound - c.minBound ∧
      (∀ v ∈ values, c.minBound < v ∧ v < c.maxBound) ∧
      c.coords.length = values.length ∧
      (∀ (i : ℕ) (v : ℚ), values[i]? = some v →
        c.coords[i]? = some
          (if values.length = 1 then 439
            else fl (56 + fl (fl ((i : ℚ) / ((values.length : ℚ) - 1)) * 766)),
            fl (12 +
              fl (fl (1 - fl (fl (v - c.minBound) / (c.maxBound - c.minBound))) * 142)))) ∧
      (∀ v w : ℚ, v ≤ w →
        fl (12 + fl (fl (1 - fl (fl (w - c.minBound) / (c.maxBound - c.minBound))) * 142))
          ≤ fl (12 +
            fl (fl (1 - fl (fl (v - c.minBound) / (c.maxBound - c.minBound))) * 142))) ∧
      (∀ v ∈ values, ∀ w ∈ values, (c.maxBound - c.minBound) / 2 ^ 48 ≤ w - v →
        fl (12 + fl (fl (1 - fl (fl (w - c.minBound) / (c.maxBound - c.minBound))) * 142))
          < fl (12 +
            fl (fl (1 - fl (fl (v - c.minBound) / (c.maxBound - c.minBound))) * 142))) ∧
      (∀ v ∈ values,
        12 ≤ fl (12 +
            fl (fl (1 - fl (fl (v - c.minBound) / (c.maxBound - c.minBound))) * 142)) ∧
          fl (12 + fl (fl (1 - fl (fl (v - c.minBound) / (c.maxBound - c.minBound))) * 142))
            ≤ 154) ∧
      (2 ≤ values.length →
        (∀ i j : ℕ, i < j → j < values.length →
          fl (56 + fl (fl ((i : ℚ) / ((values.length : ℚ) - 1)) * 766))
            < fl (56 + fl (fl ((j : ℚ) / ((values.length : ℚ) - 1)) * 766))) ∧
        fl (56 + fl (fl (((0 : ℕ) : ℚ) / ((values.length : ℚ) - 1)) * 766)) = 56 ∧
        fl (56 + fl (fl (((values.length - 1 : ℕ) : ℚ) / ((values.length : ℚ) - 1)) * 766))
          = 822) ∧
      (fl (fl ((840 : ℚ) - 56) - 18) = 766 ∧ fl (fl ((200 : ℚ) - 12) - 46) = 142) := by
  cases values with
  | nil => exact absurd rfl hne
  | cons v vs =>
    obtain ⟨n1, n2, k, -, -, -, -, hk1, hk3, -, -, hk2, -, -, -, -, -, -, hFle, hlo, hhi, hCle,
      hc⟩ := axis64 maxArgs fuel v vs hlen (bounded_series _ hd)
    have hk1q : (1 : ℚ) ≤ (k : ℚ) := by exact_mod_cast hk1
    have hcover : (10 : ℚ) * (n2 : ℚ) ≤ 10 * (n1 : ℚ) + 40 * (k : ℚ) := by
      have : ((n2 - n1 : ℤ) : ℚ) ≤ ((4 * k : ℤ) : ℚ) := by exact_mod_cast hk3
      push_cast at this
      linarith
    have hin : ∀ x ∈ v :: vs, 10 * (n1 : ℚ) < x ∧ x < 10 * (n1 : ℚ) + 40 * (k : ℚ) := by
      intro x hx
      have h1 := jsMin_least v vs x hx
      have h2 := jsMax_greatest v vs x hx
      constructor <;> linarith
    have erange : 10 * (n1 : ℚ) + 40 * (k : ℚ) - 10 * (n1 : ℚ) = 40 * (k : ℚ) := by ring
    have hrep : Representable (40 * (k : ℚ)) := by
      have := representable_int (40 * k) (by rw [abs_le]; constructor <;> norm_num <;> omega)
      push_cast at this
      exact this
    have hlen1 : 1 ≤ (v :: vs).length := by simp
    have hlen53 : (v :: vs).length ≤ 2 ^ 53 := le_trans hn (by norm_num)
    refine ⟨_, hc, ?_, ?_, hin, ?_, ?_, ?_, ?_, ?_, ?_, by with_unfolding_all rfl,
      by with_unfolding_all rfl⟩
    · dsimp only
      linarith
    · dsimp only
      ring
    · simp
    · intro i x hx
      dsimp only
      rw [List.getElem?_map, List.getElem?_enum, hx, erange]
      simp only [Option.map_some']
      rw [coordOf64_eq _ hlen1 hlen53]
    · intro a b hab
      dsimp only
      rw [erange]
      exact y64_antitone _ _ a b (by linarith) hab
    · intro a ha b hb hsep
      dsimp only at hsep ⊢
      rw [erange] at hsep ⊢
      have h48 : (2 : ℚ) ^ 48 = 281474976710656 := by norm_num
      rw [h48] at hsep
      exact y64_strict _ _ a b (by linarith) hrep (hin a ha).1.le (hin b hb).2.le hsep
    · intro a ha
      dsimp only
      rw [erange]
      exact y64_mem _ _ a (by linarith) hrep (hin a ha).1.le (hin a ha).2.le
    · intro h2
      exact x64_strict _ h2 (le_trans hn (by norm_num))

set_option maxRecDepth 1000000 in
/-- Instance of C12 at the series 80, 95, 110, 105. -/
theorem createSparkline64_linear_map_witness :
    (∀ x ∈ ([80, 95, 110, 105] : List ℚ), fl x = x ∧ |x| ≤ 2 ^ 40) ∧
    ∃ c : Chart64, createSparkline64 4 1 [80, 95, 110, 105] = some (Sparkline64.chart c) ∧
      c.minBound < c.maxBound ∧
      c.coords.length = ([80, 95, 110, 105] : List ℚ).length ∧
      (∀ v ∈ ([80, 95, 110, 105] : List ℚ),
        12 ≤ fl (12 +
            fl (fl (1 - fl (fl (v - c.minBound) / (c.maxBound - c.minBound))) * 142)) ∧
          fl (12 + fl (fl (1 - fl (fl (v - c.minBound) / (c.maxBound - c.minBound))) * 142))
            ≤ 154) :=
  have hd : ∀ x ∈ ([80, 95, 110, 105] : List ℚ), fl x = x ∧ |x| ≤ 2 ^ 40 := by
    intro x hx
    simp only [List.mem_cons, List.mem_singleton, List.not_mem_nil, or_false] at hx
    rcases hx with rfl | rfl | rfl | rfl <;> exact ⟨by with_unfolding_all rfl, by norm_num⟩
  match createSparkline64_linear_map 4 0 [80, 95, 110, 105] (by simp) (by simp) (by simp) hd with
  | ⟨c, hc, hlt, _, _, hlen, _, _, _, hy, _⟩ => ⟨hd, c, hc, hlt, hlen, hy⟩

set_option maxRecDepth 1000000 in
/-- The original C12 fails on doubles: in the series 0.1, 0.10000000000000002,
the doubles 3602879701896397/36028797018963968 and
7205759403792795/72057594037927936, the second value is strictly larger than
the first, and both points have the same `y`, 4156857640435057/35184372088832. -/
theorem createSparkline64_larger_value_same_y :
    fl (3602879701896397 / 36028797018963968) = 3602879701896397 / 36028797018963968 ∧
    fl (7205759403792795 / 72057594037927936) = 7205759403792795 / 72057594037927936 ∧
    (3602879701896397 / 36028797018963968 : ℚ) < 7205759403792795 / 72057594037927936 ∧
    createSparkline64 65536 1
        [3602879701896397 / 36028797018963968, 7205759403792795 / 72057594037927936]
      = some (Sparkline64.chart
      { min := 3602879701896397 / 36028797018963968,
        max := 7205759403792795 / 72057594037927936,
        pad := 5,
        minBoundRaw := -2758454771764429 / 562949953421312,
        maxBoundRaw := 2871044762448691 / 562949953421312,
        minBound := -10, maxBound := 30, step := 10, boundedRange := 40,
        coords := [(56, 4156857640435057 / 35184372088832),
          (822, 4156857640435057 / 35184372088832)],
        yTickValues := [30, 20, 10, 0, -10] }) :=
  ⟨by with_unfolding_all rfl, by with_unfolding_all rfl, by norm_num,
    by with_unfolding_all rfl⟩

theorem padOf64_const (c : ℚ) : padOf64 c c = 5 := by
  have hr1 : Representable (1 : ℚ) := by
    have := representable_int 1 (by norm_num)
    simpa using this
  have h1 : fl (15 / 100) ≤ 1 := fl_le_of_le hr1 (by norm_num)
  unfold padOf64 orNum
  rw [sub_self, fl_zero, if_pos rfl, one_mul, fl_fl]
  exact max_eq_left (by linarith)

set_option maxRecDepth 1000000 in
/-- C13, as the code has it on doubles: for every non-empty series whose values
all equal one double `c0` of magnitude at most `2 ^ 40`, and that the engine
accepts as arguments, `createSparkline` returns a chart with `pad = 5`,
`step = 10`, `minBound = Math.floor((c0 - 5) / 10) * 10` as the engine computes
it, and `maxBound = minBound + 40`; hence `maxBound > minBound` and `step > 0`,
and `c0` lies strictly between the bounds. When `c0` is 100 the bounds are 90
and 130. -/
theorem createSparkline64_flat_series (maxArgs fuel : ℕ) (c0 : ℚ) (values : List ℚ)
    (hne : values ≠ []) (hlen : values.length ≤ maxArgs)
    (hc0 : fl c0 = c0 ∧ |c0| ≤ 2 ^ 40) (hall : ∀ x ∈ values, x = c0) :
    ∃ c : Chart64, createSparkline64 maxArgs (fuel + 1) values = some (Sparkline64.chart c) ∧
      c.min = c0 ∧ c.max = c0 ∧ c.pad = 5 ∧
      c.minBoundRaw = fl (c0 - 5) ∧ c.maxBoundRaw = fl (c0 + 5) ∧
      c.step = 10 ∧
      c.minBound = 10 * (⌊fl (fl (c0 - 5) / 10)⌋ : ℚ) ∧
      c.maxBound = c.minBound + 40 ∧
      c.minBound < c.maxBound ∧ 0 < c.step ∧
      c.minBound < c0 ∧ c0 < c.maxBound ∧
      (c0 = 100 → c.minBound = 90 ∧ c.maxBound = 130) := by
  cases values with
  | nil => exact absurd rfl hne
  | cons v vs =>
    have hd : ∀ x ∈ v :: vs, fl x = x ∧ |x| ≤ 2 ^ 40 := fun x hx => hall x hx ▸ hc0
    obtain ⟨n1, n2, k, hn1, hn2, hk, hlt, hk1, hk3, hb1, hb2, -, -, -, -, -, -, -, hFle, hlo, hhi,
      hCle, hc⟩ := axis64 maxArgs fuel v vs hlen (bounded_series _ hd)
    have hmn := jsMin_const c0 v vs hall
    have hmx := jsMax_const c0 v vs hall
    rw [hmn, hmx, padOf64_const] at hn1 hn2 hFle hlo hhi hCle hc
    rw [abs_le] at hb1 hb2
    -- the rounded bounds are at most 20 apart
    have h1 : fl (c0 - 5) / 10 < (n1 : ℚ) + 1 := by
      by_contra hnot
      have hr : Representable ((n1 + 1 : ℤ) : ℚ) :=
        representable_int _ (by rw [abs_le]; constructor <;> norm_num <;> omega)
      have := le_fl_of_le hr (q := fl (c0 - 5) / 10) (by push_cast; linarith)
      have hfl := Int.lt_floor_add_one (fl (fl (c0 - 5) / 10))
      rw [← hn1] at hfl
      push_cast at this
      linarith
    have h2 : c0 - 5 < 10 * ((n1 : ℚ) + 1) := by
      by_contra hnot
      have hr : Representable ((10 * (n1 + 1) : ℤ) : ℚ) :=
        representable_int _ (by rw [abs_le]; constructor <;> norm_num <;> omega)
      have := le_fl_of_le hr (q := c0 - 5) (by push_cast; linarith)
      push_cast at this
      linarith
    have h3 : fl (c0 + 5) ≤ 10 * ((n1 : ℚ) + 2) := by
      have hr : Representable ((10 * (n1 + 2) : ℤ) : ℚ) :=
        representable_int _ (by rw [abs_le]; constructor <;> norm_num <;> omega)
      have := fl_le_of_le hr (q := c0 + 5) (by push_cast; linarith)
      push_cast at this
      linarith
    have h4 : n2 ≤ n1 + 2 := by
      rw [hn2]
      apply Int.ceil_le.mpr
      have hr : Representable ((n1 + 2 : ℤ) : ℚ) :=
        representable_int _ (by rw [abs_le]; constructor <;> norm_num <;> omega)
      exact fl_le_of_le hr (by push_cast; linarith)
    have hk' : k = 1 := by
      have : k ≤ 1 := by
        rw [hk]
        apply Int.ceil_le.mpr
        have : ((n2 - n1 : ℤ) : ℚ) ≤ ((2 : ℤ) : ℚ) := by exact_mod_cast (by omega : n2 - n1 ≤ 2)
        push_cast at this ⊢
        linarith
      omega
    subst hk'
    refine ⟨_, hc, rfl, rfl, rfl, rfl, rfl, ?_, ?_, ?_, ?_, ?_, ?_, ?_, ?_⟩
    · dsimp only; norm_num
    · dsimp only; rw [hn1]
    · dsimp only; norm_num
    · dsimp only; norm_num
    · dsimp only; norm_num
    · dsimp only; linarith
    · dsimp only
      have : (n2 : ℚ) ≤ (n1 : ℚ) + 4 := by
        have : ((n2 : ℤ) : ℚ) ≤ ((n1 + 2 : ℤ) : ℚ) := by exact_mod_cast h4
        push_cast at this
        linarith
      push_cast
      linarith
    · intro h100
      have e9 : ⌊fl (fl ((100 : ℚ) - 5) / 10)⌋ = 9 := by with_unfolding_all decide
      rw [h100, e9] at hn1
      subst hn1
      dsimp only
      constructor <;> norm_num

set_option maxRecDepth 1000000 in
/-- Instance of C13 at the series 100, 100, 100. -/
theorem createSparkline64_flat_series_witness :
    (fl (100 : ℚ) = 100 ∧ |(100 : ℚ)| ≤ 2 ^ 40) ∧ (∀ x ∈ ([100, 100, 100] : List ℚ), x = 100) ∧
    ∃ c : Chart64, createSparkline64 3 1 [100, 100, 100] = some (Sparkline64.chart c) ∧
      c.minBound = 90 ∧ c.maxBound = 130 ∧ c.step = 10 ∧ c.pad = 5 :=
  have h1 : fl (100 : ℚ) = 100 ∧ |(100 : ℚ)| ≤ 2 ^ 40 := ⟨by with_unfolding_all rfl, by norm_num⟩
  have h2 : ∀ x ∈ ([100, 100, 100] : List ℚ), x = 100 := by simp
  match createSparkline64_flat_series 3 0 100 [100, 100, 100] (by simp) (by simp) h1 h2 with
  | ⟨c, hc, _, _, hpad, _, _, hstep, _, _, _, _, _, _, h100⟩ =>
    ⟨h1, h2, c, hc, (h100 rfl).1, (h100 rfl).2, hstep, hpad⟩

set_option maxRecDepth 1000000 in
/-- The original C13 fails on doubles. For the flat series at 1e19 the range is
degenerate: both bounds are 1e19, as `1e19 + 40` is rounded back to 1e19. For
the flat series at the double next below -15, which is
-8444249301319681/562949953421312, the lower bound is -20 and not
`10 * ⌊(c - 5) / 10⌋ = -30`, as `c - 5` is rounded to -20. -/
theorem createSparkline64_flat_series_degenerate :
    fl 10000000000000000000 = 10000000000000000000 ∧
    createSparkline64 65536 1 [10000000000000000000, 10000000000000000000]
      = some (Sparkline64.chart
      { min := 10000000000000000000, max := 10000000000000000000, pad := 5,
        minBoundRaw := 10000000000000000000, maxBoundRaw := 10000000000000000000,
        minBound := 10000000000000000000, maxBound := 10000000000000000000, step := 10,
        boundedRange := 1, coords := [(56, 154), (822, 154)],
        yTickValues := [10000000000000000000, 10000000000000000000, 10000000000000000000,
          10000000000000000000, 10000000000000000000] }) ∧
    fl (-8444249301319681 / 562949953421312) = -8444249301319681 / 562949953421312 ∧
    createSparkline64 65536 1 [-8444249301319681 / 562949953421312]
      = some (Sparkline64.chart
      { min := -8444249301319681 / 562949953421312, max := -8444249301319681 / 562949953421312,
        pad := 5, minBoundRaw := -20,
        maxBoundRaw := -5629499534213121 / 562949953421312,
        minBound := -20, maxBound := 20, step := 10,
        boundedRange := 40, coords := [(439, 545 / 4)],
        yTickValues := [20, 10, 0, -10, -20] }) ∧
    10 * (⌊((-8444249301319681 / 562949953421312 : ℚ) - 5) / 10⌋ : ℚ) = -30 :=
  ⟨by with_unfolding_all rfl, by with_unfolding_all rfl, by with_unfolding_all rfl,
    by with_unfolding_all rfl, by with_unfolding_all rfl⟩

/-- A loop whose state is not changed by a pass, since the `10` added to the
step is lost in the rounding, and whose condition holds, uses up every fuel. -/
theorem growStep64_stuck (minBound maxBoundRaw step maxBound : ℚ) (h1 : maxBound < maxBoundRaw)
    (h2 : fl (step + 10) = step) (h3 : fl (minBound + fl (step * 4)) = maxBound) :
    ∀ fuel : ℕ, growStep64 minBound maxBoundRaw fuel step maxBound = none := by
  intro fuel
  induction fuel with
  | zero => rfl
  | succ n ih =>
    unfold growStep64
    rw [if_pos h1, h2, h3]
    exact ih

/-- The call of `createSparkline` does not end within the fuel when its loop
does not. -/
theorem createSparkline64_none (maxArgs fuel : ℕ) (v : ℚ) (vs : List ℚ)
    (hlen : (v :: vs).length ≤ maxArgs)
    (h : growStep64 (floorTen64 (fl (jsMin v vs - padOf64 (jsMin v vs) (jsMax v vs))))
        (fl (jsMax v vs + padOf64 (jsMin v vs) (jsMax v vs))) fuel
        (stepFloor64 (stepCeil64 (floorTen64 (fl (jsMin v vs - padOf64 (jsMin v vs) (jsMax v vs))))
          (widenBound64 (floorTen64 (fl (jsMin v vs - padOf64 (jsMin v vs) (jsMax v vs))))
            (ceilTen64 (fl (jsMax v vs + padOf64 (jsMin v vs) (jsMax v vs)))))))
        (fl (floorTen64 (fl (jsMin v vs - padOf64 (jsMin v vs) (jsMax v vs))) +
          fl (stepFloor64 (stepCeil64
            (floorTen64 (fl (jsMin v vs - padOf64 (jsMin v vs) (jsMax v vs))))
            (widenBound64 (floorTen64 (fl (jsMin v vs - padOf64 (jsMin v vs) (jsMax v vs))))
              (ceilTen64 (fl (jsMax v vs + padOf64 (jsMin v vs) (jsMax v vs)))))) * 4)))
      = none) :
    createSparkline64 maxArgs fuel (v :: vs) = none := by
  unfold createSparkline64
  simp only [not_lt.mpr hlen, if_false, h]

/-- A non-empty series never gives the result "no chart". -/
theorem createSparkline64_cons_ne_noChart (maxArgs fuel : ℕ) (v : ℚ) (vs : List ℚ) :
    createSparkline64 maxArgs fuel (v :: vs) ≠ some Sparkline64.noChart := by
  unfold createSparkline64
  dsimp only
  split_ifs
  · simp
  · split <;> simp

/-- C15, as the code has it on doubles: `createSparkline` returns "no chart"
(`svg`, `min` and `max` null, no geometry) for the empty series and for no
other; for every non-empty series of doubles of magnitude at most `2 ^ 40` that
the engine accepts as arguments it returns a chart whose `min` and `max` are
the smallest and the largest value of the series; and a series with more
elements than the engine accepts as arguments ends in a RangeError. -/
theorem createSparkline64_no_chart_iff_empty (maxArgs fuel : ℕ) (values : List ℚ) :
    createSparkline64 maxArgs fuel [] = some Sparkline64.noChart ∧
    (createSparkline64 maxArgs fuel values = some Sparkline64.noChart ↔ values = []) ∧
    (values ≠ [] → values.length ≤ maxArgs → (∀ x ∈ values, fl x = x ∧ |x| ≤ 2 ^ 40) →
      ∃ c : Chart64, createSparkline64 maxArgs (fuel + 1) values = some (Sparkline64.chart c) ∧
        c.min ∈ values ∧ (∀ x ∈ values, c.min ≤ x) ∧
        c.max ∈ values ∧ (∀ x ∈ values, x ≤ c.max)) ∧
    (maxArgs < values.length →
      createSparkline64 maxArgs fuel values = some Sparkline64.rangeError) := by
  refine ⟨rfl, ⟨?_, ?_⟩, ?_, ?_⟩
  · intro h
    cases values with
    | nil => rfl
    | cons v vs => exact absurd h (createSparkline64_cons_ne_noChart maxArgs fuel v vs)
  · intro h
    rw [h]
    rfl
  · intro hne hlen hd
    cases values with
    | nil => exact absurd rfl hne
    | cons v vs =>
      obtain ⟨n1, n2, k, -, -, -, -, -, -, -, -, -, -, -, -, -, -, -, -, -, -, -, hc⟩ :=
        axis64 maxArgs fuel v vs hlen (bounded_series _ hd)
      exact ⟨_, hc, jsMin_mem v vs, jsMin_least v vs, jsMax_mem v vs, jsMax_greatest v vs⟩
  · intro hlen
    cases values with
    | nil => simp at hlen
    | cons v vs =>
      unfold createSparkline64
      simp only [hlen, if_true]

set_option maxRecDepth 1000000 in
/-- Instance of C15 at the series 80, 95, 110, 105. -/
theorem createSparkline64_no_chart_iff_empty_witness :
    (∀ x ∈ ([80, 95, 110, 105] : List ℚ), fl x = x ∧ |x| ≤ 2 ^ 40) ∧
    ∃ c : Chart64, createSparkline64 4 1 [80, 95, 110, 105] = some (Sparkline64.chart c) ∧
      c.min ∈ ([80, 95, 110, 105] : List ℚ) ∧ (∀ x ∈ ([80, 95, 110, 105] : List ℚ), c.min ≤ x) ∧
      c.max ∈ ([80, 95, 110, 105] : List ℚ) ∧ (∀ x ∈ ([80, 95, 110, 105] : List ℚ), x ≤ c.max) :=
  have hd : ∀ x ∈ ([80, 95, 110, 105] : List ℚ), fl x = x ∧ |x| ≤ 2 ^ 40 := by
    intro x hx
    simp only [List.mem_cons, List.mem_singleton, List.not_mem_nil, or_false] at hx
    rcases hx with rfl | rfl | rfl | rfl <;> exact ⟨by with_unfolding_all rfl, by norm_num⟩
  ⟨hd, (createSparkline64_no_chart_iff_empty 4 0 [80, 95, 110, 105]).2.2.1 (by simp) (by simp) hd⟩

set_option maxRecDepth 1000000 in
/-- The original C15 fails on doubles: for the series 3.2e20, -9.9e20 the call
returns nothing, as its loop never ends. The loop is entered with the step
425749999999999934464 and the upper bound 516499999999999868928, which is below
the raw upper bound 516500000000000000000; adding 10 to the step is lost in the
rounding, so every pass leaves the step and the upper bound as they are. And a
series of three values ends in a RangeError in an engine that accepts two
arguments. -/
theorem createSparkline64_loop_never_ends :
    fl 320000000000000000000 = 320000000000000000000 ∧
    fl (-990000000000000000000) = -990000000000000000000 ∧
    (∀ fuel : ℕ,
      createSparkline64 65536 fuel [320000000000000000000, -990000000000000000000] = none) ∧
    createSparkline64 2 1 [1, 2, 3] = some Sparkline64.rangeError := by
  refine ⟨by with_unfolding_all rfl, by with_unfolding_all rfl, ?_, by with_unfolding_all rfl⟩
  intro fuel
  apply createSparkline64_none _ _ _ _ (by decide)
  have e1 : floorTen64 (fl (jsMin 320000000000000000000 [-990000000000000000000]
      - padOf64 (jsMin 320000000000000000000 [-990000000000000000000])
          (jsMax 320000000000000000000 [-990000000000000000000])))
      = -1186499999999999868928 := by with_unfolding_all rfl
  have e2 : fl (jsMax 320000000000000000000 [-990000000000000000000]
      + padOf64 (jsMin 320000000000000000000 [-990000000000000000000])
          (jsMax 320000000000000000000 [-990000000000000000000]))
      = 516500000000000000000 := by with_unfolding_all rfl
  rw [e1, e2]
  have e3 : stepFloor64 (stepCeil64 (-1186499999999999868928)
      (widenBound64 (-1186499999999999868928) (ceilTen64 516500000000000000000)))
      = 425749999999999934464 := by with_unfolding_all rfl
  rw [e3]
  have e4 : fl (-1186499999999999868928 + fl (425749999999999934464 * 4))
      = 516499999999999868928 := by with_unfolding_all rfl
  rw [e4]
  refine growStep64_stuck _ _ _ _ ?_ ?_ e4 fuel
  · norm_num
  · with_unfolding_all rfl

/-- An integer that is at least `q` is at least the rounded-up double nearest
to `q`, when that is below `2 ^ 39` in magnitude. -/
theorem ceil_fl_le (q : ℚ) (z : ℤ) (hq : q ≤ (z : ℚ)) (hn : |⌈fl q⌉| ≤ 549755813888) :
    ⌈fl q⌉ ≤ z := by
  rw [abs_le] at hn
  by_cases h1 : 9007199254740992 ≤ z
  · omega
  · by_cases h2 : z ≤ -9007199254740992
    · have hz : (z : ℚ) ≤ ((-9007199254740992 : ℤ) : ℚ) := by exact_mod_cast h2
      have := fl_le_of_le (representable_int (-9007199254740992) (by norm_num)) (le_trans hq hz)
      have := Int.ceil_le.mpr this
      omega
    · have hr : Representable ((z : ℤ) : ℚ) :=
        representable_int z (by rw [abs_le]; constructor <;> norm_num <;> omega)
      exact Int.ceil_le.mpr (fl_le_of_le hr hq)

/-- C21, as the code has it on doubles: for every non-empty series of doubles of
magnitude at most `2 ^ 40` that the engine accepts as arguments, the final tick
step of `createSparkline` is the least positive multiple of 10, `s`, with
`minBound + 4 * s ≥ maxBoundRaw`, where `maxBoundRaw` is the double that the
engine computes for `max + pad` and `minBound` is
`Math.floor(minBoundRaw / 10) * 10` for the double `minBoundRaw` computed for
`min - pad`: the step is a positive multiple of 10 with that property, every
positive multiple of 10 with that property is at least as large, and with a
smaller positive multiple of 10 the top gridline stays below `maxBoundRaw`. -/
theorem createSparkline64_step_minimal (maxArgs fuel : ℕ) (values : List ℚ)
    (hne : values ≠ []) (hlen : values.length ≤ maxArgs)
    (hd : ∀ x ∈ values, fl x = x ∧ |x| ≤ 2 ^ 40) :
    ∃ c : Chart64, createSparkline64 maxArgs (fuel + 1) values = some (Sparkline64.chart c) ∧
      (c.min ∈ values ∧ ∀ x ∈ values, c.min ≤ x) ∧
      (c.max ∈ values ∧ ∀ x ∈ values, x ≤ c.max) ∧
      c.pad = Max.max 5
        (fl ((if fl (c.max - c.min) = 0 then 1 else fl (c.max - c.min)) * fl (15 / 100))) ∧
      c.minBoundRaw = fl (c.min - c.pad) ∧ c.maxBoundRaw = fl (c.max + c.pad) ∧
      c.minBound = 10 * (⌊fl (c.minBoundRaw / 10)⌋ : ℚ) ∧
      (∃ k : ℤ, 0 < k ∧ c.step = 10 * (k : ℚ)) ∧
      c.maxBoundRaw ≤ c.minBound + 4 * c.step ∧
      c.maxBound = c.minBound + 4 * c.step ∧
      (∀ s : ℤ, 0 < s → c.maxBoundRaw ≤ c.minBound + 4 * (10 * (s : ℚ)) →
        c.step ≤ 10 * (s : ℚ)) ∧
      (∀ s : ℤ, 0 < s → 10 * (s : ℚ) < c.step →
        c.minBound + 4 * (10 * (s : ℚ)) < c.maxBoundRaw) := by
  cases values with
  | nil => exact absurd rfl hne
  | cons v vs =>
    obtain ⟨n1, n2, k, hn1, hn2, hk, -, hk1, hk3, -, hb2, -, -, -, -, -, -, -, -, -, -, hCle, hc⟩ :=
      axis64 maxArgs fuel v vs hlen (bounded_series _ hd)
    have hmin : ∀ s : ℤ, 0 < s →
        fl (jsMax v vs + padOf64 (jsMin v vs) (jsMax v vs)) ≤ 10 * (n1 : ℚ) + 4 * (10 * (s : ℚ)) →
        10 * (k : ℚ) ≤ 10 * (s : ℚ) := by
      intro s _ hcover
      have h1 : fl (jsMax v vs + padOf64 (jsMin v vs) (jsMax v vs)) / 10 ≤ ((n1 + 4 * s : ℤ) : ℚ) := by
        push_cast
        linarith
      have h2 : n2 ≤ n1 + 4 * s := by
        rw [hn2]
        exact ceil_fl_le _ _ h1 (hn2 ▸ hb2)
      have h3 : k ≤ s := by
        rw [hk]
        apply Int.ceil_le.mpr
        have : ((n2 - n1 : ℤ) : ℚ) ≤ ((4 * s : ℤ) : ℚ) := by exact_mod_cast (by omega : n2 - n1 ≤ 4 * s)
        push_cast at this ⊢
        linarith
      have : (k : ℚ) ≤ (s : ℚ) := by exact_mod_cast h3
      linarith
    have hcover : (10 : ℚ) * (n2 : ℚ) ≤ 10 * (n1 : ℚ) + 40 * (k : ℚ) := by
      have : ((n2 - n1 : ℤ) : ℚ) ≤ ((4 * k : ℤ) : ℚ) := by exact_mod_cast hk3
      push_cast at this
      linarith
    refine ⟨_, hc, ⟨jsMin_mem v vs, jsMin_least v vs⟩, ⟨jsMax_mem v vs, jsMax_greatest v vs⟩,
      rfl, rfl, rfl, ?_, ⟨k, by omega, rfl⟩, ?_, ?_, hmin, ?_⟩
    · dsimp only
      rw [hn1]
    · dsimp only
      linarith
    · dsimp only
      ring
    · intro s hpos hlt
      dsimp only at hlt ⊢
      by_contra hnot
      exact absurd (hmin s hpos (not_lt.mp hnot)) (not_le.mpr hlt)

set_option maxRecDepth 1000000 in
/-- Instance of C21 at the series 80, 95, 110, 105, whose step is 20. -/
theorem createSparkline64_step_minimal_witness :
    (∀ x ∈ ([80, 95, 110, 105] : List ℚ), fl x = x ∧ |x| ≤ 2 ^ 40) ∧
    ∃ c : Chart64, createSparkline64 4 1 [80, 95, 110, 105] = some (Sparkline64.chart c) ∧
      (∃ k : ℤ, 0 < k ∧ c.step = 10 * (k : ℚ)) ∧
      c.maxBoundRaw ≤ c.minBound + 4 * c.step ∧
      (∀ s : ℤ, 0 < s → c.maxBoundRaw ≤ c.minBound + 4 * (10 * (s : ℚ)) →
        c.step ≤ 10 * (s : ℚ)) :=
  have hd : ∀ x ∈ ([80, 95, 110, 105] : List ℚ), fl x = x ∧ |x| ≤ 2 ^ 40 := by
    intro x hx
    simp only [List.mem_cons, List.mem_singleton, List.not_mem_nil, or_false] at hx
    rcases hx with rfl | rfl | rfl | rfl <;> exact ⟨by with_unfolding_all rfl, by norm_num⟩
  match createSparkline64_step_minimal 4 0 [80, 95, 110, 105] (by simp) (by simp) hd with
  | ⟨c, hc, _, _, _, _, _, _, h1, h2, _, h3, _⟩ => ⟨hd, c, hc, h1, h2, h3⟩

set_option maxRecDepth 1000000 in
/-- The original C21 fails on doubles: for the series -1e12, 1e28 the final
step is 3250000000000000249342984192, which is not a multiple of 10, with the
bounds -1500000000000000982004006912 and 11499999999999999190734209024; the
last gridline value, -1500000000000001806637727744, is not the lower bound. -/
theorem createSparkline64_step_not_multiple_of_ten :
    fl (-1000000000000) = -1000000000000 ∧
    fl 9999999999999999583119736832 = 9999999999999999583119736832 ∧
    createSparkline64 65536 1 [-1000000000000, 9999999999999999583119736832]
      = some (Sparkline64.chart
      { min := -1000000000000, max := 9999999999999999583119736832,
        pad := 1499999999999999882492379136,
        minBoundRaw := -1500000000000000982004006912,
        maxBoundRaw := 11499999999999999190734209024,
        minBound := -1500000000000000982004006912,
        maxBound := 11499999999999999190734209024,
        step := 3250000000000000249342984192,
        boundedRange := 13000000000000000997371936768,
        coords := [(56, 4841910897455419 / 35184372088832),
          (822, 1997389738581385 / 70368744177664)],
        yTickValues := [11499999999999999190734209024, 8249999999999998941391224832,
          4999999999999998692048240640, 1749999999999998442705256448,
          -1500000000000001806637727744] }) ∧
    ¬ ∃ k : ℤ, (3250000000000000249342984192 : ℚ) = 10 * (k : ℚ) := by
  refine ⟨by with_unfolding_all rfl, by with_unfolding_all rfl, by with_unfolding_all rfl, ?_⟩
  rintro ⟨z, hz⟩
  have h : (3250000000000000249342984192 : ℤ) = 10 * z := by exact_mod_cast hz
  omega

/-- C22, as the code has it on doubles: for every non-empty series of doubles of
magnitude at most `2 ^ 40` that the engine accepts as arguments, the axis
computation of `createSparkline` ends and none of its three defensive branches
is taken. With `M = Math.ceil(maxBoundRaw / 10) * 10`, which is the least
multiple of 10 that is at least the double `maxBoundRaw` computed for
`max + pad`, and `minBound = Math.floor(minBoundRaw / 10) * 10`: the guard
`maxBound <= minBound` is false, the guard `step < 10` is false, and the
condition `maxBound < maxBoundRaw` of the loop is false when first tested, so
that the loop returns its entry state whatever fuel it is given. The final step
is `10 * ⌈(M - minBound) / 40⌉` and the final upper bound `minBound + 4 * step`. -/
theorem createSparkline64_defensive_branches_dead (maxArgs fuel : ℕ) (values : List ℚ)
    (hne : values ≠ []) (hlen : values.length ≤ maxArgs)
    (hd : ∀ x ∈ values, fl x = x ∧ |x| ≤ 2 ^ 40) :
    ∃ (c : Chart64) (M : ℚ),
      createSparkline64 maxArgs (fuel + 1) values = some (Sparkline64.chart c) ∧
      (c.min ∈ values ∧ ∀ x ∈ values, c.min ≤ x) ∧
      (c.max ∈ values ∧ ∀ x ∈ values, x ≤ c.max) ∧
      c.pad = Max.max 5
        (fl ((if fl (c.max - c.min) = 0 then 1 else fl (c.max - c.min)) * fl (15 / 100))) ∧
      c.minBoundRaw = fl (c.min - c.pad) ∧ c.maxBoundRaw = fl (c.max + c.pad) ∧
      c.minBound = floorTen64 c.minBoundRaw ∧
      c.minBound = 10 * (⌊fl (c.minBoundRaw / 10)⌋ : ℚ) ∧
      M = ceilTen64 c.maxBoundRaw ∧
      ((∃ z : ℤ, M = 10 * (z : ℚ)) ∧ c.maxBoundRaw ≤ M ∧
        ∀ z : ℤ, c.maxBoundRaw ≤ 10 * (z : ℚ) → M ≤ 10 * (z : ℚ)) ∧
      ¬ (M ≤ c.minBound) ∧ widenBound64 c.minBound M = M ∧
      ¬ (stepCeil64 c.minBound M < 10) ∧
      stepFloor64 (stepCeil64 c.minBound M) = stepCeil64 c.minBound M ∧
      ¬ (fl (c.minBound + fl (stepCeil64 c.minBound M * 4)) < c.maxBoundRaw) ∧
      (∀ n : ℕ,
        growStep64 c.minBound c.maxBoundRaw (n + 1) (stepCeil64 c.minBound M)
            (fl (c.minBound + fl (stepCeil64 c.minBound M * 4)))
          = some (stepCeil64 c.minBound M, fl (c.minBound + fl (stepCeil64 c.minBound M * 4)))) ∧
      c.step = 10 * (⌈(M - c.minBound) / 40⌉ : ℚ) ∧
      c.maxBound = c.minBound + 4 * c.step := by
  cases values with
  | nil => exact absurd rfl hne
  | cons v vs =>
    obtain ⟨n1, n2, k, hn1, hn2, hk, hlt, hk1, hk3, -, hb2, -, hF, hC, hW, hS, hSF, hM, -, -, -,
      hCle, hc⟩ := axis64 maxArgs fuel v vs hlen (bounded_series _ hd)
    have hltq : (n1 : ℚ) < (n2 : ℚ) := by exact_mod_cast hlt
    have hk1q : (1 : ℚ) ≤ (k : ℚ) := by exact_mod_cast hk1
    have hcover : fl (jsMax v vs + padOf64 (jsMin v vs) (jsMax v vs))
        ≤ 10 * (n1 : ℚ) + 40 * (k : ℚ) := by
      have : ((n2 - n1 : ℤ) : ℚ) ≤ ((4 * k : ℤ) : ℚ) := by exact_mod_cast hk3
      push_cast at this
      linarith
    refine ⟨_, 10 * (n2 : ℚ), hc, ⟨jsMin_mem v vs, jsMin_least v vs⟩,
      ⟨jsMax_mem v vs, jsMax_greatest v vs⟩, rfl, rfl, rfl, ?_, ?_, ?_, ⟨⟨n2, rfl⟩, hCle, ?_⟩,
      ?_, ?_, ?_, ?_, ?_, ?_, ?_, ?_⟩
    · exact hF.symm
    · dsimp only
      rw [hn1]
    · exact hC.symm
    · intro z hz
      have h1 : fl (jsMax v vs + padOf64 (jsMin v vs) (jsMax v vs)) / 10 ≤ (z : ℚ) := by
        linarith
      have h2 : n2 ≤ z := by
        rw [hn2]
        exact ceil_fl_le _ _ h1 (hn2 ▸ hb2)
      have : (n2 : ℚ) ≤ (z : ℚ) := by exact_mod_cast h2
      linarith
    · dsimp only
      linarith
    · exact hW
    · dsimp only
      rw [hS]
      linarith
    · dsimp only
      rw [hS, hSF]
    · dsimp only
      rw [hS, hM]
      exact not_lt.mpr hcover
    · intro n
      dsimp only
      rw [hS, hM]
      exact growStep64_done _ _ _ _ _ hcover
    · dsimp only
      have e : (10 * (n2 : ℚ) - 10 * (n1 : ℚ)) / 40 = ((n2 - n1 : ℤ) : ℚ) / 4 := by
        push_cast
        ring
      rw [e, ← hk]
    · dsimp only
      ring

set_option maxRecDepth 1000000 in
/-- Instance of C22 at the flat series 100, 100, 100. -/
theorem createSparkline64_defensive_branches_dead_witness :
    (∀ x ∈ ([100, 100, 100] : List ℚ), fl x = x ∧ |x| ≤ 2 ^ 40) ∧
    ∃ (c : Chart64) (M : ℚ),
      createSparkline64 3 1 [100, 100, 100] = some (Sparkline64.chart c) ∧
      M = ceilTen64 c.maxBoundRaw ∧ ¬ (M ≤ c.minBound) ∧ ¬ (stepCeil64 c.minBound M < 10) ∧
      ¬ (fl (c.minBound + fl (stepCeil64 c.minBound M * 4)) < c.maxBoundRaw) :=
  have hd : ∀ x ∈ ([100, 100, 100] : List ℚ), fl x = x ∧ |x| ≤ 2 ^ 40 := by
    intro x hx
    simp only [List.mem_cons, List.mem_singleton, List.not_mem_nil, or_false] at hx
    rcases hx with rfl | rfl | rfl <;> exact ⟨by with_unfolding_all rfl, by norm_num⟩
  match createSparkline64_defensive_branches_dead 3 0 [100, 100, 100] (by simp) (by simp) hd with
  | ⟨c, M, hc, _, _, _, _, _, _, _, hM, _, h1, _, h2, _, h3, _⟩ => ⟨hd, c, M, hc, hM, h1, h2, h3⟩

set_option maxRecDepth 1000000 in
/-- The original C22 fails on doubles. For the one-sample series 1e19 both
guards are taken: the rounded bounds are both 1e19, so `maxBound <= minBound`
holds, and `minBound + 40` is again 1e19, so the first step is 0 and
`step < 10` holds. For the series 1230345414910637, 1e17 the loop makes one
pass: with fuel for one test of its condition it has not ended, with fuel for
two it ends with the step 32100137740154048, which is not
`10 * ⌈(M - minBound) / 40⌉ = 32100137740154050` for the least multiple of 10,
`M = 114815448187763410`, that is at least `maxBoundRaw`. -/
theorem createSparkline64_defensive_branches_taken :
    fl 10000000000000000000 = 10000000000000000000 ∧
    ceilTen64 (fl (10000000000000000000 + 5)) ≤ floorTen64 (fl (10000000000000000000 - 5)) ∧
    stepCeil64 (floorTen64 (fl (10000000000000000000 - 5)))
      (widenBound64 (floorTen64 (fl (10000000000000000000 - 5)))
        (ceilTen64 (fl (10000000000000000000 + 5)))) < 10 ∧
    createSparkline64 65536 1 [10000000000000000000] = some (Sparkline64.chart
      { min := 10000000000000000000, max := 10000000000000000000, pad := 5,
        minBoundRaw := 10000000000000000000, maxBoundRaw := 10000000000000000000,
        minBound := 10000000000000000000, maxBound := 10000000000000000000, step := 10,
        boundedRange := 1, coords := [(439, 154)],
        yTickValues := [10000000000000000000, 10000000000000000000, 10000000000000000000,
          10000000000000000000, 10000000000000000000] }) ∧
    fl 1230345414910637 = 1230345414910637 ∧ fl 100000000000000000 = 100000000000000000 ∧
    createSparkline64 65536 1 [1230345414910637, 100000000000000000] = none ∧
    createSparkline64 65536 2 [1230345414910637, 100000000000000000]
      = some (Sparkline64.chart
      { min := 1230345414910637, max := 100000000000000000, pad := 14815448187763404,
        minBoundRaw := -13585102772852768, maxBoundRaw := 114815448187763408,
        minBound := -13585102772852770, maxBound := 114815448187763424,
        step := 32100137740154048, boundedRange := 128400550960616192,
        coords := [(56, 4841910897455419 / 35184372088832),
          (822, 7989558954325549 / 281474976710656)],
        yTickValues := [114815448187763424, 82715310447609376, 50615172707455328,
          18515034967301280, -13585102772852768] }) ∧
    10 * (⌈((114815448187763410 : ℚ) - (-13585102772852770)) / 40⌉ : ℚ) = 32100137740154050 :=
  ⟨by with_unfolding_all rfl, by with_unfolding_all decide, by with_unfolding_all decide,
    by with_unfolding_all rfl, by with_unfolding_all rfl, by with_unfolding_all rfl,
    by with_unfolding_all rfl, by with_unfolding_all rfl, by with_unfolding_all rfl⟩

end Dundies
